import Mathlib

/-! # iivineri/api — authentication core

A shallow embedding of the authentication service
(`internal/fiber/modules/auth`), its repositories and the shared access
guard (`internal/fiber/shared/middleware/auth.go`), and of the level filter
of the database log (`internal/database/database.go`), followed by theorems
about them.

Conventions of the embedding

* Go `error` values are the inductive `GoError`; a function returning
  `(T, error)` returns `Except GoError T`.
* The relational store is the explicit state `DB`; a repository method that
  writes returns the new `DB` next to its result.
* External libraries (bcrypt, TOTP, the JWT codec, `time.Parse`, `uuid`,
  `crypto/rand`), the clocks and the failures of the database driver are
  fields of `Env`.
* Instants are integers counting nanoseconds since the Unix epoch.
-/

namespace Iivineri

/-! ## Time -/

/-- Instants (Go `time.Time`), in nanoseconds since the Unix epoch. -/
abbrev Time := Int

/-- Go `time.Second`, in nanoseconds. -/
def Second : Int := 1000000000

/-- Go `time.Hour`, in nanoseconds. -/
def Hour : Int := 3600 * Second

/-- Go `t.Unix()`: whole seconds since the epoch. -/
def Unix (t : Time) : Int := t / Second

/-- Go `time.Unix(sec, 0)`. -/
def timeUnix (sec : Int) : Time := sec * Second

/-- Go zero value `time.Time{}` (January 1 of year 1, UTC). -/
def zeroTime : Time := -62135596800 * Second

/-- Value of `jwt.NewNumericDate(t)`: the instant truncated to whole seconds, kept as
the number of seconds that the token carries. -/
def NewNumericDate (t : Time) : Int := t / Second

/-! ## Errors -/

/-- Go error values met in the authentication core. -/
inductive GoError where
  /-- The value `pgx.ErrNoRows`, returned by `Scan` when a query has no row. -/
  | pgxErrNoRows
  /-- The value `sql.ErrNoRows` the repositories compare against. -/
  | sqlErrNoRows
  /-- Any other failure reported by the database driver or the pool. -/
  | driver (msg : String)
  /-- An error returned by an external library (bcrypt, jwt, time). -/
  | lib (msg : String)
  /-- The value of `fmt.Errorf(msg)`. -/
  | errorf (msg : String)
  /-- The value of `fmt.Errorf(msg + ": %w", inner)`. -/
  | wrapf (msg : String) (inner : GoError)
  deriving DecidableEq, Repr

instance instDecidableEqExcept {ε α : Type} [DecidableEq ε] [DecidableEq α] :
    DecidableEq (Except ε α)
  | .ok a, .ok b =>
    if h : a = b then isTrue (by rw [h]) else isFalse (fun h2 => h (Except.ok.inj h2))
  | .error a, .error b =>
    if h : a = b then isTrue (by rw [h]) else isFalse (fun h2 => h (Except.error.inj h2))
  | .ok _, .error _ => isFalse (fun h => by cases h)
  | .error _, .ok _ => isFalse (fun h => by cases h)

/-- Go `err.Error()`. -/
def GoError.Error : GoError → String
  | .pgxErrNoRows => "no rows in result set"
  | .sqlErrNoRows => "sql: no rows in result set"
  | .driver msg => msg
  | .lib msg => msg
  | .errorf msg => msg
  | .wrapf msg inner => msg ++ ": " ++ inner.Error

/-- Go `errors.Is(err, target)`: the target is met along the chain of `%w` wrappings.
An error built by `fmt.Errorf` without `%w` wraps nothing. -/
def GoError.Is : GoError → GoError → Bool
  | .wrapf msg inner, target => GoError.wrapf msg inner == target || inner.Is target
  | err, target => err == target

/-! ## Entities (`models/user.go`) -/

structure User where
  ID : Int
  Nickname : String
  Email : String
  Password : String
  Enabled2FA : Bool
  Secret2FA : String
  DateOfBirth : Time
  CreatedAt : Time
  UpdatedAt : Option Time
  DeletedAt : Option Time
  deriving DecidableEq, Repr

structure Session where
  ID : Int
  UserID : Int
  UserAgent : Option String
  IPAddress : Option String
  MimeType : Option String
  CreatedAt : Time
  DeletedAt : Option Time
  deriving DecidableEq, Repr

structure ResetPassword where
  ID : String
  Email : String
  CreatedAt : Time
  ExpiredAt : Time
  deriving DecidableEq, Repr

structure User2FASecret where
  ID : Int
  UserID : Int
  Hash : String
  CreatedAt : Time
  DeletedAt : Option Time
  deriving DecidableEq, Repr

structure Ban where
  ID : Int
  UserID : Int
  BannedBy : Int
  Reason : String
  CreatedAt : Time
  deriving DecidableEq, Repr

structure UserPublic where
  ID : Int
  Nickname : String
  Email : String
  Enabled2FA : Bool
  DateOfBirth : Time
  CreatedAt : Time
  UpdatedAt : Option Time
  deriving DecidableEq, Repr

def User.IsDeleted (u : User) : Bool :=
  u.DeletedAt.isSome

def User.Is2FAEnabled (u : User) : Bool :=
  u.Enabled2FA && u.Secret2FA != ""

def Session.IsActive (s : Session) : Bool :=
  s.DeletedAt.isNone

def User.ToPublic (u : User) : UserPublic :=
  { ID := u.ID
    Nickname := u.Nickname
    Email := u.Email
    Enabled2FA := u.Enabled2FA
    DateOfBirth := u.DateOfBirth
    CreatedAt := u.CreatedAt
    UpdatedAt := u.UpdatedAt }

/-! ## Requests and responses (`models/requests.go`) -/

structure LoginRequest where
  Email : String
  Password : String
  TOTPCode : Option String
  deriving DecidableEq, Repr

structure RegisterRequest where
  Nickname : String
  Email : String
  Password : String
  DateOfBirth : String
  deriving DecidableEq, Repr

structure LoginResponse where
  Token : String
  User : Option UserPublic
  ExpiresAt : Time
  Requires2FA : Bool
  deriving DecidableEq, Repr

/-! ## Token claims (`service.go`, `JWTClaims`) -/

/-- The claims of a token: `UserID` and the registered claims the code reads or the
validator of the JWT library checks. Dates are in whole seconds. -/
structure JWTClaims where
  UserID : Int
  ExpiresAt : Option Int
  IssuedAt : Option Int
  NotBefore : Option Int
  Issuer : String
  deriving DecidableEq, Repr

/-! ## The store -/

/-- The tables read and written by the repositories, with the sequences that number
their rows. -/
structure DB where
  users : List User
  userSeq : Int
  sessions : List Session
  sessionSeq : Int
  resets : List ResetPassword
  secrets : List User2FASecret
  secretSeq : Int
  bans : List Ban
  banSeq : Int
  deriving DecidableEq, Repr

/-- The repository methods, one name per query sent to the database. -/
inductive StoreOp where
  | userCreate | userGetByID | userGetByEmail | userGetByNickname | userUpdate
  | userSoftDelete | userEmailExists | userNicknameExists
  | sessionCreate | sessionGetByID | sessionGetActiveByUserID | sessionDelete
  | sessionDeleteAllByUserID | sessionCleanupExpired
  | resetCreate | resetGetByID | resetGetByEmail | resetDelete | resetDeleteByEmail
  | resetCleanupExpired
  | secretCreate | secretGetActiveByUserID | secretDeleteByUserID | secretMarkUsed
  | banCreate | banGetActiveByUserID | banIsUserBanned
  deriving DecidableEq, Repr

/-- What the service does not compute itself: the two clocks, the signing secret, the
external libraries and the failures of the database driver. -/
structure Env where
  /-- Process clock, `time.Now()`. -/
  now : Time
  /-- Database clock, `NOW()`. -/
  dbNow : Time
  /-- The configured signing secret, `config.App.JWTSecret()`. -/
  jwtSecret : String
  /-- A failure of the driver or the pool for the query of a repository method
  (connection lost, timeout, constraint violation), with its message. -/
  fault : StoreOp → Option String
  /-- The function `bcrypt.GenerateFromPassword(password, bcrypt.DefaultCost)`. -/
  GenerateFromPassword : String → Except GoError String
  /-- The test `bcrypt.CompareHashAndPassword(hash, password) == nil`. -/
  CompareHashAndPassword : String → String → Bool
  /-- The function `totp.Validate(passcode, secret)` at the instant of the call. -/
  totpValidate : String → String → Bool
  /-- The function `jwt.NewWithClaims(HS256, claims).SignedString(key)`. -/
  SignedString : String → JWTClaims → Except GoError String
  /-- Decoding and signature verification of a token string under a key, as done by
  `jwt.ParseWithClaims` before it validates the claims. -/
  jwtVerify : String → String → Option JWTClaims
  /-- The function `time.Parse(layout, value)`. -/
  timeParse : String → String → Except GoError Time
  /-- Process clock at a second call of `time.Now()` within the same operation. -/
  now2 : Time
  /-- The value of `uuid.New().String()`. -/
  newUUID : String
  /-- The bytes that the call number `i` of `rand.Read` writes into its slice. -/
  randRead : Nat → List Nat
  /-- The function `totp.Generate(opts)` on issuer and account name: the secret and the
  provisioning URL of the generated key. -/
  totpGenerate : String → String → Except GoError (String × String)

/-- Result of `db.QueryRow(...).Scan(...)`: the driver failure if there is one, the
row if the query selects one, `pgx.ErrNoRows` otherwise. -/
def QueryRow {α : Type} (env : Env) (op : StoreOp) (row : Option α) : Except GoError α :=
  match env.fault op with
  | some msg => .error (.driver msg)
  | none =>
    match row with
    | some r => .ok r
    | none => .error .pgxErrNoRows

/-- Modelled from the spec: the schema of the `users` table is not in the source; the
columns the `INSERT` of `UserRepository.Create` leaves out take their defaults, which
the data model gives as flag off and secret empty ("2FA secret (opaque, empty when
disabled)"), no update and no deletion time. -/
def usersColumnDefaults : Bool × String × Option Time × Option Time :=
  (false, "", none, none)

/-! ## `repository/user_repository.go` -/

/-- The row that `INSERT INTO users (nickname, email, password, date_of_birth)` adds:
the four given columns, the next id, the creation time and the column defaults. -/
def insertedUser (env : Env) (db : DB) (user : User) : User :=
  { ID := db.userSeq
    Nickname := user.Nickname
    Email := user.Email
    Password := user.Password
    Enabled2FA := usersColumnDefaults.1
    Secret2FA := usersColumnDefaults.2.1
    DateOfBirth := user.DateOfBirth
    CreatedAt := env.dbNow
    UpdatedAt := usersColumnDefaults.2.2.1
    DeletedAt := usersColumnDefaults.2.2.2 }

/-- `UserRepository.Create`: inserts the row and scans `id, created_at` back into the
given user. -/
def UserRepository.Create (env : Env) (db : DB) (user : User) : Except GoError User × DB :=
  match QueryRow env .userCreate (some (insertedUser env db user)) with
  | .error err => (.error (.wrapf "failed to create user" err), db)
  | .ok row =>
    (.ok { user with ID := row.ID, CreatedAt := row.CreatedAt },
     { db with users := db.users ++ [row], userSeq := db.userSeq + 1 })

/-- The row of `SELECT ... FROM users WHERE id = $1 AND deleted_at IS NULL`. -/
def selectUserByID (db : DB) (id : Int) : Option User :=
  db.users.find? (fun u => u.ID == id && u.DeletedAt.isNone)

/-- The row of `SELECT ... FROM users WHERE email = $1 AND deleted_at IS NULL`. -/
def selectUserByEmail (db : DB) (email : String) : Option User :=
  db.users.find? (fun u => u.Email == email && u.DeletedAt.isNone)

/-- `SELECT EXISTS(SELECT 1 FROM users WHERE email = $1 AND deleted_at IS NULL)`. -/
def existsUserByEmail (db : DB) (email : String) : Bool :=
  db.users.any (fun u => u.Email == email && u.DeletedAt.isNone)

/-- `SELECT EXISTS(SELECT 1 FROM users WHERE nickname = $1 AND deleted_at IS NULL)`. -/
def existsUserByNickname (db : DB) (nickname : String) : Bool :=
  db.users.any (fun u => u.Nickname == nickname && u.DeletedAt.isNone)

/-- `SELECT EXISTS(SELECT 1 FROM bans WHERE user_id = $1)`. -/
def existsBanByUser (db : DB) (userID : Int) : Bool :=
  db.bans.any (fun b => b.UserID == userID)

def UserRepository.GetByID (env : Env) (db : DB) (id : Int) : Except GoError User :=
  match QueryRow env .userGetByID (selectUserByID db id) with
  | .ok user => .ok user
  | .error err =>
    if err = .sqlErrNoRows then .error (.errorf "user not found")
    else .error (.wrapf "failed to get user" err)

def UserRepository.GetByEmail (env : Env) (db : DB) (email : String) : Except GoError User :=
  match QueryRow env .userGetByEmail (selectUserByEmail db email) with
  | .ok user => .ok user
  | .error err =>
    if err = .sqlErrNoRows then .error (.errorf "user not found")
    else .error (.wrapf "failed to get user" err)

def UserRepository.EmailExists (env : Env) (db : DB) (email : String) : Except GoError Bool :=
  match QueryRow env .userEmailExists (some (existsUserByEmail db email)) with
  | .ok found => .ok found
  | .error err => .error (.wrapf "failed to check email existence" err)

def UserRepository.NicknameExists (env : Env) (db : DB) (nickname : String) :
    Except GoError Bool :=
  match QueryRow env .userNicknameExists (some (existsUserByNickname db nickname)) with
  | .ok found => .ok found
  | .error err => .error (.wrapf "failed to check nickname existence" err)

/-! ## `repository/ban_repository.go` -/

def BanRepository.IsUserBanned (env : Env) (db : DB) (userID : Int) : Except GoError Bool :=
  match QueryRow env .banIsUserBanned (some (existsBanByUser db userID)) with
  | .ok found => .ok found
  | .error err => .error (.wrapf "failed to check ban status" err)

/-- Result of `db.Exec(...)`: the driver failure if there is one. -/
def Exec (env : Env) (op : StoreOp) : Except GoError Unit :=
  match env.fault op with
  | some msg => .error (.driver msg)
  | none => .ok ()

/-! ## `repository/user_repository.go`, writes -/

/-- A row after `UPDATE users SET nickname = $2, email = $3, password = $4,
enabled_2fa = $5, secret_2fa = $6, date_of_birth = $7, updated_at = NOW()`. -/
def updatedUser (env : Env) (user row : User) : User :=
  { row with
    Nickname := user.Nickname
    Email := user.Email
    Password := user.Password
    Enabled2FA := user.Enabled2FA
    Secret2FA := user.Secret2FA
    DateOfBirth := user.DateOfBirth
    UpdatedAt := some env.dbNow }

/-- `UserRepository.Update`: rewrites the rows `WHERE id = $1 AND deleted_at IS NULL`. -/
def UserRepository.Update (env : Env) (db : DB) (user : User) : Except GoError Unit × DB :=
  match Exec env .userUpdate with
  | .error err => (.error (.wrapf "failed to update user" err), db)
  | .ok _ =>
    (.ok (),
     { db with users := db.users.map fun row =>
         if row.ID == user.ID && row.DeletedAt.isNone then updatedUser env user row else row })

/-! ## `repository/session_repository.go` -/

/-- Modelled from the spec: the schema of the `sessions` table is not in the source; the
row that `INSERT INTO sessions (user_id, user_agent, ip_address, mime_type)` adds takes
the next id, the creation time of the database clock and no deletion time ("active while
deletion time is unset"). -/
def insertedSession (env : Env) (db : DB) (session : Session) : Session :=
  { ID := db.sessionSeq
    UserID := session.UserID
    UserAgent := session.UserAgent
    IPAddress := session.IPAddress
    MimeType := session.MimeType
    CreatedAt := env.dbNow
    DeletedAt := none }

/-- `SessionRepository.Create`. No operation of the service calls it. -/
def SessionRepository.Create (env : Env) (db : DB) (session : Session) :
    Except GoError Session × DB :=
  match QueryRow env .sessionCreate (some (insertedSession env db session)) with
  | .error err => (.error (.wrapf "failed to create session" err), db)
  | .ok row =>
    (.ok { session with ID := row.ID, CreatedAt := row.CreatedAt },
     { db with sessions := db.sessions ++ [row], sessionSeq := db.sessionSeq + 1 })

/-- `SessionRepository.DeleteAllByUserID`: `UPDATE sessions SET deleted_at = NOW()
WHERE user_id = $1 AND deleted_at IS NULL`. -/
def SessionRepository.DeleteAllByUserID (env : Env) (db : DB) (userID : Int) :
    Except GoError Unit × DB :=
  match Exec env .sessionDeleteAllByUserID with
  | .error err => (.error (.wrapf "failed to delete sessions" err), db)
  | .ok _ =>
    (.ok (),
     { db with sessions := db.sessions.map fun s =>
         if s.UserID == userID && s.DeletedAt.isNone then { s with DeletedAt := some env.dbNow }
         else s })

/-! ## `repository/reset_password_repository.go` -/

/-- The table after `INSERT INTO reset_passwords (id, email, created_at, expired_at)
VALUES ($1, $2, $3, $4) ON CONFLICT (email) DO UPDATE SET id = $1, created_at = $3,
expired_at = $4`: the row of that email is rewritten in place, or the new row added. -/
def upsertReset (rows : List ResetPassword) (reset : ResetPassword) : List ResetPassword :=
  if rows.any (fun r => r.Email == reset.Email) then
    rows.map fun r =>
      if r.Email == reset.Email then
        { r with ID := reset.ID, CreatedAt := reset.CreatedAt, ExpiredAt := reset.ExpiredAt }
      else r
  else rows ++ [reset]

/-- The fields that `ResetPasswordRepository.Create` sets before the query; the clock
is read once for `CreatedAt` and once more for `ExpiredAt`. -/
def stampedReset (env : Env) (reset : ResetPassword) : ResetPassword :=
  { reset with
    ID := env.newUUID
    CreatedAt := env.now
    ExpiredAt := env.now2 + 24 * Hour }

def ResetPasswordRepository.Create (env : Env) (db : DB) (reset : ResetPassword) :
    Except GoError ResetPassword × DB :=
  let reset := stampedReset env reset
  match Exec env .resetCreate with
  | .error err => (.error (.wrapf "failed to create reset token" err), db)
  | .ok _ => (.ok reset, { db with resets := upsertReset db.resets reset })

/-- The row of `SELECT ... FROM reset_passwords WHERE id = $1 AND expired_at > NOW()`. -/
def selectResetByID (env : Env) (db : DB) (id : String) : Option ResetPassword :=
  db.resets.find? (fun r => r.ID == id && decide (env.dbNow < r.ExpiredAt))

def ResetPasswordRepository.GetByID (env : Env) (db : DB) (id : String) :
    Except GoError ResetPassword :=
  match QueryRow env .resetGetByID (selectResetByID env db id) with
  | .ok reset => .ok reset
  | .error err =>
    if err = .sqlErrNoRows then .error (.errorf "reset token not found or expired")
    else .error (.wrapf "failed to get reset token" err)

/-- `ResetPasswordRepository.Delete`: `DELETE FROM reset_passwords WHERE id = $1`. -/
def ResetPasswordRepository.Delete (env : Env) (db : DB) (id : String) :
    Except GoError Unit × DB :=
  match Exec env .resetDelete with
  | .error err => (.error (.wrapf "failed to delete reset token" err), db)
  | .ok _ => (.ok (), { db with resets := db.resets.filter fun r => r.ID != id })

/-! ## `repository/2fa_repository.go` -/

/-- Modelled from the spec: the schema of the `user_2fa_secrets` table is not in the
source; the row that `INSERT INTO user_2fa_secrets (user_id, hash)` adds takes the next
id, the creation time of the database clock and no deletion time ("a code is usable
only while deletion time is unset"). -/
def insertedSecret (env : Env) (db : DB) (secret : User2FASecret) : User2FASecret :=
  { ID := db.secretSeq
    UserID := secret.UserID
    Hash := secret.Hash
    CreatedAt := env.dbNow
    DeletedAt := none }

def User2FASecretRepository.Create (env : Env) (db : DB) (secret : User2FASecret) :
    Except GoError User2FASecret × DB :=
  match QueryRow env .secretCreate (some (insertedSecret env db secret)) with
  | .error err => (.error (.wrapf "failed to create 2FA secret" err), db)
  | .ok row =>
    (.ok { secret with ID := row.ID, CreatedAt := row.CreatedAt },
     { db with secrets := db.secrets ++ [row], secretSeq := db.secretSeq + 1 })

/-- `User2FASecretRepository.DeleteByUserID`: `UPDATE user_2fa_secrets SET deleted_at =
NOW() WHERE user_id = $1 AND deleted_at IS NULL`. -/
def User2FASecretRepository.DeleteByUserID (env : Env) (db : DB) (userID : Int) :
    Except GoError Unit × DB :=
  match Exec env .secretDeleteByUserID with
  | .error err => (.error (.wrapf "failed to delete 2FA secrets" err), db)
  | .ok _ =>
    (.ok (),
     { db with secrets := db.secrets.map fun c =>
         if c.UserID == userID && c.DeletedAt.isNone then { c with DeletedAt := some env.dbNow }
         else c })

/-- `User2FASecretRepository.MarkUsed`: `UPDATE user_2fa_secrets SET deleted_at = NOW()
WHERE id = $1 AND deleted_at IS NULL`. No operation of the service calls it. -/
def User2FASecretRepository.MarkUsed (env : Env) (db : DB) (id : Int) :
    Except GoError Unit × DB :=
  match Exec env .secretMarkUsed with
  | .error err => (.error (.wrapf "failed to mark 2FA secret as used" err), db)
  | .ok _ =>
    (.ok (),
     { db with secrets := db.secrets.map fun c =>
         if c.ID == id && c.DeletedAt.isNone then { c with DeletedAt := some env.dbNow }
         else c })

/-! ## `encoding/base32` -/

/-- The alphabet of `base32.StdEncoding`. -/
def base32.encodeStd : String := "ABCDEFGHIJKLMNOPQRSTUVWXYZ234567"

/-- The character of a 5-bit value. -/
def base32.char (v : Nat) : Char :=
  base32.encodeStd.data.getD (v % 32) 'A'

/-- The eight characters that encode five bytes. -/
def base32.quantum (b0 b1 b2 b3 b4 : Nat) : List Char :=
  [ base32.char (b0 / 8)
  , base32.char ((b0 % 8) * 4 + b1 / 64)
  , base32.char ((b1 / 2) % 32)
  , base32.char ((b1 % 2) * 16 + b2 / 16)
  , base32.char ((b2 % 16) * 2 + b3 / 128)
  , base32.char ((b3 / 4) % 32)
  , base32.char ((b3 % 4) * 8 + b4 / 32)
  , base32.char (b4 % 32) ]

/-- The characters of `base32.StdEncoding.EncodeToString(src)`, padding included. -/
def base32.encode : List Nat → List Char
  | [] => []
  | [b0] => (base32.quantum b0 0 0 0 0).take 2 ++ List.replicate 6 '='
  | [b0, b1] => (base32.quantum b0 b1 0 0 0).take 4 ++ List.replicate 4 '='
  | [b0, b1, b2] => (base32.quantum b0 b1 b2 0 0).take 5 ++ List.replicate 3 '='
  | [b0, b1, b2, b3] => (base32.quantum b0 b1 b2 b3 0).take 7 ++ List.replicate 1 '='
  | b0 :: b1 :: b2 :: b3 :: b4 :: rest => base32.quantum b0 b1 b2 b3 b4 ++ base32.encode rest

def base32.StdEncoding.EncodeToString (src : List Nat) : String :=
  String.mk (base32.encode src)

/-! ## `models/requests.go` -/

/-- Go `time.RFC3339`. -/
def RFC3339 : String := "2006-01-02T15:04:05Z07:00"

/-- The loop of `GetDateOfBirth` over the layouts still to try. -/
def parseFirst (env : Env) (value : String) : List String → Option Time
  | [] => none
  | format :: rest =>
    match env.timeParse format value with
    | .ok t => some t
    | .error _ => parseFirst env value rest

def RegisterRequest.GetDateOfBirth (env : Env) (r : RegisterRequest) : Except GoError Time :=
  let formats := ["2006-01-02", "2006-01-02T15:04:05Z", RFC3339]
  match parseFirst env r.DateOfBirth formats with
  | some t => .ok t
  | none =>
    .error (.errorf ("invalid date format: " ++ r.DateOfBirth ++
      ", expected format: YYYY-MM-DD"))

/-! ## The JWT library -/

/-- `jwt.ParseWithClaims(tokenString, &JWTClaims{}, keyfunc)` with the key function
of the service, which returns `jwtSecret`: the token is decoded and its signature
verified, then the default validator checks the expiry (`now` before `exp`) and the
not-before date when the claims carry them. On success `token.Valid` is true. -/
def ParseWithClaims (env : Env) (tokenString : String) : Except GoError JWTClaims :=
  match env.jwtVerify env.jwtSecret tokenString with
  | none => .error (.lib "token is malformed or its signature is invalid")
  | some claims =>
    if (match claims.ExpiresAt with
        | some exp => decide (env.now < timeUnix exp)
        | none => true) = false then
      .error (.lib "token has invalid claims: token is expired")
    else if (match claims.NotBefore with
        | some nbf => decide (timeUnix nbf ≤ env.now)
        | none => true) = false then
      .error (.lib "token has invalid claims: token is not valid yet")
    else .ok claims

/-! ## `service/service.go` -/

/-- The claims of the access token built in `GenerateTokens`. -/
def accessClaims (env : Env) (user : User) : JWTClaims :=
  { UserID := user.ID
    ExpiresAt := some (NewNumericDate (timeUnix (Unix (env.now + 24 * Hour))))
    IssuedAt := some (NewNumericDate env.now)
    NotBefore := none
    Issuer := "iivineri" }

/-- The claims of the refresh token built in `GenerateTokens`. -/
def refreshClaims (env : Env) (user : User) : JWTClaims :=
  { UserID := user.ID
    ExpiresAt := some (NewNumericDate (env.now + 7 * 24 * Hour))
    IssuedAt := some (NewNumericDate env.now)
    NotBefore := none
    Issuer := "iivineri-refresh" }

/-- `GenerateTokens`: the access token, the refresh token and `expiresAt`. -/
def GenerateTokens (env : Env) (user : User) : Except GoError (String × String × Int) :=
  let expiresAt := Unix (env.now + 24 * Hour)
  match env.SignedString env.jwtSecret (accessClaims env user) with
  | .error err => .error (.wrapf "failed to sign access token" err)
  | .ok accessToken =>
    match env.SignedString env.jwtSecret (refreshClaims env user) with
    | .error err => .error (.wrapf "failed to sign refresh token" err)
    | .ok refreshToken => .ok (accessToken, refreshToken, expiresAt)

def Register (env : Env) (db : DB) (req : RegisterRequest) : Except GoError UserPublic × DB :=
  match UserRepository.EmailExists env db req.Email with
  | .error err => (.error (.wrapf "failed to check email existence" err), db)
  | .ok emailExists =>
    if emailExists then (.error (.errorf "email already exists"), db)
    else
      match UserRepository.NicknameExists env db req.Nickname with
      | .error err => (.error (.wrapf "failed to check nickname existence" err), db)
      | .ok nicknameExists =>
        if nicknameExists then (.error (.errorf "nickname already exists"), db)
        else
          match env.GenerateFromPassword req.Password with
          | .error err => (.error (.wrapf "failed to hash password" err), db)
          | .ok hashedPassword =>
            match req.GetDateOfBirth env with
            | .error err => (.error (.wrapf "invalid date of birth format" err), db)
            | .ok dateOfBirth =>
              let user : User :=
                { ID := 0
                  Nickname := req.Nickname
                  Email := req.Email
                  Password := hashedPassword
                  Enabled2FA := false
                  Secret2FA := ""
                  DateOfBirth := dateOfBirth
                  CreatedAt := zeroTime
                  UpdatedAt := none
                  DeletedAt := none }
              match UserRepository.Create env db user with
              | (.error err, db1) => (.error (.wrapf "failed to create user" err), db1)
              | (.ok created, db1) => (.ok created.ToPublic, db1)

/-- The end of `Login`, from the comment "Generate tokens" on. -/
def loginSuccess (env : Env) (user : User) : Except GoError LoginResponse :=
  match GenerateTokens env user with
  | .error err => .error (.wrapf "failed to generate tokens" err)
  | .ok (accessToken, _, expiresAt) =>
    .ok { Token := accessToken
          User := some user.ToPublic
          ExpiresAt := timeUnix expiresAt
          Requires2FA := false }

/-- The response of `Login` that asks for a TOTP code: every field but `Requires2FA`
has its zero value. -/
def challengeResponse : LoginResponse :=
  { Token := "", User := none, ExpiresAt := zeroTime, Requires2FA := true }

def Login (env : Env) (db : DB) (req : LoginRequest) : Except GoError LoginResponse :=
  match UserRepository.GetByEmail env db req.Email with
  | .error _ => .error (.errorf "invalid credentials")
  | .ok user =>
    match BanRepository.IsUserBanned env db user.ID with
    | .error err => .error (.wrapf "failed to check ban status" err)
    | .ok isBanned =>
      if isBanned then .error (.errorf "user is banned")
      else if env.CompareHashAndPassword user.Password req.Password = false then
        .error (.errorf "invalid credentials")
      else if user.Is2FAEnabled then
        match req.TOTPCode with
        | none => .ok challengeResponse
        | some code =>
          if code = "" then .ok challengeResponse
          else if env.totpValidate code user.Secret2FA = false then
            .error (.errorf "invalid 2FA code")
          else loginSuccess env user
      else loginSuccess env user

/-- `ValidateToken`. When the parser returns no error the claims have the type
`*JWTClaims` and `token.Valid` holds, so the second "invalid token" return of the
source is not reached. -/
def ValidateToken (env : Env) (db : DB) (tokenString : String) : Except GoError User :=
  match ParseWithClaims env tokenString with
  | .error _ => .error (.errorf "invalid token")
  | .ok claims =>
    if claims.Issuer != "iivineri" then .error (.errorf "invalid token type")
    else
      match UserRepository.GetByID env db claims.UserID with
      | .error _ => .error (.errorf "user not found")
      | .ok user => .ok user

def ValidateUser (env : Env) (db : DB) (userID : Int) : Except GoError User :=
  match UserRepository.GetByID env db userID with
  | .error _ => .error (.errorf "user not found")
  | .ok user =>
    match BanRepository.IsUserBanned env db user.ID with
    | .error err => .error (.wrapf "failed to check ban status" err)
    | .ok isBanned =>
      if isBanned then .error (.errorf "user is banned")
      else .ok user

structure RefreshTokenRequest where
  RefreshToken : String
  deriving DecidableEq, Repr

/-- `RefreshToken`. As in `ValidateToken`, the second "invalid refresh token" return
of the source is not reached. -/
def RefreshToken (env : Env) (db : DB) (req : RefreshTokenRequest) :
    Except GoError LoginResponse :=
  match ParseWithClaims env req.RefreshToken with
  | .error _ => .error (.errorf "invalid refresh token")
  | .ok claims =>
    if claims.Issuer != "iivineri-refresh" then .error (.errorf "invalid refresh token type")
    else
      match UserRepository.GetByID env db claims.UserID with
      | .error _ => .error (.errorf "user not found")
      | .ok user =>
        match BanRepository.IsUserBanned env db user.ID with
        | .error err => .error (.wrapf "failed to check ban status" err)
        | .ok isBanned =>
          if isBanned then .error (.errorf "user is banned")
          else
            match GenerateTokens env user with
            | .error err => .error (.wrapf "failed to generate tokens" err)
            | .ok (accessToken, _, expiresAt) =>
              .ok { Token := accessToken
                    User := some user.ToPublic
                    ExpiresAt := timeUnix expiresAt
                    Requires2FA := false }

/-! ## `service/service.go`, password and 2FA management -/

structure ChangePasswordRequest where
  CurrentPassword : String
  NewPassword : String
  TOTPCode : Option String
  deriving DecidableEq, Repr

structure PasswordResetRequest where
  Email : String
  deriving DecidableEq, Repr

structure PasswordResetConfirmRequest where
  Token : String
  NewPassword : String
  deriving DecidableEq, Repr

structure Enable2FARequest where
  Password : String
  deriving DecidableEq, Repr

structure Confirm2FARequest where
  Secret : String
  TOTPCode : String
  deriving DecidableEq, Repr

structure Disable2FARequest where
  Password : String
  TOTPCode : Option String
  deriving DecidableEq, Repr

structure Enable2FAResponse where
  Secret : String
  QRCodeURL : String
  BackupCodes : List String
  deriving DecidableEq, Repr

def Logout (_env : Env) (db : DB) (_userID : Int) : Except GoError Unit × DB :=
  (.ok (), db)

def LogoutAll (env : Env) (db : DB) (userID : Int) : Except GoError Unit × DB :=
  match SessionRepository.DeleteAllByUserID env db userID with
  | (.error err, db1) => (.error (.wrapf "failed to logout all sessions" err), db1)
  | (.ok _, db1) => (.ok (), db1)

def GetProfile (env : Env) (db : DB) (userID : Int) : Except GoError UserPublic :=
  match UserRepository.GetByID env db userID with
  | .error err => .error (.wrapf "failed to get user profile" err)
  | .ok user => .ok user.ToPublic

/-- The end of `ChangePassword`, from the comment "Hash new password" on. -/
def changePasswordEnd (env : Env) (db : DB) (user : User) (req : ChangePasswordRequest) :
    Except GoError Unit × DB :=
  match env.GenerateFromPassword req.NewPassword with
  | .error err => (.error (.wrapf "failed to hash new password" err), db)
  | .ok hashedPassword =>
    match UserRepository.Update env db { user with Password := hashedPassword } with
    | (.error err, db1) => (.error (.wrapf "failed to update password" err), db1)
    | (.ok _, db1) => (.ok (), db1)

def ChangePassword (env : Env) (db : DB) (userID : Int) (req : ChangePasswordRequest) :
    Except GoError Unit × DB :=
  match UserRepository.GetByID env db userID with
  | .error _ => (.error (.errorf "user not found"), db)
  | .ok user =>
    if env.CompareHashAndPassword user.Password req.CurrentPassword = false then
      (.error (.errorf "invalid current password"), db)
    else if user.Is2FAEnabled then
      match req.TOTPCode with
      | none => (.error (.errorf "2FA code required"), db)
      | some code =>
        if code = "" then (.error (.errorf "2FA code required"), db)
        else if env.totpValidate code user.Secret2FA = false then
          (.error (.errorf "invalid 2FA code"), db)
        else changePasswordEnd env db user req
    else changePasswordEnd env db user req

def RequestPasswordReset (env : Env) (db : DB) (req : PasswordResetRequest) :
    Except GoError Unit × DB :=
  match UserRepository.GetByEmail env db req.Email with
  | .error _ => (.ok (), db)
  | .ok _ =>
    let reset : ResetPassword :=
      { ID := "", Email := req.Email, CreatedAt := zeroTime, ExpiredAt := zeroTime }
    match ResetPasswordRepository.Create env db reset with
    | (.error err, db1) => (.error (.wrapf "failed to create reset token" err), db1)
    | (.ok _, db1) => (.ok (), db1)

/-- `ConfirmPasswordReset`. A failure of the token deletion or of the session
invalidation is logged and not returned. -/
def ConfirmPasswordReset (env : Env) (db : DB) (req : PasswordResetConfirmRequest) :
    Except GoError Unit × DB :=
  match ResetPasswordRepository.GetByID env db req.Token with
  | .error _ => (.error (.errorf "invalid or expired reset token"), db)
  | .ok reset =>
    match UserRepository.GetByEmail env db reset.Email with
    | .error _ => (.error (.errorf "user not found"), db)
    | .ok user =>
      match env.GenerateFromPassword req.NewPassword with
      | .error err => (.error (.wrapf "failed to hash password" err), db)
      | .ok hashedPassword =>
        match UserRepository.Update env db { user with Password := hashedPassword } with
        | (.error err, db1) => (.error (.wrapf "failed to update password" err), db1)
        | (.ok _, db1) =>
          let db2 := (ResetPasswordRepository.Delete env db1 req.Token).2
          let db3 := (SessionRepository.DeleteAllByUserID env db2 user.ID).2
          (.ok (), db3)

/-- The ten bytes of `code := make([]byte, 10); rand.Read(code)` at call `i`. -/
def randomCode (env : Env) (i : Nat) : List Nat :=
  ((env.randRead i).map (fun b => b % 256) ++ List.replicate 10 0).take 10

/-- The backup code number `i`: `base32.StdEncoding.EncodeToString(code)[:8]`. -/
def backupCode (env : Env) (i : Nat) : String :=
  String.mk ((base32.StdEncoding.EncodeToString (randomCode env i)).data.take 8)

/-- The value of `hashedCode, _ := bcrypt.GenerateFromPassword([]byte(code),
bcrypt.DefaultCost)` as a string: the error is dropped, and a failed hashing leaves
the empty string. -/
def hashedBackupCode (env : Env) (code : String) : String :=
  match env.GenerateFromPassword code with
  | .ok hash => hash
  | .error _ => ""

/-- The loop "Store backup codes" of `Enable2FA`: the error of the hashing and the
error of the insertion are both dropped. -/
def storeBackupCodes (env : Env) (userID : Int) : DB → List String → DB
  | db, [] => db
  | db, code :: rest =>
    storeBackupCodes env userID
      (User2FASecretRepository.Create env db
        { ID := 0, UserID := userID, Hash := hashedBackupCode env code
          CreatedAt := zeroTime, DeletedAt := none }).2 rest

def Enable2FA (env : Env) (db : DB) (userID : Int) (req : Enable2FARequest) :
    Except GoError Enable2FAResponse × DB :=
  match UserRepository.GetByID env db userID with
  | .error _ => (.error (.errorf "user not found"), db)
  | .ok user =>
    if env.CompareHashAndPassword user.Password req.Password = false then
      (.error (.errorf "invalid password"), db)
    else
      match env.totpGenerate "Iivineri" user.Email with
      | .error err => (.error (.wrapf "failed to generate 2FA secret" err), db)
      | .ok (secret, url) =>
        let backupCodes := (List.range 10).map (backupCode env)
        (.ok { Secret := secret, QRCodeURL := url, BackupCodes := backupCodes },
         storeBackupCodes env userID db backupCodes)

def Confirm2FA (env : Env) (db : DB) (userID : Int) (req : Confirm2FARequest) :
    Except GoError Unit × DB :=
  match UserRepository.GetByID env db userID with
  | .error _ => (.error (.errorf "user not found"), db)
  | .ok user =>
    if env.totpValidate req.TOTPCode req.Secret = false then
      (.error (.errorf "invalid 2FA code"), db)
    else
      match UserRepository.Update env db
          { user with Enabled2FA := true, Secret2FA := req.Secret } with
      | (.error err, db1) => (.error (.wrapf "failed to enable 2FA" err), db1)
      | (.ok _, db1) => (.ok (), db1)

/-- The end of `Disable2FA`, from the comment "Disable 2FA" on. A failure of the
deletion of the backup codes is logged and not returned. -/
def disable2FAEnd (env : Env) (db : DB) (userID : Int) (user : User) :
    Except GoError Unit × DB :=
  match UserRepository.Update env db { user with Enabled2FA := false, Secret2FA := "" } with
  | (.error err, db1) => (.error (.wrapf "failed to disable 2FA" err), db1)
  | (.ok _, db1) => (.ok (), (User2FASecretRepository.DeleteByUserID env db1 userID).2)

def Disable2FA (env : Env) (db : DB) (userID : Int) (req : Disable2FARequest) :
    Except GoError Unit × DB :=
  match UserRepository.GetByID env db userID with
  | .error _ => (.error (.errorf "user not found"), db)
  | .ok user =>
    if env.CompareHashAndPassword user.Password req.Password = false then
      (.error (.errorf "invalid password"), db)
    else
      match req.TOTPCode with
      | none => disable2FAEnd env db userID user
      | some code =>
        if code ≠ "" ∧ env.totpValidate code user.Secret2FA = false then
          (.error (.errorf "invalid 2FA code"), db)
        else disable2FAEnd env db userID user

/-! ## Calls of the service -/

/-- A call of one operation of the `AuthService` interface. -/
inductive Call where
  | register (req : RegisterRequest)
  | login (req : LoginRequest)
  | logout (userID : Int)
  | logoutAll (userID : Int)
  | getProfile (userID : Int)
  | changePassword (userID : Int) (req : ChangePasswordRequest)
  | requestPasswordReset (req : PasswordResetRequest)
  | confirmPasswordReset (req : PasswordResetConfirmRequest)
  | enable2FA (userID : Int) (req : Enable2FARequest)
  | confirm2FA (userID : Int) (req : Confirm2FARequest)
  | disable2FA (userID : Int) (req : Disable2FARequest)
  | generateTokens (user : User)
  | refreshToken (req : RefreshTokenRequest)
  | validateToken (tokenString : String)
  | validateUser (userID : Int)
  deriving DecidableEq, Repr

/-- The store after a call; the operations that only read return it as it was. -/
def Call.store (env : Env) (db : DB) : Call → DB
  | .register req => (Register env db req).2
  | .login _ => db
  | .logout userID => (Logout env db userID).2
  | .logoutAll userID => (LogoutAll env db userID).2
  | .getProfile _ => db
  | .changePassword userID req => (ChangePassword env db userID req).2
  | .requestPasswordReset req => (RequestPasswordReset env db req).2
  | .confirmPasswordReset req => (ConfirmPasswordReset env db req).2
  | .enable2FA userID req => (Enable2FA env db userID req).2
  | .confirm2FA userID req => (Confirm2FA env db userID req).2
  | .disable2FA userID req => (Disable2FA env db userID req).2
  | .generateTokens _ => db
  | .refreshToken _ => db
  | .validateToken _ => db
  | .validateUser _ => db

/-- The store after a sequence of `RequestPasswordReset` calls, each in its own
environment. -/
def resetRequests (db : DB) : List (Env × PasswordResetRequest) → DB
  | [] => db
  | (env, req) :: rest => resetRequests (RequestPasswordReset env db req).2 rest

/-! ## `strings` -/

/-- Go `strings.HasPrefix(s, pfx)`. -/
def strings.HasPrefix (s pfx : String) : Bool :=
  pfx.data.isPrefixOf s.data

/-- Go `strings.TrimPrefix(s, pfx)`. -/
def strings.TrimPrefix (s pfx : String) : String :=
  if strings.HasPrefix s pfx then String.mk (s.data.drop pfx.data.length) else s

/-- Go `strings.ToLower(s)` on ASCII letters; the level names compared below are ASCII. -/
def strings.ToLower (s : String) : String :=
  String.mk (s.data.map Char.toLower)

/-! ## `database/database.go` -/

namespace tracelog

/-- The log levels of `github.com/jackc/pgx/v5/tracelog`, where a higher number is a
more verbose level: `LogLevelTrace = 6`, `LogLevelDebug = 5`, `LogLevelInfo = 4`,
`LogLevelWarn = 3`, `LogLevelError = 2`, `LogLevelNone = 1`. -/
abbrev LogLevel := Int

def LogLevelTrace : LogLevel := 6

def LogLevelDebug : LogLevel := 5

def LogLevelInfo : LogLevel := 4

def LogLevelWarn : LogLevel := 3

def LogLevelError : LogLevel := 2

def LogLevelNone : LogLevel := 1

end tracelog

structure pgxLogger where
  dbLogLevel : String
  deriving DecidableEq, Repr

def pgxLogger.shouldLogLevel (l : pgxLogger) (level : tracelog.LogLevel) : Bool :=
  let dbLogLevel := strings.ToLower l.dbLogLevel
  if dbLogLevel = "trace" then true
  else if dbLogLevel = "debug" then decide (level ≥ tracelog.LogLevelDebug)
  else if dbLogLevel = "info" then decide (level ≥ tracelog.LogLevelInfo)
  else if dbLogLevel = "warn" then decide (level ≥ tracelog.LogLevelWarn)
  else if dbLogLevel = "error" then decide (level ≥ tracelog.LogLevelError)
  else if dbLogLevel = "none" ∨ dbLogLevel = "off" then false
  else decide (level ≥ tracelog.LogLevelInfo)

/-! ## `shared/utils/response.go` and the request context -/

structure APIResponse where
  Success : Bool
  Message : String
  deriving DecidableEq, Repr

/-- A value stored with `c.Locals(key, value)`. -/
inductive LocalValue where
  | user (u : User)
  | int (n : Int)
  | other (description : String)
  deriving DecidableEq, Repr

/-- The part of `fiber.Ctx` the access guard touches: the request headers, the
values of `c.Locals` and the response written so far. -/
structure Ctx where
  reqHeaders : List (String × String)
  locals : List (String × LocalValue)
  status : Nat
  body : Option APIResponse
  deriving DecidableEq, Repr

/-- `c.Get(key)`: the header value, the empty string when the header is absent. -/
def Ctx.Get (c : Ctx) (key : String) : String :=
  (c.reqHeaders.lookup key).getD ""

/-- `c.Locals(key, value)`: stores the value under the key, replacing an older one. -/
def Ctx.Locals (c : Ctx) (key : String) (value : LocalValue) : Ctx :=
  { c with locals := (key, value) :: c.locals.filter (fun kv => kv.1 != key) }

/-- `c.Locals(key)`: the stored value, if any. -/
def Ctx.Local (c : Ctx) (key : String) : Option LocalValue :=
  c.locals.lookup key

/-- How a handler ends: it hands the request to the next handler with `c.Next()`, or
it stops the chain after writing a response. -/
inductive Handled where
  | next (c : Ctx)
  | respond (c : Ctx)
  deriving DecidableEq, Repr

/-- `fiber.StatusUnauthorized`. -/
def StatusUnauthorized : Nat := 401

def UnauthorizedResponse (c : Ctx) (message : String) : Handled :=
  let message := if message = "" then "Unauthorized" else message
  .respond { c with status := StatusUnauthorized
                    body := some { Success := false, Message := message } }

/-! ## `shared/middleware/auth.go` -/

def RequireAuth (env : Env) (db : DB) (c : Ctx) : Handled :=
  let authHeader := c.Get "Authorization"
  if authHeader = "" then UnauthorizedResponse c "Authorization header required"
  else if strings.HasPrefix authHeader "Bearer " = false then
    UnauthorizedResponse c "Invalid authorization format"
  else
    let token := strings.TrimPrefix authHeader "Bearer "
    if token = "" then UnauthorizedResponse c "Token required"
    else
      match ValidateToken env db token with
      | .error _ => UnauthorizedResponse c "Invalid or expired token"
      | .ok user =>
        match ValidateUser env db user.ID with
        | .error err => UnauthorizedResponse c err.Error
        | .ok user =>
          .next ((c.Locals "user" (.user user)).Locals "user_id" (.int user.ID))

def OptionalAuth (env : Env) (db : DB) (c : Ctx) : Handled :=
  let authHeader := c.Get "Authorization"
  if authHeader = "" then .next c
  else if strings.HasPrefix authHeader "Bearer " = false then .next c
  else
    let token := strings.TrimPrefix authHeader "Bearer "
    if token = "" then .next c
    else
      match ValidateToken env db token with
      | .error _ => .next c
      | .ok user =>
        match ValidateUser env db user.ID with
        | .error _ => .next c
        | .ok user =>
          .next ((c.Locals "user" (.user user)).Locals "user_id" (.int user.ID))

def GetUserFromContext (c : Ctx) : Option User :=
  match c.Local "user" with
  | some (.user user) => some user
  | _ => none

def GetUserIDFromContext (c : Ctx) : Option Int :=
  match c.Local "user_id" with
  | some (.int userID) => some userID
  | _ => none

/-! ## A concrete deployment

A small store and stand-ins for the external libraries, on which the definitions above
can be evaluated. -/

namespace Demo

def alice : User :=
  { ID := 1, Nickname := "alice", Email := "alice@example.com"
    Password := "$2a$10$wonderland", Enabled2FA := false, Secret2FA := ""
    DateOfBirth := 0, CreatedAt := 1600000000 * Second, UpdatedAt := none, DeletedAt := none }

def bob : User :=
  { ID := 2, Nickname := "bob", Email := "bob@example.com"
    Password := "$2a$10$builder", Enabled2FA := true, Secret2FA := "JBSWY3DPEHPK3PXP"
    DateOfBirth := 0, CreatedAt := 1600000000 * Second, UpdatedAt := none, DeletedAt := none }

/-- A user whose flag is set while the secret is empty. -/
def carol : User :=
  { ID := 3, Nickname := "carol", Email := "carol@example.com"
    Password := "$2a$10$christmas", Enabled2FA := true, Secret2FA := ""
    DateOfBirth := 0, CreatedAt := 1600000000 * Second, UpdatedAt := none, DeletedAt := none }

/-- A banned user with 2FA enabled. -/
def dave : User :=
  { ID := 4, Nickname := "dave", Email := "dave@example.com"
    Password := "$2a$10$diver", Enabled2FA := true, Secret2FA := "JBSWY3DPEHPK3PXP"
    DateOfBirth := 0, CreatedAt := 1600000000 * Second, UpdatedAt := none, DeletedAt := none }

/-- A soft-deleted user. -/
def erin : User :=
  { ID := 5, Nickname := "erin", Email := "erin@example.com"
    Password := "$2a$10$emerald", Enabled2FA := false, Secret2FA := ""
    DateOfBirth := 0, CreatedAt := 1600000000 * Second, UpdatedAt := none
    DeletedAt := some (1650000000 * Second) }

def daveBan : Ban :=
  { ID := 1, UserID := 4, BannedBy := 1, Reason := "spam", CreatedAt := 1690000000 * Second }

def emptyDB : DB :=
  { users := [], userSeq := 1, sessions := [], sessionSeq := 1, resets := []
    secrets := [], secretSeq := 1, bans := [], banSeq := 1 }

def db : DB :=
  { emptyDB with users := [alice, bob, carol, dave, erin], userSeq := 6
                 bans := [daveBan], banSeq := 2 }

/-- Stand-in for bcrypt hashing: rejects a password longer than 72 bytes, as
`bcrypt.GenerateFromPassword` does. -/
def hashPassword (password : String) : Except GoError String :=
  if 72 < password.utf8ByteSize then .error (.lib "bcrypt: password length exceeds 72 bytes")
  else .ok ("$2a$10$" ++ password)

def comparePassword (hash password : String) : Bool :=
  hash == "$2a$10$" ++ password

/-- Stand-in for the TOTP check at one instant: the current code of the secret is 492039. -/
def totpCheck (passcode secret : String) : Bool :=
  passcode == "492039" && secret == "JBSWY3DPEHPK3PXP"

/-- Stand-in for the token encoding: key, issuer and subject, separated by dots. -/
def sign (key : String) (claims : JWTClaims) : Except GoError String :=
  .ok (key ++ "." ++ claims.Issuer ++ "." ++
    (match claims.UserID with
     | 1 => "1" | 2 => "2" | 3 => "3" | 4 => "4" | 5 => "5" | _ => "?"))

/-- The instant at which the tokens of this deployment are issued. -/
def issuedAt : Time := 1700000000 * Second + 250000000

/-- The claims of the tokens issued at `issuedAt`. -/
def issuedClaims : List JWTClaims :=
  ([1, 2, 3, 4, 5] : List Int).flatMap fun id =>
    [ { UserID := id, ExpiresAt := some 1700086400, IssuedAt := some 1700000000
        NotBefore := none, Issuer := "iivineri" },
      { UserID := id, ExpiresAt := some 1700604800, IssuedAt := some 1700000000
        NotBefore := none, Issuer := "iivineri-refresh" } ]

/-- Stand-in for token verification: the issued claims whose encoding under the key is
the given string. -/
def verify (key tokenString : String) : Option JWTClaims :=
  issuedClaims.find? fun claims =>
    match sign key claims with
    | .ok encoded => encoded == tokenString
    | .error _ => false

/-- Stand-in for `time.Parse`: knows one calendar date. -/
def parseTime (layout value : String) : Except GoError Time :=
  if layout = "2006-01-02" && value = "1990-05-17" then .ok (642902400 * Second)
  else .error (.lib "parsing time: cannot parse")

/-- Stand-in for `rand.Read`: ten bytes that depend on the number of the call. -/
def randomBytes (i : Nat) : List Nat :=
  [102 + i, 111, 111, 98, 97, 114, 7 * i, 255, 0, 42]

/-- Stand-in for `totp.Generate`. -/
def generateKey (issuer account : String) : Except GoError (String × String) :=
  .ok ("GEZDGNBVGY3TQOJQ", "otpauth://totp/" ++ issuer ++ ":" ++ account ++
    "?secret=GEZDGNBVGY3TQOJQ&issuer=" ++ issuer)

def env : Env :=
  { now := issuedAt
    dbNow := issuedAt
    jwtSecret := "s3cr3t"
    fault := fun _ => none
    GenerateFromPassword := hashPassword
    CompareHashAndPassword := comparePassword
    totpValidate := totpCheck
    SignedString := sign
    jwtVerify := verify
    timeParse := parseTime
    now2 := issuedAt + 85
    newUUID := "7c9e6679-7425-40de-944b-e07fc1f90ae7"
    randRead := randomBytes
    totpGenerate := generateKey }

/-- A request whose `Authorization` header has the given value. -/
def request (authorization : String) : Ctx :=
  { reqHeaders := [("Authorization", authorization)], locals := [], status := 200
    body := none }

/-- A request without `Authorization` header. -/
def anonymousRequest : Ctx :=
  { reqHeaders := [], locals := [], status := 200, body := none }

/-- A live reset token of alice. -/
def aliceReset : ResetPassword :=
  { ID := "0b7e2f1c-5a63-4d8e-9f10-2c3d4e5f6a7b", Email := "alice@example.com"
    CreatedAt := 1699990000 * Second, ExpiredAt := 1700076400 * Second }

/-- A reset token of bob whose expiry has passed. -/
def bobReset : ResetPassword :=
  { ID := "5d1c9a3e-8b47-4f26-a0d9-6e7f8091a2b3", Email := "bob@example.com"
    CreatedAt := 1699000000 * Second, ExpiredAt := 1699086400 * Second }

def aliceSession : Session :=
  { ID := 1, UserID := 1, UserAgent := some "curl/8.4.0", IPAddress := some "192.0.2.10"
    MimeType := none, CreatedAt := 1699990000 * Second, DeletedAt := none }

def bobSession : Session :=
  { ID := 2, UserID := 2, UserAgent := none, IPAddress := none
    MimeType := none, CreatedAt := 1699990000 * Second, DeletedAt := none }

/-- A backup code of bob that is still usable. -/
def bobCode : User2FASecret :=
  { ID := 1, UserID := 2, Hash := "$2a$10$MZXW6YTB", CreatedAt := 1699990000 * Second
    DeletedAt := none }

/-- The store of the deployment with sessions, reset tokens and backup codes. -/
def fullDB : DB :=
  { db with sessions := [aliceSession, bobSession], sessionSeq := 3
            resets := [aliceReset, bobReset]
            secrets := [bobCode], secretSeq := 2 }

/-- The deployment with a driver that fails on the given queries. -/
def envFailing (ops : List StoreOp) : Env :=
  { env with fault := fun op => if op ∈ ops then some "connection refused" else none }

/-- The same deployment at another instant of the process clock. -/
def envAt (t : Time) : Env :=
  { env with now := t }

end Demo

end Iivineri

/-! ## Lemmas on the repositories -/

namespace Iivineri

theorem selectUserByEmail_some {db : DB} {email : String} {u : User}
    (h : selectUserByEmail db email = some u) :
    u ∈ db.users ∧ u.Email = email ∧ u.DeletedAt = none := by
  unfold selectUserByEmail at h
  have hp := List.find?_some h
  have hm := List.mem_of_find?_eq_some h
  simp at hp
  exact ⟨hm, hp.1, hp.2⟩

theorem selectUserByEmail_none {db : DB} {email : String} :
    selectUserByEmail db email = none ↔
      ∀ v ∈ db.users, v.Email = email → v.DeletedAt ≠ none := by
  unfold selectUserByEmail
  simp [List.find?_eq_none]

theorem selectUserByID_some {db : DB} {id : Int} {u : User}
    (h : selectUserByID db id = some u) :
    u ∈ db.users ∧ u.ID = id ∧ u.DeletedAt = none := by
  unfold selectUserByID at h
  have hp := List.find?_some h
  have hm := List.mem_of_find?_eq_some h
  simp at hp
  exact ⟨hm, hp.1, hp.2⟩

theorem selectUserByID_none {db : DB} {id : Int} :
    selectUserByID db id = none ↔ ∀ v ∈ db.users, v.ID = id → v.DeletedAt ≠ none := by
  unfold selectUserByID
  simp [List.find?_eq_none]

theorem existsBanByUser_true {db : DB} {id : Int} :
    existsBanByUser db id = true ↔ ∃ b ∈ db.bans, b.UserID = id := by
  unfold existsBanByUser
  simp

theorem existsBanByUser_false {db : DB} {id : Int} :
    existsBanByUser db id = false ↔ ∀ b ∈ db.bans, b.UserID ≠ id := by
  unfold existsBanByUser
  simp

theorem existsUserByEmail_true {db : DB} {email : String} :
    existsUserByEmail db email = true ↔
      ∃ u ∈ db.users, u.Email = email ∧ u.DeletedAt = none := by
  unfold existsUserByEmail
  simp

theorem existsUserByEmail_false {db : DB} {email : String} :
    existsUserByEmail db email = false ↔
      ∀ u ∈ db.users, u.Email = email → u.DeletedAt ≠ none := by
  unfold existsUserByEmail
  simp

theorem existsUserByNickname_true {db : DB} {nickname : String} :
    existsUserByNickname db nickname = true ↔
      ∃ u ∈ db.users, u.Nickname = nickname ∧ u.DeletedAt = none := by
  unfold existsUserByNickname
  simp

theorem existsUserByNickname_false {db : DB} {nickname : String} :
    existsUserByNickname db nickname = false ↔
      ∀ u ∈ db.users, u.Nickname = nickname → u.DeletedAt ≠ none := by
  unfold existsUserByNickname
  simp

/-- A lookup by email that selects no row fails, whatever the driver does. -/
theorem GetByEmail_error_of_none (env : Env) {db : DB} {email : String}
    (h : selectUserByEmail db email = none) :
    ∃ e, UserRepository.GetByEmail env db email = .error e := by
  unfold UserRepository.GetByEmail QueryRow
  rw [h]
  cases env.fault .userGetByEmail <;> simp

/-- A lookup by email either fails or returns the selected row. -/
theorem GetByEmail_cases (env : Env) (db : DB) (email : String) :
    (∃ e, UserRepository.GetByEmail env db email = .error e) ∨
    (∃ u, env.fault .userGetByEmail = none ∧ selectUserByEmail db email = some u ∧
      UserRepository.GetByEmail env db email = .ok u) := by
  unfold UserRepository.GetByEmail QueryRow
  cases env.fault .userGetByEmail <;> cases selectUserByEmail db email <;> simp

/-- A lookup by id either fails or returns the selected row. -/
theorem GetByID_cases (env : Env) (db : DB) (id : Int) :
    (∃ e, UserRepository.GetByID env db id = .error e) ∨
    (∃ u, env.fault .userGetByID = none ∧ selectUserByID db id = some u ∧
      UserRepository.GetByID env db id = .ok u) := by
  unfold UserRepository.GetByID QueryRow
  cases env.fault .userGetByID <;> cases selectUserByID db id <;> simp

theorem GetByEmail_ok (env : Env) {db : DB} {email : String} {u : User}
    (hf : env.fault .userGetByEmail = none) (h : selectUserByEmail db email = some u) :
    UserRepository.GetByEmail env db email = .ok u := by
  unfold UserRepository.GetByEmail QueryRow
  rw [hf, h]

theorem GetByID_ok (env : Env) {db : DB} {id : Int} {u : User}
    (hf : env.fault .userGetByID = none) (h : selectUserByID db id = some u) :
    UserRepository.GetByID env db id = .ok u := by
  unfold UserRepository.GetByID QueryRow
  rw [hf, h]

theorem GetByID_error_of_none (env : Env) {db : DB} {id : Int}
    (h : selectUserByID db id = none) :
    ∃ e, UserRepository.GetByID env db id = .error e := by
  unfold UserRepository.GetByID QueryRow
  rw [h]
  cases env.fault .userGetByID <;> simp

theorem IsUserBanned_ok (env : Env) (db : DB) (id : Int)
    (hf : env.fault .banIsUserBanned = none) :
    BanRepository.IsUserBanned env db id = .ok (existsBanByUser db id) := by
  unfold BanRepository.IsUserBanned QueryRow
  rw [hf]

/-- The ban check either fails with a wrapped driver error or answers the query. -/
theorem IsUserBanned_cases (env : Env) (db : DB) (id : Int) :
    (∃ e, BanRepository.IsUserBanned env db id = .error e) ∨
    (env.fault .banIsUserBanned = none ∧
      BanRepository.IsUserBanned env db id = .ok (existsBanByUser db id)) := by
  unfold BanRepository.IsUserBanned QueryRow
  cases env.fault .banIsUserBanned <;> simp

end Iivineri

/-! ## Login -/

namespace Iivineri

/-- What `Login` does once the lookup by email and the ban check have answered. -/
theorem Login_of_lookup (env : Env) (db : DB) (req : LoginRequest) (u : User)
    (hget : UserRepository.GetByEmail env db req.Email = .ok u)
    (hban : BanRepository.IsUserBanned env db u.ID = .ok false) :
    Login env db req =
      if env.CompareHashAndPassword u.Password req.Password = false then
        .error (.errorf "invalid credentials")
      else if u.Is2FAEnabled then
        match req.TOTPCode with
        | none => .ok challengeResponse
        | some code =>
          if code = "" then .ok challengeResponse
          else if env.totpValidate code u.Secret2FA = false then
            .error (.errorf "invalid 2FA code")
          else loginSuccess env u
      else loginSuccess env u := by
  unfold Login
  rw [hget]
  simp only [hban]
  simp

/-- The response of a login that reaches the token generation, when signing works. -/
theorem loginSuccess_ok (env : Env) (u : User) (access refresh : String)
    (ha : env.SignedString env.jwtSecret (accessClaims env u) = .ok access)
    (hr : env.SignedString env.jwtSecret (refreshClaims env u) = .ok refresh) :
    loginSuccess env u =
      .ok { Token := access, User := some u.ToPublic
            ExpiresAt := timeUnix (Unix (env.now + 24 * Hour)), Requires2FA := false } := by
  unfold loginSuccess GenerateTokens
  simp only [ha, hr]

/-- C1 (as amended). Login with an email that no live user has, and Login with the
email of a live user who is not banned and a password that does not match the stored
hash, return the same error, "invalid credentials". -/
theorem login_wrong_password_same_as_unknown_email
    (env : Env) (db db0 : DB) (req : LoginRequest) (u : User)
    (hu : selectUserByEmail db req.Email = some u)
    (hnoban : ∀ b ∈ db.bans, b.UserID ≠ u.ID)
    (hstore : env.fault .banIsUserBanned = none)
    (hpw : env.CompareHashAndPassword u.Password req.Password = false)
    (h0 : ∀ v ∈ db0.users, v.Email = req.Email → v.DeletedAt ≠ none) :
    Login env db0 req = .error (.errorf "invalid credentials") ∧
    Login env db req = Login env db0 req := by
  have hfirst : Login env db0 req = .error (.errorf "invalid credentials") := by
    obtain ⟨e, he⟩ := GetByEmail_error_of_none env (selectUserByEmail_none.mpr h0)
    unfold Login
    rw [he]
  refine ⟨hfirst, ?_⟩
  rw [hfirst]
  rcases GetByEmail_cases env db req.Email with ⟨e, he⟩ | ⟨v, _, hv, hget⟩
  · unfold Login
    rw [he]
  · rw [hu] at hv
    cases hv
    have hban : BanRepository.IsUserBanned env db u.ID = .ok false := by
      rw [IsUserBanned_ok env db u.ID hstore, existsBanByUser_false.mpr hnoban]
    rw [Login_of_lookup env db req u hget hban]
    simp [hpw]

/-- Witness of C1 (as amended): a wrong password for alice, who is not banned, and the
same request on the empty store. -/
theorem login_wrong_password_same_as_unknown_email_witness :
    Login Demo.env Demo.emptyDB
        { Email := "alice@example.com", Password := "guess", TOTPCode := none } =
      .error (.errorf "invalid credentials") ∧
    Login Demo.env Demo.db
        { Email := "alice@example.com", Password := "guess", TOTPCode := none } =
      Login Demo.env Demo.emptyDB
        { Email := "alice@example.com", Password := "guess", TOTPCode := none } :=
  login_wrong_password_same_as_unknown_email Demo.env Demo.db Demo.emptyDB
    { Email := "alice@example.com", Password := "guess", TOTPCode := none } Demo.alice
    (by decide) (by decide) (by decide) (by decide) (by decide)

/-- C1 fails as stated. Dave exists, is banned, and the password does not match his
hash: Login answers "user is banned", while the same request for an email nobody has
answers "invalid credentials". -/
theorem login_banned_wrong_password_differs :
    selectUserByEmail Demo.db "dave@example.com" = some Demo.dave ∧
    Demo.env.CompareHashAndPassword Demo.dave.Password "guess" = false ∧
    (∀ v ∈ Demo.emptyDB.users, v.Email = "dave@example.com" → v.DeletedAt ≠ none) ∧
    Login Demo.env Demo.db
        { Email := "dave@example.com", Password := "guess", TOTPCode := none } =
      .error (.errorf "user is banned") ∧
    Login Demo.env Demo.emptyDB
        { Email := "dave@example.com", Password := "guess", TOTPCode := none } =
      .error (.errorf "invalid credentials") ∧
    Login Demo.env Demo.db
        { Email := "dave@example.com", Password := "guess", TOTPCode := none } ≠
      Login Demo.env Demo.emptyDB
        { Email := "dave@example.com", Password := "guess", TOTPCode := none } := by
  decide

/-- C2. When the user that the email resolves to has a ban row, Login fails, so it
issues no token, whatever the password and the TOTP code; the failure is "user is
banned" as soon as the two queries are answered by the store. -/
theorem login_banned_user_rejected
    (env : Env) (db : DB) (req : LoginRequest) (u : User)
    (hu : selectUserByEmail db req.Email = some u)
    (hban : ∃ b ∈ db.bans, b.UserID = u.ID) :
    (∃ e, Login env db req = .error e) ∧
    (env.fault .userGetByEmail = none → env.fault .banIsUserBanned = none →
      Login env db req = .error (.errorf "user is banned")) := by
  have hbanned : existsBanByUser db u.ID = true := existsBanByUser_true.mpr hban
  constructor
  · rcases GetByEmail_cases env db req.Email with ⟨e, he⟩ | ⟨v, _, hv, hget⟩
    · exact ⟨_, by unfold Login; rw [he]⟩
    · rw [hu] at hv
      cases hv
      rcases IsUserBanned_cases env db u.ID with ⟨e, he⟩ | ⟨_, hok⟩
      · refine ⟨.wrapf "failed to check ban status" e, ?_⟩
        unfold Login
        rw [hget]
        simp only [he]
      · refine ⟨.errorf "user is banned", ?_⟩
        unfold Login
        rw [hget]
        simp only [hok, hbanned]
        simp
  · intro h1 h2
    unfold Login
    rw [GetByEmail_ok env h1 hu]
    simp only [IsUserBanned_ok env db u.ID h2, hbanned]
    simp

/-- Witness of C2: dave is banned; his correct password and a valid TOTP code do not
help. -/
theorem login_banned_user_rejected_witness :
    Demo.env.CompareHashAndPassword Demo.dave.Password "diver" = true ∧
    Demo.env.totpValidate "492039" Demo.dave.Secret2FA = true ∧
    Login Demo.env Demo.db
        { Email := "dave@example.com", Password := "diver", TOTPCode := some "492039" } =
      .error (.errorf "user is banned") :=
  ⟨by decide, by decide,
   (login_banned_user_rejected Demo.env Demo.db
      { Email := "dave@example.com", Password := "diver", TOTPCode := some "492039" }
      Demo.dave (by decide) (by decide)).2 (by decide) (by decide)⟩

/-- C3. For a user who is not banned and whose password matches: with 2FA enabled
(flag set and secret not empty), Login without a code (absent or empty) returns the
challenge, with `Requires2FA` set and no token; with a code that does not validate
against the stored secret it fails with "invalid 2FA code"; with a code that validates
it returns the signed access token with `Requires2FA` unset. With the flag unset or the
secret empty, no code is asked for or checked: Login returns the access token whatever
code the request carries. -/
theorem login_two_factor
    (env : Env) (db : DB) (req : LoginRequest) (u : User) (access refresh : String)
    (hu : selectUserByEmail db req.Email = some u)
    (hnoban : ∀ b ∈ db.bans, b.UserID ≠ u.ID)
    (hstore1 : env.fault .userGetByEmail = none)
    (hstore2 : env.fault .banIsUserBanned = none)
    (hpw : env.CompareHashAndPassword u.Password req.Password = true)
    (ha : env.SignedString env.jwtSecret (accessClaims env u) = .ok access)
    (hr : env.SignedString env.jwtSecret (refreshClaims env u) = .ok refresh) :
    (u.Enabled2FA = true → u.Secret2FA ≠ "" →
      ((req.TOTPCode = none ∨ req.TOTPCode = some "") →
        Login env db req =
          .ok { Token := "", User := none, ExpiresAt := zeroTime, Requires2FA := true }) ∧
      (∀ code, req.TOTPCode = some code → code ≠ "" →
        env.totpValidate code u.Secret2FA = false →
        Login env db req = .error (.errorf "invalid 2FA code")) ∧
      (∀ code, req.TOTPCode = some code → code ≠ "" →
        env.totpValidate code u.Secret2FA = true →
        Login env db req =
          .ok { Token := access, User := some u.ToPublic
                ExpiresAt := timeUnix (Unix (env.now + 24 * Hour))
                Requires2FA := false })) ∧
    ((u.Enabled2FA = false ∨ u.Secret2FA = "") →
      Login env db req =
        .ok { Token := access, User := some u.ToPublic
              ExpiresAt := timeUnix (Unix (env.now + 24 * Hour))
              Requires2FA := false }) := by
  have hban : BanRepository.IsUserBanned env db u.ID = .ok false := by
    rw [IsUserBanned_ok env db u.ID hstore2, existsBanByUser_false.mpr hnoban]
  have hL := Login_of_lookup env db req u (GetByEmail_ok env hstore1 hu) hban
  have hS := loginSuccess_ok env u access refresh ha hr
  rw [hL, hS]
  refine ⟨fun hflag hsecret => ?_, fun hoff => ?_⟩
  · have h2 : u.Is2FAEnabled = true := by simp [User.Is2FAEnabled, hflag, hsecret]
    refine ⟨fun hcode => ?_, fun code hcode hne hbad => ?_, fun code hcode hne hgood => ?_⟩
    · rcases hcode with hcode | hcode <;> simp [hpw, h2, hcode, challengeResponse]
    · simp [hpw, h2, hcode, hne, hbad]
    · simp [hpw, h2, hcode, hne, hgood]
  · have h2 : u.Is2FAEnabled = false := by
      rcases hoff with hoff | hoff <;> simp [User.Is2FAEnabled, hoff]
    simp [hpw, h2]

/-- Witness of C3: bob has 2FA enabled; carol has the flag set and an empty secret. -/
theorem login_two_factor_witness :
    Login Demo.env Demo.db
        { Email := "bob@example.com", Password := "builder", TOTPCode := none } =
      .ok { Token := "", User := none, ExpiresAt := zeroTime, Requires2FA := true } ∧
    Login Demo.env Demo.db
        { Email := "bob@example.com", Password := "builder", TOTPCode := some "000000" } =
      .error (.errorf "invalid 2FA code") ∧
    Login Demo.env Demo.db
        { Email := "bob@example.com", Password := "builder", TOTPCode := some "492039" } =
      .ok { Token := "s3cr3t.iivineri.2", User := some Demo.bob.ToPublic
            ExpiresAt := timeUnix (Unix (Demo.env.now + 24 * Hour))
            Requires2FA := false } ∧
    Login Demo.env Demo.db
        { Email := "carol@example.com", Password := "christmas", TOTPCode := none } =
      .ok { Token := "s3cr3t.iivineri.3", User := some Demo.carol.ToPublic
            ExpiresAt := timeUnix (Unix (Demo.env.now + 24 * Hour))
            Requires2FA := false } :=
  ⟨((login_two_factor Demo.env Demo.db
      { Email := "bob@example.com", Password := "builder", TOTPCode := none } Demo.bob
      "s3cr3t.iivineri.2" "s3cr3t.iivineri-refresh.2"
      (by decide) (by decide) (by decide) (by decide) (by decide) (by decide)
      (by decide)).1 (by decide) (by decide)).1 (Or.inl rfl),
   ((login_two_factor Demo.env Demo.db
      { Email := "bob@example.com", Password := "builder", TOTPCode := some "000000" }
      Demo.bob "s3cr3t.iivineri.2" "s3cr3t.iivineri-refresh.2"
      (by decide) (by decide) (by decide) (by decide) (by decide) (by decide)
      (by decide)).1 (by decide) (by decide)).2.1 "000000" rfl (by decide) (by decide),
   ((login_two_factor Demo.env Demo.db
      { Email := "bob@example.com", Password := "builder", TOTPCode := some "492039" }
      Demo.bob "s3cr3t.iivineri.2" "s3cr3t.iivineri-refresh.2"
      (by decide) (by decide) (by decide) (by decide) (by decide) (by decide)
      (by decide)).1 (by decide) (by decide)).2.2 "492039" rfl (by decide) (by decide),
   (login_two_factor Demo.env Demo.db
      { Email := "carol@example.com", Password := "christmas", TOTPCode := none }
      Demo.carol "s3cr3t.iivineri.3" "s3cr3t.iivineri-refresh.3"
      (by decide) (by decide) (by decide) (by decide) (by decide) (by decide)
      (by decide)).2 (Or.inr rfl)⟩

end Iivineri

/-! ## Tokens -/

namespace Iivineri

theorem NewNumericDate_timeUnix (sec : Int) : NewNumericDate (timeUnix sec) = sec := by
  unfold NewNumericDate timeUnix
  exact Int.mul_ediv_cancel sec (by decide)

/-- A token that verifies under the key, is not expired and is not used too early
is parsed into its claims. -/
theorem ParseWithClaims_ok (env : Env) (tokenString : String) (claims : JWTClaims)
    (hv : env.jwtVerify env.jwtSecret tokenString = some claims)
    (hexp : ∀ exp, claims.ExpiresAt = some exp → env.now < timeUnix exp)
    (hnbf : ∀ nbf, claims.NotBefore = some nbf → timeUnix nbf ≤ env.now) :
    ParseWithClaims env tokenString = .ok claims := by
  unfold ParseWithClaims
  rw [hv]
  have h1 : (match claims.ExpiresAt with
      | some exp => decide (env.now < timeUnix exp)
      | none => true) = true := by
    cases he : claims.ExpiresAt with
    | none => rfl
    | some exp => simpa using hexp exp he
  have h2 : (match claims.NotBefore with
      | some nbf => decide (timeUnix nbf ≤ env.now)
      | none => true) = true := by
    cases hn : claims.NotBefore with
    | none => rfl
    | some nbf => simpa using hnbf nbf hn
  simp [h1, h2]

/-- A token whose expiry has been reached is refused by the parser. -/
theorem ParseWithClaims_expired (env : Env) (tokenString : String) (claims : JWTClaims)
    (exp : Int)
    (hv : env.jwtVerify env.jwtSecret tokenString = some claims)
    (he : claims.ExpiresAt = some exp) (hexp : timeUnix exp ≤ env.now) :
    ∃ e, ParseWithClaims env tokenString = .error e := by
  unfold ParseWithClaims
  rw [hv]
  simp [he, Int.not_lt.mpr hexp]

/-- A successful `Login` went through the lookup, the ban check and the password
check, and either asked for a code or generated tokens. -/
theorem Login_ok_inv (env : Env) (db : DB) (req : LoginRequest) (resp : LoginResponse)
    (h : Login env db req = .ok resp) :
    ∃ u, selectUserByEmail db req.Email = some u ∧ existsBanByUser db u.ID = false ∧
      env.CompareHashAndPassword u.Password req.Password = true ∧
      ((u.Is2FAEnabled = true ∧ resp = challengeResponse) ∨ loginSuccess env u = .ok resp) := by
  rcases GetByEmail_cases env db req.Email with ⟨e, he⟩ | ⟨u, _, hu, hget⟩
  · unfold Login at h
    rw [he] at h
    cases h
  · rcases IsUserBanned_cases env db u.ID with ⟨e, he⟩ | ⟨_, hok⟩
    · unfold Login at h
      rw [hget] at h
      simp only [he] at h
      cases h
    · cases hb : existsBanByUser db u.ID
      · rw [hb] at hok
        rw [Login_of_lookup env db req u hget hok] at h
        refine ⟨u, hu, hb, ?_⟩
        cases hpw : env.CompareHashAndPassword u.Password req.Password
        · simp [hpw] at h
        · refine ⟨rfl, ?_⟩
          cases h2 : u.Is2FAEnabled
          · right
            simpa [hpw, h2] using h
          · simp only [hpw, h2] at h
            cases hc : req.TOTPCode with
            | none =>
              left
              simp [hc] at h
              exact ⟨rfl, h.symm⟩
            | some code =>
              simp only [hc] at h
              by_cases hempty : code = ""
              · left
                simp [hempty] at h
                exact ⟨rfl, h.symm⟩
              · right
                cases hval : env.totpValidate code u.Secret2FA
                · simp [hempty, hval] at h
                · simpa [hempty, hval] using h
      · rw [hb] at hok
        unfold Login at h
        rw [hget] at h
        simp only [hok] at h
        simp at h

/-- A login that generated tokens signed both of them and returns the access token. -/
theorem loginSuccess_ok_inv (env : Env) (u : User) (resp : LoginResponse)
    (h : loginSuccess env u = .ok resp) :
    ∃ access refresh,
      env.SignedString env.jwtSecret (accessClaims env u) = .ok access ∧
      env.SignedString env.jwtSecret (refreshClaims env u) = .ok refresh ∧
      GenerateTokens env u = .ok (access, refresh, Unix (env.now + 24 * Hour)) ∧
      resp = { Token := access, User := some u.ToPublic
               ExpiresAt := timeUnix (Unix (env.now + 24 * Hour)), Requires2FA := false } := by
  unfold loginSuccess GenerateTokens at h
  cases ha : env.SignedString env.jwtSecret (accessClaims env u) with
  | error e => simp [ha] at h
  | ok access =>
    cases hr : env.SignedString env.jwtSecret (refreshClaims env u) with
    | error e => simp [ha, hr] at h
    | ok refresh =>
      refine ⟨access, refresh, rfl, rfl, ?_, ?_⟩
      · unfold GenerateTokens
        simp [ha, hr]
      · simp [ha, hr] at h
        exact h.symm

/-- The tokens of `GenerateTokens` are the two signed strings. -/
theorem GenerateTokens_ok_inv (env : Env) (u : User) (access refresh : String)
    (expiresAt : Int) (h : GenerateTokens env u = .ok (access, refresh, expiresAt)) :
    env.SignedString env.jwtSecret (accessClaims env u) = .ok access ∧
    env.SignedString env.jwtSecret (refreshClaims env u) = .ok refresh ∧
    expiresAt = Unix (env.now + 24 * Hour) := by
  unfold GenerateTokens at h
  cases ha : env.SignedString env.jwtSecret (accessClaims env u) with
  | error e => simp [ha] at h
  | ok a =>
    cases hr : env.SignedString env.jwtSecret (refreshClaims env u) with
    | error e => simp [ha, hr] at h
    | ok r =>
      simp [ha, hr] at h
      obtain ⟨h1, h2, h3⟩ := h
      exact ⟨by rw [h1], by rw [h2], h3.symm⟩

/-- A live row with the id exists, so the lookup by id selects a row with that id. -/
theorem selectUserByID_of_mem {db : DB} {u : User} (hm : u ∈ db.users)
    (hd : u.DeletedAt = none) : ∃ v, selectUserByID db u.ID = some v ∧ v.ID = u.ID := by
  cases hs : selectUserByID db u.ID with
  | none => exact absurd hd (selectUserByID_none.mp hs u hm rfl)
  | some v => exact ⟨v, rfl, (selectUserByID_some hs).2.1⟩

/-- C4. When a user with 2FA disabled logs in successfully, the returned token,
presented to `ValidateToken` under the same signing key before the expiry that Login
reported, while the JWT library verifies the token it signed and the store answers,
is accepted and resolves to a user with the id of the one who logged in. -/
theorem login_token_resolves_to_user
    (env env2 : Env) (db : DB) (req : LoginRequest) (u : User) (resp : LoginResponse)
    (hu : selectUserByEmail db req.Email = some u)
    (h2fa : u.Is2FAEnabled = false)
    (hlogin : Login env db req = .ok resp)
    (hkey : env2.jwtSecret = env.jwtSecret)
    (hlib : ∀ t, env.SignedString env.jwtSecret (accessClaims env u) = .ok t →
      env2.jwtVerify env.jwtSecret t = some (accessClaims env u))
    (hexp : env2.now < resp.ExpiresAt)
    (hstore : env2.fault .userGetByID = none) :
    ∃ v, ValidateToken env2 db resp.Token = .ok v ∧ v.ID = u.ID := by
  obtain ⟨w, hw, _, _, hcase⟩ := Login_ok_inv env db req resp hlogin
  rw [hu] at hw
  cases hw
  have hsucc : loginSuccess env u = .ok resp := by
    rcases hcase with ⟨h, _⟩ | h
    · rw [h2fa] at h
      cases h
    · exact h
  obtain ⟨access, refresh, ha, _, _, hresp⟩ := loginSuccess_ok_inv env u resp hsucc
  subst hresp
  have hverify := hlib access ha
  rw [← hkey] at hverify
  have hparse : ParseWithClaims env2 access = .ok (accessClaims env u) := by
    apply ParseWithClaims_ok env2 access _ hverify
    · intro exp he
      simp only [accessClaims, NewNumericDate_timeUnix, Option.some.injEq] at he
      rw [← he]
      exact hexp
    · intro nbf hn
      simp [accessClaims] at hn
  obtain ⟨hm, _, hd⟩ := selectUserByEmail_some hu
  obtain ⟨v, hv, hid⟩ := selectUserByID_of_mem hm hd
  refine ⟨v, ?_, hid⟩
  unfold ValidateToken
  rw [hparse]
  have hget : UserRepository.GetByID env2 db (accessClaims env u).UserID = .ok v :=
    GetByID_ok env2 hstore hv
  simp only [hget]
  simp [accessClaims]

/-- Witness of C4: alice logs in, and her token is validated 23 hours later. -/
theorem login_token_resolves_to_user_witness :
    Login Demo.env Demo.db
        { Email := "alice@example.com", Password := "wonderland", TOTPCode := none } =
      .ok { Token := "s3cr3t.iivineri.1", User := some Demo.alice.ToPublic
            ExpiresAt := 1700086400 * Second, Requires2FA := false } ∧
    ∃ v, ValidateToken (Demo.envAt (Demo.issuedAt + 23 * Hour)) Demo.db
        "s3cr3t.iivineri.1" = .ok v ∧ v.ID = Demo.alice.ID :=
  ⟨by decide,
   login_token_resolves_to_user Demo.env (Demo.envAt (Demo.issuedAt + 23 * Hour)) Demo.db
    { Email := "alice@example.com", Password := "wonderland", TOTPCode := none }
    Demo.alice
    { Token := "s3cr3t.iivineri.1", User := some Demo.alice.ToPublic
      ExpiresAt := 1700086400 * Second, Requires2FA := false }
    (by decide) (by decide) (by decide) (by decide)
    (fun t ht => by
      have h : t = "s3cr3t.iivineri.1" := by
        have h2 : Demo.env.SignedString Demo.env.jwtSecret (accessClaims Demo.env Demo.alice) =
            .ok "s3cr3t.iivineri.1" := by decide
        rw [h2] at ht
        exact (Except.ok.inj ht).symm
      subst h
      decide)
    (by decide) (by decide)⟩

end Iivineri

namespace Iivineri

/-- C5 (as amended). Under the same signing key, with a JWT library that verifies the
two tokens `GenerateTokens` signed: before its expiry the refresh token is rejected by
`ValidateToken` with "invalid token type", and before its expiry the access token is
rejected by `RefreshToken` with "invalid refresh token type". From its expiry on, each
is rejected as an invalid token instead, the expiry being checked before the issuer. -/
theorem token_type_enforced_before_expiry
    (env env2 : Env) (db : DB) (u : User) (access refresh : String) (expiresAt : Int)
    (hgen : GenerateTokens env u = .ok (access, refresh, expiresAt))
    (hkey : env2.jwtSecret = env.jwtSecret)
    (hlibA : env2.jwtVerify env.jwtSecret access = some (accessClaims env u))
    (hlibR : env2.jwtVerify env.jwtSecret refresh = some (refreshClaims env u)) :
    (env2.now < timeUnix (NewNumericDate (env.now + 7 * 24 * Hour)) →
      ValidateToken env2 db refresh = .error (.errorf "invalid token type")) ∧
    (env2.now < timeUnix expiresAt →
      RefreshToken env2 db { RefreshToken := access } =
        .error (.errorf "invalid refresh token type")) ∧
    (timeUnix (NewNumericDate (env.now + 7 * 24 * Hour)) ≤ env2.now →
      ValidateToken env2 db refresh = .error (.errorf "invalid token")) ∧
    (timeUnix expiresAt ≤ env2.now →
      RefreshToken env2 db { RefreshToken := access } =
        .error (.errorf "invalid refresh token")) := by
  obtain ⟨_, _, hexpires⟩ := GenerateTokens_ok_inv env u access refresh expiresAt hgen
  subst hexpires
  rw [← hkey] at hlibA hlibR
  refine ⟨fun h => ?_, fun h => ?_, fun h => ?_, fun h => ?_⟩
  · have hparse : ParseWithClaims env2 refresh = .ok (refreshClaims env u) := by
      apply ParseWithClaims_ok env2 refresh _ hlibR
      · intro exp he
        simp only [refreshClaims, Option.some.injEq] at he
        rw [← he]
        exact h
      · intro nbf hn
        simp [refreshClaims] at hn
    unfold ValidateToken
    rw [hparse]
    simp [refreshClaims]
  · have hparse : ParseWithClaims env2 access = .ok (accessClaims env u) := by
      apply ParseWithClaims_ok env2 access _ hlibA
      · intro exp he
        simp only [accessClaims, NewNumericDate_timeUnix, Option.some.injEq] at he
        rw [← he]
        exact h
      · intro nbf hn
        simp [accessClaims] at hn
    unfold RefreshToken
    simp only [hparse]
    simp [accessClaims]
  · obtain ⟨e, he⟩ := ParseWithClaims_expired env2 refresh (refreshClaims env u) _ hlibR rfl h
    unfold ValidateToken
    rw [he]
  · obtain ⟨e, he⟩ := ParseWithClaims_expired env2 access (accessClaims env u)
      (Unix (env.now + 24 * Hour)) hlibA
      (by simp only [accessClaims, NewNumericDate_timeUnix]) h
    unfold RefreshToken
    simp only [he]

/-- Witness of C5 (as amended): the tokens issued to alice, presented one hour later. -/
theorem token_type_enforced_before_expiry_witness :
    GenerateTokens Demo.env Demo.alice =
      .ok ("s3cr3t.iivineri.1", "s3cr3t.iivineri-refresh.1", 1700086400) ∧
    ValidateToken (Demo.envAt (Demo.issuedAt + Hour)) Demo.db "s3cr3t.iivineri-refresh.1" =
      .error (.errorf "invalid token type") ∧
    RefreshToken (Demo.envAt (Demo.issuedAt + Hour)) Demo.db
        { RefreshToken := "s3cr3t.iivineri.1" } =
      .error (.errorf "invalid refresh token type") :=
  ⟨by decide,
   (token_type_enforced_before_expiry Demo.env (Demo.envAt (Demo.issuedAt + Hour)) Demo.db
      Demo.alice "s3cr3t.iivineri.1" "s3cr3t.iivineri-refresh.1" 1700086400
      (by decide) (by decide) (by decide) (by decide)).1 (by decide),
   (token_type_enforced_before_expiry Demo.env (Demo.envAt (Demo.issuedAt + Hour)) Demo.db
      Demo.alice "s3cr3t.iivineri.1" "s3cr3t.iivineri-refresh.1" 1700086400
      (by decide) (by decide) (by decide) (by decide)).2.1 (by decide)⟩

/-- C5 fails as stated. The refresh token that `GenerateTokens` produced for alice,
presented to `ValidateToken` eight days later under the same key, is rejected with
"invalid token", not with the wrong-token-type error; so is her access token presented
to `RefreshToken` after 25 hours, with "invalid refresh token". -/
theorem expired_token_not_rejected_for_its_type :
    GenerateTokens Demo.env Demo.alice =
      .ok ("s3cr3t.iivineri.1", "s3cr3t.iivineri-refresh.1", 1700086400) ∧
    ValidateToken (Demo.envAt (Demo.issuedAt + 8 * 24 * Hour)) Demo.db
        "s3cr3t.iivineri-refresh.1" = .error (.errorf "invalid token") ∧
    ValidateToken (Demo.envAt (Demo.issuedAt + 8 * 24 * Hour)) Demo.db
        "s3cr3t.iivineri-refresh.1" ≠ .error (.errorf "invalid token type") ∧
    RefreshToken (Demo.envAt (Demo.issuedAt + 25 * Hour)) Demo.db
        { RefreshToken := "s3cr3t.iivineri.1" } = .error (.errorf "invalid refresh token") ∧
    RefreshToken (Demo.envAt (Demo.issuedAt + 25 * Hour)) Demo.db
        { RefreshToken := "s3cr3t.iivineri.1" } ≠
      .error (.errorf "invalid refresh token type") := by
  decide

end Iivineri

/-! ## The access guard -/

namespace Iivineri

theorem HasPrefix_append (pfx rest : String) : strings.HasPrefix (pfx ++ rest) pfx = true := by
  unfold strings.HasPrefix
  rw [String.data_append, List.isPrefixOf_iff_prefix]
  exact List.prefix_append _ _

theorem TrimPrefix_append (pfx rest : String) : strings.TrimPrefix (pfx ++ rest) pfx = rest := by
  unfold strings.TrimPrefix
  rw [if_pos (HasPrefix_append pfx rest)]
  apply String.ext
  simp [String.data_append]

theorem eq_append_of_HasPrefix {s pfx : String} (h : strings.HasPrefix s pfx = true) :
    s = pfx ++ strings.TrimPrefix s pfx := by
  unfold strings.TrimPrefix
  rw [if_pos h]
  unfold strings.HasPrefix at h
  rw [List.isPrefixOf_iff_prefix] at h
  obtain ⟨t, ht⟩ := h
  apply String.ext
  rw [String.data_append, ← ht]
  simp

theorem bearer_append_ne_empty (token : String) : "Bearer " ++ token ≠ "" := by
  intro h
  have h2 := congrArg String.length h
  simp [String.length_append] at h2
  have h3 : "Bearer ".length = 7 := by decide
  omega

theorem UnauthorizedResponse_respond (c : Ctx) (message : String) :
    ∃ msg, UnauthorizedResponse c message =
      .respond { c with status := StatusUnauthorized
                        body := some { Success := false, Message := msg } } :=
  ⟨if message = "" then "Unauthorized" else message, rfl⟩

/-- `RequireAuth` on a request that carries a bearer token. -/
theorem RequireAuth_bearer (env : Env) (db : DB) (c : Ctx) (token : String)
    (hh : c.Get "Authorization" = "Bearer " ++ token) (ht : token ≠ "") :
    RequireAuth env db c =
      match ValidateToken env db token with
      | .error _ => UnauthorizedResponse c "Invalid or expired token"
      | .ok user =>
        match ValidateUser env db user.ID with
        | .error err => UnauthorizedResponse c err.Error
        | .ok user => .next ((c.Locals "user" (.user user)).Locals "user_id" (.int user.ID)) := by
  unfold RequireAuth
  simp only [hh, HasPrefix_append, TrimPrefix_append]
  rw [if_neg (bearer_append_ne_empty token), if_neg (by simp), if_neg ht]

/-- `OptionalAuth` on a request that carries a bearer token. -/
theorem OptionalAuth_bearer (env : Env) (db : DB) (c : Ctx) (token : String)
    (hh : c.Get "Authorization" = "Bearer " ++ token) (ht : token ≠ "") :
    OptionalAuth env db c =
      match ValidateToken env db token with
      | .error _ => .next c
      | .ok user =>
        match ValidateUser env db user.ID with
        | .error _ => .next c
        | .ok user => .next ((c.Locals "user" (.user user)).Locals "user_id" (.int user.ID)) := by
  unfold OptionalAuth
  simp only [hh, HasPrefix_append, TrimPrefix_append]
  rw [if_neg (bearer_append_ne_empty token), if_neg (by simp), if_neg ht]

/-- A header is a bearer header when it is "Bearer " followed by a non-empty token. -/
theorem bearer_cases (h : String) :
    (∃ token, h = "Bearer " ++ token ∧ token ≠ "") ∨
    (h = "" ∨ strings.HasPrefix h "Bearer " = false ∨ strings.TrimPrefix h "Bearer " = "") := by
  by_cases h1 : h = ""
  · exact Or.inr (Or.inl h1)
  · cases h2 : strings.HasPrefix h "Bearer "
    · exact Or.inr (Or.inr (Or.inl rfl))
    · by_cases h3 : strings.TrimPrefix h "Bearer " = ""
      · exact Or.inr (Or.inr (Or.inr h3))
      · exact Or.inl ⟨_, eq_append_of_HasPrefix h2, h3⟩

/-- Without a bearer token `RequireAuth` answers Unauthorized and `OptionalAuth` lets
the request through unchanged. -/
theorem guards_without_bearer (env : Env) (db : DB) (c : Ctx)
    (h : c.Get "Authorization" = "" ∨
      strings.HasPrefix (c.Get "Authorization") "Bearer " = false ∨
      strings.TrimPrefix (c.Get "Authorization") "Bearer " = "") :
    (∃ msg, RequireAuth env db c =
      .respond { c with status := StatusUnauthorized
                        body := some { Success := false, Message := msg } }) ∧
    OptionalAuth env db c = .next c := by
  unfold RequireAuth OptionalAuth
  by_cases h1 : c.Get "Authorization" = ""
  · rw [if_pos h1, if_pos h1]
    exact ⟨UnauthorizedResponse_respond _ _, rfl⟩
  · rw [if_neg h1, if_neg h1]
    cases h2 : strings.HasPrefix (c.Get "Authorization") "Bearer "
    · rw [if_pos rfl, if_pos rfl]
      exact ⟨UnauthorizedResponse_respond _ _, rfl⟩
    · rcases h with h | h | h
      · exact absurd h h1
      · rw [h2] at h
        cases h
      · have hne : ¬ (true = false) := by decide
        rw [if_neg hne, if_neg hne, if_pos h, if_pos h]
        exact ⟨UnauthorizedResponse_respond _ _, rfl⟩

/-- What `ValidateUser` has checked when it returns a user. -/
theorem ValidateUser_ok_inv (env : Env) (db : DB) (userID : Int) (v : User)
    (h : ValidateUser env db userID = .ok v) :
    selectUserByID db userID = some v ∧ existsBanByUser db v.ID = false ∧
    env.fault .userGetByID = none ∧ env.fault .banIsUserBanned = none := by
  rcases GetByID_cases env db userID with ⟨e, he⟩ | ⟨u, hf1, hu, hget⟩
  · unfold ValidateUser at h
    rw [he] at h
    cases h
  · rcases IsUserBanned_cases env db u.ID with ⟨e, he⟩ | ⟨hf2, hok⟩
    · unfold ValidateUser at h
      rw [hget] at h
      simp only [he] at h
      cases h
    · unfold ValidateUser at h
      rw [hget] at h
      simp only [hok] at h
      cases hb : existsBanByUser db u.ID
      · simp [hb] at h
        subst h
        exact ⟨hu, hb, hf1, hf2⟩
      · simp [hb] at h

/-- The identity that the guards attach can be read back from the context. -/
theorem attached_identity (c : Ctx) (v : User) :
    GetUserFromContext ((c.Locals "user" (.user v)).Locals "user_id" (.int v.ID)) = some v ∧
    GetUserIDFromContext ((c.Locals "user" (.user v)).Locals "user_id" (.int v.ID)) =
      some v.ID := by
  constructor
  · simp [GetUserFromContext, Ctx.Local, Ctx.Locals, List.lookup, List.filter]
  · simp [GetUserIDFromContext, Ctx.Local, Ctx.Locals, List.lookup]

end Iivineri

namespace Iivineri

/-- C6. `RequireAuth` hands the request to the next handler exactly when the
`Authorization` header is "Bearer " followed by a non-empty token, `ValidateToken`
accepts the token and `ValidateUser` accepts the id of the resolved user. It then
attaches the user that `ValidateUser` returned (a live row of that id without a ban) and
its id to the context. In every other case it answers with status 401 and leaves the
values of the context as they were. -/
theorem requireAuth_admits_iff (env : Env) (db : DB) (c : Ctx) :
    ((∃ c2, RequireAuth env db c = .next c2) ↔
      ∃ token u v, c.Get "Authorization" = "Bearer " ++ token ∧ token ≠ "" ∧
        ValidateToken env db token = .ok u ∧ ValidateUser env db u.ID = .ok v) ∧
    (∀ token u v, c.Get "Authorization" = "Bearer " ++ token → token ≠ "" →
      ValidateToken env db token = .ok u → ValidateUser env db u.ID = .ok v →
      RequireAuth env db c =
        .next ((c.Locals "user" (.user v)).Locals "user_id" (.int v.ID)) ∧
      GetUserFromContext ((c.Locals "user" (.user v)).Locals "user_id" (.int v.ID)) =
        some v ∧
      GetUserIDFromContext ((c.Locals "user" (.user v)).Locals "user_id" (.int v.ID)) =
        some v.ID ∧
      v ∈ db.users ∧ v.ID = u.ID ∧ v.DeletedAt = none ∧ ∀ b ∈ db.bans, b.UserID ≠ v.ID) ∧
    ((∃ c2, RequireAuth env db c = .next c2) ∨
      ∃ msg, RequireAuth env db c =
        .respond { c with status := StatusUnauthorized
                          body := some { Success := false, Message := msg } }) := by
  have hpass : ∀ token u v, c.Get "Authorization" = "Bearer " ++ token → token ≠ "" →
      ValidateToken env db token = .ok u → ValidateUser env db u.ID = .ok v →
      RequireAuth env db c =
        .next ((c.Locals "user" (.user v)).Locals "user_id" (.int v.ID)) := by
    intro token u v hh ht hvt hvu
    rw [RequireAuth_bearer env db c token hh ht]
    simp only [hvt, hvu]
  have hdich : (∃ token u v, c.Get "Authorization" = "Bearer " ++ token ∧ token ≠ "" ∧
        ValidateToken env db token = .ok u ∧ ValidateUser env db u.ID = .ok v) ∨
      ∃ msg, RequireAuth env db c =
        .respond { c with status := StatusUnauthorized
                          body := some { Success := false, Message := msg } } := by
    rcases bearer_cases (c.Get "Authorization") with ⟨token, hh, ht⟩ | hno
    · cases hvt : ValidateToken env db token with
      | error e =>
        right
        rw [RequireAuth_bearer env db c token hh ht]
        simp only [hvt]
        exact UnauthorizedResponse_respond _ _
      | ok u =>
        cases hvu : ValidateUser env db u.ID with
        | error e =>
          right
          rw [RequireAuth_bearer env db c token hh ht]
          simp only [hvt, hvu]
          exact UnauthorizedResponse_respond _ _
        | ok v => exact Or.inl ⟨token, u, v, hh, ht, hvt, hvu⟩
    · exact Or.inr (guards_without_bearer env db c hno).1
  refine ⟨⟨fun hnext => ?_, fun hadm => ?_⟩, fun token u v hh ht hvt hvu => ?_, ?_⟩
  · rcases hdich with hadm | ⟨msg, hmsg⟩
    · exact hadm
    · obtain ⟨c2, hc2⟩ := hnext
      rw [hmsg] at hc2
      cases hc2
  · obtain ⟨token, u, v, hh, ht, hvt, hvu⟩ := hadm
    exact ⟨_, hpass token u v hh ht hvt hvu⟩
  · obtain ⟨hsel, hnb, _, _⟩ := ValidateUser_ok_inv env db u.ID v hvu
    obtain ⟨hm, hid, hd⟩ := selectUserByID_some hsel
    exact ⟨hpass token u v hh ht hvt hvu, (attached_identity c v).1,
      (attached_identity c v).2, hm, hid, hd, existsBanByUser_false.mp hnb⟩
  · rcases hdich with ⟨token, u, v, hh, ht, hvt, hvu⟩ | hresp
    · exact Or.inl ⟨_, hpass token u v hh ht hvt hvu⟩
    · exact Or.inr hresp

/-- Witness of C6: the token of alice is admitted and her identity attached; a request
without header is not admitted. -/
theorem requireAuth_admits_iff_witness :
    RequireAuth (Demo.envAt (Demo.issuedAt + Hour)) Demo.db
        (Demo.request "Bearer s3cr3t.iivineri.1") =
      .next (((Demo.request "Bearer s3cr3t.iivineri.1").Locals "user"
        (.user Demo.alice)).Locals "user_id" (.int 1)) ∧
    ¬ ∃ c2, RequireAuth (Demo.envAt (Demo.issuedAt + Hour)) Demo.db
        Demo.anonymousRequest = .next c2 :=
  ⟨((requireAuth_admits_iff (Demo.envAt (Demo.issuedAt + Hour)) Demo.db
      (Demo.request "Bearer s3cr3t.iivineri.1")).2.1 "s3cr3t.iivineri.1" Demo.alice
      Demo.alice (by decide) (by decide) (by decide) (by decide)).1,
   fun h => by
    obtain ⟨token, _, _, hh, _⟩ :=
      (requireAuth_admits_iff (Demo.envAt (Demo.issuedAt + Hour)) Demo.db
        Demo.anonymousRequest).1.mp h
    exact bearer_append_ne_empty token hh.symm⟩

/-- C7. `OptionalAuth` always hands the request to the next handler. When the request
carries a bearer token that `ValidateToken` accepts for a user whom `ValidateUser`
accepts, which is when `RequireAuth` admits it, the context it passes on is the one
`RequireAuth` passes on, and the user and the id read back from it are that user and
that id. In every other case it passes on the context unchanged: the values of the
context, and so the user and the id read from it, are those of the incoming request.
For a request that arrives without a user in its context, a user is attached exactly
when `RequireAuth` admits the request. -/
theorem optionalAuth_never_rejects (env : Env) (db : DB) (c : Ctx) :
    (∃ c2, OptionalAuth env db c = .next c2) ∧
    (∀ c2, RequireAuth env db c = .next c2 → OptionalAuth env db c = .next c2) ∧
    ((¬ ∃ c2, RequireAuth env db c = .next c2) → OptionalAuth env db c = .next c) ∧
    (∀ token u v, c.Get "Authorization" = "Bearer " ++ token → token ≠ "" →
      ValidateToken env db token = .ok u → ValidateUser env db u.ID = .ok v →
      ∃ c2, OptionalAuth env db c = .next c2 ∧ RequireAuth env db c = .next c2 ∧
        GetUserFromContext c2 = some v ∧ GetUserIDFromContext c2 = some v.ID) ∧
    ((¬ ∃ c2, RequireAuth env db c = .next c2) →
      ∀ c2, OptionalAuth env db c = .next c2 →
        c2.locals = c.locals ∧ GetUserFromContext c2 = GetUserFromContext c ∧
        GetUserIDFromContext c2 = GetUserIDFromContext c) ∧
    (GetUserFromContext c = none → GetUserIDFromContext c = none →
      ∀ c2, OptionalAuth env db c = .next c2 →
        ((∃ v, GetUserFromContext c2 = some v ∧ GetUserIDFromContext c2 = some v.ID) ↔
          ∃ c3, RequireAuth env db c = .next c3) ∧
        ((¬ ∃ c3, RequireAuth env db c = .next c3) →
          GetUserFromContext c2 = none ∧ GetUserIDFromContext c2 = none)) := by
  have hbase : (∃ c2, OptionalAuth env db c = .next c2) ∧
      (∀ c2, RequireAuth env db c = .next c2 → OptionalAuth env db c = .next c2) ∧
      ((¬ ∃ c2, RequireAuth env db c = .next c2) → OptionalAuth env db c = .next c) ∧
      ((∃ c2, RequireAuth env db c = .next c2) →
        ∃ v, RequireAuth env db c =
          .next ((c.Locals "user" (.user v)).Locals "user_id" (.int v.ID))) := by
    rcases bearer_cases (c.Get "Authorization") with ⟨token, hh, ht⟩ | hno
    · have hR := RequireAuth_bearer env db c token hh ht
      have hO := OptionalAuth_bearer env db c token hh ht
      cases hvt : ValidateToken env db token with
      | error e =>
        simp only [hvt] at hR hO
        obtain ⟨msg, hmsg⟩ := UnauthorizedResponse_respond c "Invalid or expired token"
        rw [hR, hO, hmsg]
        refine ⟨⟨c, rfl⟩, fun c2 h => ?_, fun _ => rfl, fun h => ?_⟩
        · cases h
        · obtain ⟨c2, h2⟩ := h
          cases h2
      | ok u =>
        cases hvu : ValidateUser env db u.ID with
        | error e =>
          simp only [hvt, hvu] at hR hO
          obtain ⟨msg, hmsg⟩ := UnauthorizedResponse_respond c e.Error
          rw [hR, hO, hmsg]
          refine ⟨⟨c, rfl⟩, fun c2 h => ?_, fun _ => rfl, fun h => ?_⟩
          · cases h
          · obtain ⟨c2, h2⟩ := h
            cases h2
        | ok v =>
          simp only [hvt, hvu] at hR hO
          rw [hR, hO]
          refine ⟨⟨_, rfl⟩, fun c2 h => h, fun h => ?_, fun _ => ⟨v, rfl⟩⟩
          exact absurd ⟨_, rfl⟩ h
    · obtain ⟨⟨msg, hmsg⟩, hopt⟩ := guards_without_bearer env db c hno
      rw [hmsg, hopt]
      refine ⟨⟨c, rfl⟩, fun c2 h => ?_, fun _ => rfl, fun h => ?_⟩
      · cases h
      · obtain ⟨c2, h2⟩ := h
        cases h2
  obtain ⟨h1, h2, h3, h4⟩ := hbase
  refine ⟨h1, h2, h3, ?_, ?_, ?_⟩
  · intro token u v hh ht hvt hvu
    have hR : RequireAuth env db c =
        .next ((c.Locals "user" (.user v)).Locals "user_id" (.int v.ID)) := by
      rw [RequireAuth_bearer env db c token hh ht]
      simp only [hvt, hvu]
    exact ⟨_, h2 _ hR, hR, (attached_identity c v).1, (attached_identity c v).2⟩
  · intro hrej c2 hc2
    rw [h3 hrej] at hc2
    cases hc2
    exact ⟨rfl, rfl, rfl⟩
  · intro hnu hni c2 hc2
    by_cases hadm : ∃ c3, RequireAuth env db c = .next c3
    · obtain ⟨v, hv⟩ := h4 hadm
      have hO := h2 _ hv
      rw [hO] at hc2
      cases hc2
      refine ⟨⟨fun _ => hadm, fun _ =>
        ⟨v, (attached_identity c v).1, (attached_identity c v).2⟩⟩, fun hrej => ?_⟩
      exact absurd hadm hrej
    · rw [h3 hadm] at hc2
      cases hc2
      refine ⟨⟨fun h => ?_, fun h => absurd h hadm⟩, fun _ => ⟨hnu, hni⟩⟩
      obtain ⟨v, hv, _⟩ := h
      rw [hnu] at hv
      cases hv

/-- Witness of C7: with the token of alice both guards pass on the same context, from
which alice and her id are read back; with the token of dave, who is banned,
`RequireAuth` rejects and `OptionalAuth` passes the request on untouched, with no user
in its context. -/
theorem optionalAuth_never_rejects_witness :
    (∃ c2, OptionalAuth (Demo.envAt (Demo.issuedAt + Hour)) Demo.db
        (Demo.request "Bearer s3cr3t.iivineri.1") = .next c2 ∧
      RequireAuth (Demo.envAt (Demo.issuedAt + Hour)) Demo.db
        (Demo.request "Bearer s3cr3t.iivineri.1") = .next c2 ∧
      GetUserFromContext c2 = some Demo.alice ∧ GetUserIDFromContext c2 = some 1) ∧
    OptionalAuth (Demo.envAt (Demo.issuedAt + Hour)) Demo.db
        (Demo.request "Bearer s3cr3t.iivineri.4") =
      .next (Demo.request "Bearer s3cr3t.iivineri.4") ∧
    GetUserFromContext (Demo.request "Bearer s3cr3t.iivineri.4") = none :=
  ⟨(optionalAuth_never_rejects (Demo.envAt (Demo.issuedAt + Hour)) Demo.db
      (Demo.request "Bearer s3cr3t.iivineri.1")).2.2.2.1 "s3cr3t.iivineri.1" Demo.alice
      Demo.alice (by decide) (by decide) (by decide) (by decide),
   (optionalAuth_never_rejects (Demo.envAt (Demo.issuedAt + Hour)) Demo.db
      (Demo.request "Bearer s3cr3t.iivineri.4")).2.2.1 (fun h => by
        obtain ⟨c2, hc2⟩ := h
        have hr : RequireAuth (Demo.envAt (Demo.issuedAt + Hour)) Demo.db
            (Demo.request "Bearer s3cr3t.iivineri.4") =
            UnauthorizedResponse (Demo.request "Bearer s3cr3t.iivineri.4")
              "user is banned" := by decide
        rw [hr] at hc2
        cases hc2),
   by decide⟩

end Iivineri

/-! ## `ValidateToken` and `ValidateUser` -/

namespace Iivineri

/-- C8. `ValidateToken` does not read the ban table: replacing the table leaves its
result unchanged, and a verified, unexpired token with issuer "iivineri" whose subject
is a live user resolves to that user whatever bans exist. `ValidateUser` fails with
"user not found" when no live row has the id; when a live row has it and the store
answers, it fails with "user is banned" if a ban row exists for the user and returns
the whole row otherwise. -/
theorem validateToken_ignores_bans (env : Env) (db : DB) (tokenString : String) :
    (∀ bans banSeq, ValidateToken env { db with bans := bans, banSeq := banSeq } tokenString =
      ValidateToken env db tokenString) ∧
    (∀ claims u, env.jwtVerify env.jwtSecret tokenString = some claims →
      claims.Issuer = "iivineri" →
      (∀ exp, claims.ExpiresAt = some exp → env.now < timeUnix exp) →
      (∀ nbf, claims.NotBefore = some nbf → timeUnix nbf ≤ env.now) →
      env.fault .userGetByID = none →
      selectUserByID db claims.UserID = some u →
      ∀ bans banSeq,
        ValidateToken env { db with bans := bans, banSeq := banSeq } tokenString = .ok u) ∧
    (∀ id, (∀ v ∈ db.users, v.ID = id → v.DeletedAt ≠ none) →
      ValidateUser env db id = .error (.errorf "user not found")) ∧
    (∀ id u, env.fault .userGetByID = none → env.fault .banIsUserBanned = none →
      selectUserByID db id = some u →
      ((∃ b ∈ db.bans, b.UserID = u.ID) →
        ValidateUser env db id = .error (.errorf "user is banned")) ∧
      ((∀ b ∈ db.bans, b.UserID ≠ u.ID) → ValidateUser env db id = .ok u)) := by
  have hframe : ∀ bans banSeq,
      ValidateToken env { db with bans := bans, banSeq := banSeq } tokenString =
        ValidateToken env db tokenString := by
    intro bans banSeq
    rfl
  refine ⟨hframe, ?_, ?_, ?_⟩
  · intro claims u hv hiss hexp hnbf hf hsel bans banSeq
    rw [hframe]
    unfold ValidateToken
    rw [ParseWithClaims_ok env tokenString claims hv hexp hnbf]
    have hget := GetByID_ok env hf hsel
    simp only [hget]
    simp [hiss]
  · intro id hnone
    obtain ⟨e, he⟩ := GetByID_error_of_none env (selectUserByID_none.mpr hnone)
    unfold ValidateUser
    rw [he]
  · intro id u hf1 hf2 hsel
    have hget := GetByID_ok env hf1 hsel
    have hban := IsUserBanned_ok env db u.ID hf2
    constructor
    · intro hb
      unfold ValidateUser
      rw [hget]
      simp only [hban, existsBanByUser_true.mpr hb]
      simp
    · intro hnb
      unfold ValidateUser
      rw [hget]
      simp only [hban, existsBanByUser_false.mpr hnb]
      simp

/-- Witness of C8: the access token of dave, who is banned, still resolves to dave,
while `ValidateUser` refuses him, accepts alice and does not find erin, who is deleted. -/
theorem validateToken_ignores_bans_witness :
    ValidateToken (Demo.envAt (Demo.issuedAt + Hour)) Demo.db "s3cr3t.iivineri.4" =
      .ok Demo.dave ∧
    ValidateUser (Demo.envAt (Demo.issuedAt + Hour)) Demo.db 4 =
      .error (.errorf "user is banned") ∧
    ValidateUser (Demo.envAt (Demo.issuedAt + Hour)) Demo.db 1 = .ok Demo.alice ∧
    ValidateUser (Demo.envAt (Demo.issuedAt + Hour)) Demo.db 5 =
      .error (.errorf "user not found") :=
  ⟨(validateToken_ignores_bans (Demo.envAt (Demo.issuedAt + Hour)) Demo.db
      "s3cr3t.iivineri.4").2.1
      { UserID := 4, ExpiresAt := some 1700086400, IssuedAt := some 1700000000
        NotBefore := none, Issuer := "iivineri" } Demo.dave
      (by decide) (by decide)
      (fun exp he => by
        have h : exp = 1700086400 := (Option.some.inj he).symm
        subst h
        decide)
      (fun nbf hn => by cases hn) (by decide) (by decide) Demo.db.bans Demo.db.banSeq,
   ((validateToken_ignores_bans (Demo.envAt (Demo.issuedAt + Hour)) Demo.db "").2.2.2
      4 Demo.dave (by decide) (by decide) (by decide)).1 (by decide),
   ((validateToken_ignores_bans (Demo.envAt (Demo.issuedAt + Hour)) Demo.db "").2.2.2
      1 Demo.alice (by decide) (by decide) (by decide)).2 (by decide),
   (validateToken_ignores_bans (Demo.envAt (Demo.issuedAt + Hour)) Demo.db "").2.2.1
      5 (by decide)⟩

end Iivineri

/-! ## Registration -/

namespace Iivineri

/-- A failed `UserRepository.Create` leaves the store as it was. -/
theorem Create_error_frame (env : Env) (db db2 : DB) (user : User) (e : GoError)
    (h : UserRepository.Create env db user = (.error e, db2)) : db2 = db := by
  unfold UserRepository.Create QueryRow at h
  cases hf : env.fault .userCreate with
  | none => simp [hf] at h
  | some msg =>
    simp [hf] at h
    exact h.2.symm

/-- A failed `Register` leaves the store as it was. -/
theorem Register_error_frame (env : Env) (db db2 : DB) (req : RegisterRequest) (e : GoError)
    (h : Register env db req = (.error e, db2)) : db2 = db := by
  unfold Register at h
  cases h1 : UserRepository.EmailExists env db req.Email with
  | error e1 =>
    simp [h1] at h
    exact h.2.symm
  | ok emailExists =>
    simp only [h1] at h
    cases emailExists
    · simp only [Bool.false_eq_true, if_false] at h
      cases h2 : UserRepository.NicknameExists env db req.Nickname with
      | error e2 =>
        simp [h2] at h
        exact h.2.symm
      | ok nicknameExists =>
        simp only [h2] at h
        cases nicknameExists
        · simp only [Bool.false_eq_true, if_false] at h
          cases h3 : env.GenerateFromPassword req.Password with
          | error e3 =>
            simp [h3] at h
            exact h.2.symm
          | ok hashed =>
            simp only [h3] at h
            cases h4 : req.GetDateOfBirth env with
            | error e4 =>
              simp [h4] at h
              exact h.2.symm
            | ok dob =>
              simp only [h4] at h
              generalize hc : UserRepository.Create env db _ = r at h
              obtain ⟨res, db1⟩ := r
              cases res with
              | error e5 =>
                simp at h
                rw [← h.2]
                exact Create_error_frame env db db1 _ e5 hc
              | ok created => simp at h
        · simp at h
          exact h.2.symm
    · simp at h
      exact h.2.symm

/-- C9. When the store answers the existence queries: if a live user has the email of
the request, `Register` fails with "email already exists", whether or not the nickname
is taken too; if no live user has the email and a live user has the nickname, it fails
with "nickname already exists". In both cases, as in every failure of `Register`, the
store is returned unchanged. -/
theorem register_rejects_taken (env : Env) (db : DB) (req : RegisterRequest) :
    (env.fault .userEmailExists = none →
      (∃ u ∈ db.users, u.Email = req.Email ∧ u.DeletedAt = none) →
      Register env db req = (.error (.errorf "email already exists"), db)) ∧
    (env.fault .userEmailExists = none → env.fault .userNicknameExists = none →
      (∀ u ∈ db.users, u.Email = req.Email → u.DeletedAt ≠ none) →
      (∃ u ∈ db.users, u.Nickname = req.Nickname ∧ u.DeletedAt = none) →
      Register env db req = (.error (.errorf "nickname already exists"), db)) ∧
    (∀ e db2, Register env db req = (.error e, db2) → db2 = db) := by
  refine ⟨fun hf hemail => ?_, fun hf1 hf2 hemail hnick => ?_, fun e db2 h => ?_⟩
  · unfold Register UserRepository.EmailExists QueryRow
    simp [hf, existsUserByEmail_true.mpr hemail]
  · unfold Register UserRepository.EmailExists UserRepository.NicknameExists QueryRow
    simp [hf1, hf2, existsUserByEmail_false.mpr hemail, existsUserByNickname_true.mpr hnick]
  · exact Register_error_frame env db db2 req e h

/-- Witness of C9: the email of alice with a fresh nickname, the email and the nickname
of alice, and a fresh email with the nickname of alice. -/
theorem register_rejects_taken_witness :
    Register Demo.env Demo.db
        { Nickname := "alicia", Email := "alice@example.com", Password := "wonderland"
          DateOfBirth := "1990-05-17" } =
      (.error (.errorf "email already exists"), Demo.db) ∧
    Register Demo.env Demo.db
        { Nickname := "alice", Email := "alice@example.com", Password := "wonderland"
          DateOfBirth := "1990-05-17" } =
      (.error (.errorf "email already exists"), Demo.db) ∧
    Register Demo.env Demo.db
        { Nickname := "alice", Email := "alicia@example.com", Password := "wonderland"
          DateOfBirth := "1990-05-17" } =
      (.error (.errorf "nickname already exists"), Demo.db) :=
  ⟨(register_rejects_taken Demo.env Demo.db
      { Nickname := "alicia", Email := "alice@example.com", Password := "wonderland"
        DateOfBirth := "1990-05-17" }).1 (by decide) (by decide),
   (register_rejects_taken Demo.env Demo.db
      { Nickname := "alice", Email := "alice@example.com", Password := "wonderland"
        DateOfBirth := "1990-05-17" }).1 (by decide) (by decide),
   (register_rejects_taken Demo.env Demo.db
      { Nickname := "alice", Email := "alicia@example.com", Password := "wonderland"
        DateOfBirth := "1990-05-17" }).2.1 (by decide) (by decide) (by decide) (by decide)⟩

/-- C10 (as amended). When the store answers, no live user has the email or the
nickname of the request, the password can be hashed and the date of birth parses,
`Register` succeeds: it appends to the users one row with the next id, the nickname,
email and date of the request, the hash, the 2FA flag off and an empty secret, and it
returns the public projection of that row. The projection has no field for the hash or
the secret and does not depend on them. -/
theorem register_succeeds
    (env : Env) (db : DB) (req : RegisterRequest) (hashed : String) (dob : Time)
    (hs1 : env.fault .userEmailExists = none)
    (hs2 : env.fault .userNicknameExists = none)
    (hs3 : env.fault .userCreate = none)
    (hemail : ∀ u ∈ db.users, u.Email = req.Email → u.DeletedAt ≠ none)
    (hnick : ∀ u ∈ db.users, u.Nickname = req.Nickname → u.DeletedAt ≠ none)
    (hhash : env.GenerateFromPassword req.Password = .ok hashed)
    (hdob : req.GetDateOfBirth env = .ok dob) :
    Register env db req =
      (.ok { ID := db.userSeq, Nickname := req.Nickname, Email := req.Email
             Enabled2FA := false, DateOfBirth := dob, CreatedAt := env.dbNow
             UpdatedAt := none },
       { db with
         users := db.users ++
           [{ ID := db.userSeq, Nickname := req.Nickname, Email := req.Email
              Password := hashed, Enabled2FA := false, Secret2FA := ""
              DateOfBirth := dob, CreatedAt := env.dbNow, UpdatedAt := none
              DeletedAt := none }]
         userSeq := db.userSeq + 1 }) ∧
    (∀ (u : User) (password secret : String),
      ({ u with Password := password, Secret2FA := secret } : User).ToPublic = u.ToPublic) := by
  constructor
  · unfold Register UserRepository.EmailExists UserRepository.NicknameExists
      UserRepository.Create QueryRow
    simp [hs1, hs2, hs3, existsUserByEmail_false.mpr hemail,
      existsUserByNickname_false.mpr hnick, hhash, hdob, insertedUser, usersColumnDefaults,
      User.ToPublic]
  · intro u password secret
    rfl

/-- Witness of C10 (as amended): frank registers with a fresh email and nickname. -/
theorem register_succeeds_witness :
    (Register Demo.env Demo.db
        { Nickname := "frank", Email := "frank@example.com", Password := "hunter2hunter2"
          DateOfBirth := "1990-05-17" }).1 =
      .ok { ID := 6, Nickname := "frank", Email := "frank@example.com"
            Enabled2FA := false, DateOfBirth := 642902400 * Second
            CreatedAt := Demo.issuedAt, UpdatedAt := none } :=
  congrArg Prod.fst
    (register_succeeds Demo.env Demo.db
      { Nickname := "frank", Email := "frank@example.com", Password := "hunter2hunter2"
        DateOfBirth := "1990-05-17" }
      "$2a$10$hunter2hunter2" (642902400 * Second)
      (by decide) (by decide) (by decide) (by decide) (by decide) (by decide)
      (by decide)).1

/-- C10 fails as stated. The email and the nickname are unused, the date of birth
parses and the store answers every query, yet `Register` fails: the password is 86
bytes long and bcrypt refuses to hash more than 72. -/
theorem register_fails_on_long_password :
    (∀ u ∈ Demo.db.users, u.Email = "frank@example.com" → u.DeletedAt ≠ none) ∧
    (∀ u ∈ Demo.db.users, u.Nickname = "frank" → u.DeletedAt ≠ none) ∧
    (∀ op, Demo.env.fault op = none) ∧
    RegisterRequest.GetDateOfBirth Demo.env
        { Nickname := "frank", Email := "frank@example.com"
          Password := "correct horse battery staple correct horse battery staple correct horse battery staple"
          DateOfBirth := "1990-05-17" } = .ok (642902400 * Second) ∧
    Register Demo.env Demo.db
        { Nickname := "frank", Email := "frank@example.com"
          Password := "correct horse battery staple correct horse battery staple correct horse battery staple"
          DateOfBirth := "1990-05-17" } =
      (.error (.wrapf "failed to hash password"
        (.lib "bcrypt: password length exceeds 72 bytes")), Demo.db) := by
  refine ⟨by decide, by decide, fun _ => rfl, by decide, by decide⟩

end Iivineri


/-! ## Date of birth -/

namespace Iivineri

/-- `GetDateOfBirth` on the three answers of `time.Parse`. -/
theorem GetDateOfBirth_eq (env : Env) (req : RegisterRequest) :
    req.GetDateOfBirth env =
      match env.timeParse "2006-01-02" req.DateOfBirth with
      | .ok t => .ok t
      | .error _ =>
        match env.timeParse "2006-01-02T15:04:05Z" req.DateOfBirth with
        | .ok t => .ok t
        | .error _ =>
          match env.timeParse RFC3339 req.DateOfBirth with
          | .ok t => .ok t
          | .error _ =>
            .error (.errorf ("invalid date format: " ++ req.DateOfBirth ++
              ", expected format: YYYY-MM-DD")) := by
  unfold RegisterRequest.GetDateOfBirth
  simp only [parseFirst]
  cases env.timeParse "2006-01-02" req.DateOfBirth <;>
    cases env.timeParse "2006-01-02T15:04:05Z" req.DateOfBirth <;>
    cases env.timeParse RFC3339 req.DateOfBirth <;> rfl

/-- When the date of birth does not parse, `Register` fails and returns the store
unchanged, whichever of its checks fails first. -/
theorem Register_fails_of_bad_date (env : Env) (db : DB) (req : RegisterRequest)
    (e : GoError) (h : req.GetDateOfBirth env = .error e) :
    ∃ e2, Register env db req = (.error e2, db) := by
  unfold Register
  cases UserRepository.EmailExists env db req.Email with
  | error e1 => exact ⟨_, rfl⟩
  | ok emailExists =>
    cases emailExists
    · cases UserRepository.NicknameExists env db req.Nickname with
      | error e1 => exact ⟨_, rfl⟩
      | ok nicknameExists =>
        cases nicknameExists
        · cases env.GenerateFromPassword req.Password with
          | error e1 => exact ⟨_, rfl⟩
          | ok hashed =>
            refine ⟨.wrapf "invalid date of birth format" e, ?_⟩
            simp [h]
        · exact ⟨_, rfl⟩
    · exact ⟨_, rfl⟩

/-- C11 (as amended). `GetDateOfBirth` returns the parse under the first of the
layouts "2006-01-02", "2006-01-02T15:04:05Z" and RFC 3339 that `time.Parse` accepts,
and fails with "invalid date format" when it accepts none. In that case `Register`
fails and persists nothing; its error is "invalid date of birth format" when the checks
that come before the parsing pass: the store answers, no live user has the email or the
nickname, and the password is hashed. -/
theorem register_invalid_date (env : Env) (db : DB) (req : RegisterRequest) :
    (∀ t, env.timeParse "2006-01-02" req.DateOfBirth = .ok t →
      req.GetDateOfBirth env = .ok t) ∧
    (∀ e1 t, env.timeParse "2006-01-02" req.DateOfBirth = .error e1 →
      env.timeParse "2006-01-02T15:04:05Z" req.DateOfBirth = .ok t →
      req.GetDateOfBirth env = .ok t) ∧
    (∀ e1 e2 t, env.timeParse "2006-01-02" req.DateOfBirth = .error e1 →
      env.timeParse "2006-01-02T15:04:05Z" req.DateOfBirth = .error e2 →
      env.timeParse "2006-01-02T15:04:05Z07:00" req.DateOfBirth = .ok t →
      req.GetDateOfBirth env = .ok t) ∧
    (∀ e1 e2 e3, env.timeParse "2006-01-02" req.DateOfBirth = .error e1 →
      env.timeParse "2006-01-02T15:04:05Z" req.DateOfBirth = .error e2 →
      env.timeParse "2006-01-02T15:04:05Z07:00" req.DateOfBirth = .error e3 →
      req.GetDateOfBirth env =
        .error (.errorf ("invalid date format: " ++ req.DateOfBirth ++
          ", expected format: YYYY-MM-DD")) ∧
      (∃ e, Register env db req = (.error e, db)) ∧
      (env.fault .userEmailExists = none → env.fault .userNicknameExists = none →
        (∀ u ∈ db.users, u.Email = req.Email → u.DeletedAt ≠ none) →
        (∀ u ∈ db.users, u.Nickname = req.Nickname → u.DeletedAt ≠ none) →
        ∀ hashed, env.GenerateFromPassword req.Password = .ok hashed →
        Register env db req =
          (.error (.wrapf "invalid date of birth format"
            (.errorf ("invalid date format: " ++ req.DateOfBirth ++
              ", expected format: YYYY-MM-DD"))), db))) := by
  have hrfc : RFC3339 = "2006-01-02T15:04:05Z07:00" := rfl
  refine ⟨fun t h1 => ?_, fun e1 t h1 h2 => ?_, fun e1 e2 t h1 h2 h3 => ?_,
    fun e1 e2 e3 h1 h2 h3 => ?_⟩
  · rw [GetDateOfBirth_eq, h1]
  · rw [GetDateOfBirth_eq, h1]
    simp only [h2]
  · rw [GetDateOfBirth_eq, h1]
    simp only [h2, hrfc, h3]
  · have hdob : req.GetDateOfBirth env =
        .error (.errorf ("invalid date format: " ++ req.DateOfBirth ++
          ", expected format: YYYY-MM-DD")) := by
      rw [GetDateOfBirth_eq, h1]
      simp only [h2, hrfc, h3]
    refine ⟨hdob, Register_fails_of_bad_date env db req _ hdob, ?_⟩
    intro hs1 hs2 hemail hnick hashed hhash
    unfold Register UserRepository.EmailExists UserRepository.NicknameExists QueryRow
    simp [hs1, hs2, existsUserByEmail_false.mpr hemail,
      existsUserByNickname_false.mpr hnick, hhash, hdob]

/-- Witness of C11 (as amended): a calendar date is parsed under the first layout; a
date that no layout accepts makes the registration of frank fail with "invalid date of
birth format". -/
theorem register_invalid_date_witness :
    RegisterRequest.GetDateOfBirth Demo.env
        { Nickname := "frank", Email := "frank@example.com", Password := "hunter2hunter2"
          DateOfBirth := "1990-05-17" } = .ok (642902400 * Second) ∧
    Register Demo.env Demo.db
        { Nickname := "frank", Email := "frank@example.com", Password := "hunter2hunter2"
          DateOfBirth := "17/05/1990" } =
      (.error (.wrapf "invalid date of birth format"
        (.errorf ("invalid date format: " ++ "17/05/1990" ++
          ", expected format: YYYY-MM-DD"))), Demo.db) :=
  ⟨(register_invalid_date Demo.env Demo.db
      { Nickname := "frank", Email := "frank@example.com", Password := "hunter2hunter2"
        DateOfBirth := "1990-05-17" }).1 _ (by decide),
   ((register_invalid_date Demo.env Demo.db
      { Nickname := "frank", Email := "frank@example.com", Password := "hunter2hunter2"
        DateOfBirth := "17/05/1990" }).2.2.2
      (.lib "parsing time: cannot parse") (.lib "parsing time: cannot parse")
      (.lib "parsing time: cannot parse") (by decide) (by decide) (by decide)).2.2
      (by decide) (by decide) (by decide) (by decide) "$2a$10$hunter2hunter2" (by decide)⟩

/-- C11 fails as stated. The date of birth of the request parses under no layout, yet
`Register` does not fail with the invalid-date error: the email is the one of alice, and
the email check comes first. -/
theorem register_bad_date_taken_email :
    RegisterRequest.GetDateOfBirth Demo.env
        { Nickname := "alicia", Email := "alice@example.com", Password := "wonderland"
          DateOfBirth := "17/05/1990" } =
      .error (.errorf "invalid date format: 17/05/1990, expected format: YYYY-MM-DD") ∧
    Register Demo.env Demo.db
        { Nickname := "alicia", Email := "alice@example.com", Password := "wonderland"
          DateOfBirth := "17/05/1990" } =
      (.error (.errorf "email already exists"), Demo.db) := by
  decide

end Iivineri


/-! ## Password reset -/

namespace Iivineri

theorem Exec_cases (env : Env) (op : StoreOp) :
    (∃ msg, env.fault op = some msg ∧ Exec env op = .error (.driver msg)) ∨
    (env.fault op = none ∧ Exec env op = .ok ()) := by
  unfold Exec
  cases env.fault op <;> simp

theorem Exec_ok (env : Env) (op : StoreOp) (h : env.fault op = none) :
    Exec env op = .ok () := by
  unfold Exec
  rw [h]

/-- The result of `RequestPasswordReset` when the email resolves to a user. -/
theorem RequestPasswordReset_of_user (env : Env) (db : DB) (req : PasswordResetRequest)
    (u : User) (hget : UserRepository.GetByEmail env db req.Email = .ok u)
    (hstore : env.fault .resetCreate = none) :
    RequestPasswordReset env db req =
      (.ok (),
       { db with
         resets := upsertReset db.resets
           (stampedReset env ⟨"", req.Email, zeroTime, zeroTime⟩) }) := by
  unfold RequestPasswordReset ResetPasswordRepository.Create
  rw [hget]
  simp only [Exec_ok env .resetCreate hstore]

/-- `RequestPasswordReset` either leaves the store as it was or rewrites the reset
tokens with `upsertReset`. -/
theorem RequestPasswordReset_store (env : Env) (db : DB) (req : PasswordResetRequest) :
    (RequestPasswordReset env db req).2 = db ∨
    (RequestPasswordReset env db req).2 =
      { db with
        resets := upsertReset db.resets
          (stampedReset env ⟨"", req.Email, zeroTime, zeroTime⟩) } := by
  rcases GetByEmail_cases env db req.Email with ⟨e, he⟩ | ⟨u, _, _, hget⟩
  · left
    unfold RequestPasswordReset
    rw [he]
  · rcases Exec_cases env .resetCreate with ⟨msg, _, hex⟩ | ⟨hf, _⟩
    · left
      unfold RequestPasswordReset ResetPasswordRepository.Create
      rw [hget]
      simp only [hex]
    · right
      rw [RequestPasswordReset_of_user env db req u hget hf]

/-- Counterexample to C12: the driver refuses the insertion of the reset token. For the
email of alice `RequestPasswordReset` returns the wrapped failure; for an email that
no user has it returns success. The caller can tell the two cases apart. -/
theorem requestPasswordReset_reveals_email_on_failed_insert :
    RequestPasswordReset (Demo.envFailing [.resetCreate]) Demo.fullDB
        { Email := "alice@example.com" } =
      (.error (.wrapf "failed to create reset token"
        (.wrapf "failed to create reset token" (.driver "connection refused"))),
       Demo.fullDB) ∧
    RequestPasswordReset (Demo.envFailing [.resetCreate]) Demo.fullDB
        { Email := "nobody@example.com" } =
      (.ok (), Demo.fullDB) := by
  decide

/-- C12 (as amended). When no live user has the email, `RequestPasswordReset` returns
success and the store unchanged, so it creates, replaces and deletes no reset token.
When a live user has the email and the store takes the token, it returns the same
success value, so the caller cannot tell the two cases apart. When a live user has the
email, the lookup answers and the store refuses the token, it returns an error that
wraps the failure and the store unchanged, which an unknown email never gives. -/
theorem requestPasswordReset_hides_unknown_email
    (env : Env) (db : DB) (req : PasswordResetRequest) :
    ((∀ v ∈ db.users, v.Email = req.Email → v.DeletedAt ≠ none) →
      RequestPasswordReset env db req = (.ok (), db)) ∧
    (∀ (db2 : DB) (u : User), selectUserByEmail db2 req.Email = some u →
      env.fault .resetCreate = none →
      (RequestPasswordReset env db2 req).1 = .ok () ∧
      ((∀ v ∈ db.users, v.Email = req.Email → v.DeletedAt ≠ none) →
        (RequestPasswordReset env db2 req).1 = (RequestPasswordReset env db req).1)) ∧
    (∀ (db2 : DB) (u : User) (msg : String), selectUserByEmail db2 req.Email = some u →
      env.fault .userGetByEmail = none → env.fault .resetCreate = some msg →
      RequestPasswordReset env db2 req =
        (.error (.wrapf "failed to create reset token"
          (.wrapf "failed to create reset token" (.driver msg))), db2) ∧
      ((∀ v ∈ db.users, v.Email = req.Email → v.DeletedAt ≠ none) →
        (RequestPasswordReset env db2 req).1 ≠ (RequestPasswordReset env db req).1)) := by
  have hnone : (∀ v ∈ db.users, v.Email = req.Email → v.DeletedAt ≠ none) →
      RequestPasswordReset env db req = (.ok (), db) := by
    intro h
    obtain ⟨e, he⟩ := GetByEmail_error_of_none env (selectUserByEmail_none.mpr h)
    unfold RequestPasswordReset
    rw [he]
  refine ⟨hnone, fun db2 u hu hstore => ?_, fun db2 u msg hu hf hstore => ?_⟩
  · have hsome : (RequestPasswordReset env db2 req).1 = .ok () := by
      rcases GetByEmail_cases env db2 req.Email with ⟨e, he⟩ | ⟨v, _, _, hget⟩
      · unfold RequestPasswordReset
        rw [he]
      · rw [RequestPasswordReset_of_user env db2 req v hget hstore]
    refine ⟨hsome, fun h => ?_⟩
    rw [hsome, hnone h]
  · have hfail : RequestPasswordReset env db2 req =
        (.error (.wrapf "failed to create reset token"
          (.wrapf "failed to create reset token" (.driver msg))), db2) := by
      have hex : Exec env .resetCreate = .error (.driver msg) := by
        unfold Exec
        rw [hstore]
      unfold RequestPasswordReset ResetPasswordRepository.Create
      rw [GetByEmail_ok env hf hu]
      simp only [hex]
    refine ⟨hfail, fun h => ?_⟩
    rw [hfail, hnone h]
    intro heq
    cases heq

/-- Witness of C12 (as amended): a reset requested for an unknown email and one
requested for the email of alice return the same value; the first leaves the store
untouched. -/
theorem requestPasswordReset_hides_unknown_email_witness :
    RequestPasswordReset Demo.env Demo.fullDB { Email := "nobody@example.com" } =
      (.ok (), Demo.fullDB) ∧
    (RequestPasswordReset Demo.env Demo.fullDB { Email := "alice@example.com" }).1 =
      .ok () :=
  ⟨(requestPasswordReset_hides_unknown_email Demo.env Demo.fullDB
      { Email := "nobody@example.com" }).1 (by decide),
   ((requestPasswordReset_hides_unknown_email Demo.env Demo.fullDB
      { Email := "alice@example.com" }).2.1 Demo.fullDB Demo.alice (by decide)
      (by decide)).1⟩

theorem selectResetByID_none {env : Env} {db : DB} {id : String} :
    selectResetByID env db id = none ↔
      ∀ r ∈ db.resets, r.ID = id → r.ExpiredAt ≤ env.dbNow := by
  unfold selectResetByID
  simp [List.find?_eq_none]

theorem selectResetByID_some {env : Env} {db : DB} {id : String} {r : ResetPassword}
    (h : selectResetByID env db id = some r) :
    r ∈ db.resets ∧ r.ID = id ∧ env.dbNow < r.ExpiredAt := by
  unfold selectResetByID at h
  have hp := List.find?_some h
  have hm := List.mem_of_find?_eq_some h
  simp at hp
  exact ⟨hm, hp.1, hp.2⟩

/-- The lookup of a reset token either fails or returns the selected row. -/
theorem ResetGetByID_cases (env : Env) (db : DB) (id : String) :
    (∃ e, ResetPasswordRepository.GetByID env db id = .error e) ∨
    (∃ r, env.fault .resetGetByID = none ∧ selectResetByID env db id = some r ∧
      ResetPasswordRepository.GetByID env db id = .ok r) := by
  unfold ResetPasswordRepository.GetByID QueryRow
  cases env.fault .resetGetByID <;> cases selectResetByID env db id <;> simp

/-- A token id that selects no live row makes `ConfirmPasswordReset` fail and leave the
store as it was. -/
theorem ConfirmPasswordReset_of_none (env : Env) (db : DB)
    (req : PasswordResetConfirmRequest) (h : selectResetByID env db req.Token = none) :
    ConfirmPasswordReset env db req =
      (.error (.errorf "invalid or expired reset token"), db) := by
  rcases ResetGetByID_cases env db req.Token with ⟨e, he⟩ | ⟨r, _, hr, _⟩
  · unfold ConfirmPasswordReset
    rw [he]
  · rw [h] at hr
    cases hr

/-- C13. When every reset token with the given id has an expiry that is not after the
time of the database, in particular when no token has the id, `ConfirmPasswordReset`
fails with "invalid or expired reset token" and returns the store unchanged: users,
reset tokens and sessions are as before. -/
theorem confirmPasswordReset_rejects_unknown_or_expired
    (env : Env) (db : DB) (req : PasswordResetConfirmRequest)
    (h : ∀ r ∈ db.resets, r.ID = req.Token → r.ExpiredAt ≤ env.dbNow) :
    ConfirmPasswordReset env db req =
      (.error (.errorf "invalid or expired reset token"), db) :=
  ConfirmPasswordReset_of_none env db req (selectResetByID_none.mpr h)

/-- Witness of C13: the token of bob has expired, and the other id is unknown. -/
theorem confirmPasswordReset_rejects_unknown_or_expired_witness :
    ConfirmPasswordReset Demo.env Demo.fullDB
        { Token := "5d1c9a3e-8b47-4f26-a0d9-6e7f8091a2b3", NewPassword := "bricklayer" } =
      (.error (.errorf "invalid or expired reset token"), Demo.fullDB) ∧
    ConfirmPasswordReset Demo.env Demo.fullDB
        { Token := "00000000-0000-4000-8000-000000000000", NewPassword := "bricklayer" } =
      (.error (.errorf "invalid or expired reset token"), Demo.fullDB) :=
  ⟨confirmPasswordReset_rejects_unknown_or_expired Demo.env Demo.fullDB
      { Token := "5d1c9a3e-8b47-4f26-a0d9-6e7f8091a2b3", NewPassword := "bricklayer" }
      (by decide),
   confirmPasswordReset_rejects_unknown_or_expired Demo.env Demo.fullDB
      { Token := "00000000-0000-4000-8000-000000000000", NewPassword := "bricklayer" }
      (by decide)⟩

end Iivineri


namespace Iivineri

/-- A successful `UserRepository.Update` rewrites the live rows of the id. -/
theorem Update_cases (env : Env) (db : DB) (user : User) :
    (∃ e, UserRepository.Update env db user = (.error e, db)) ∨
    (env.fault .userUpdate = none ∧
      UserRepository.Update env db user =
        (.ok (),
         { db with
           users := db.users.map fun row =>
             if row.ID == user.ID && row.DeletedAt.isNone then updatedUser env user row
             else row })) := by
  unfold UserRepository.Update
  rcases Exec_cases env .userUpdate with ⟨msg, _, hex⟩ | ⟨hf, hex⟩
  · left
    rw [hex]
    exact ⟨_, rfl⟩
  · right
    rw [hex]
    exact ⟨hf, rfl⟩

/-- The store after `ResetPasswordRepository.Delete`. -/
theorem ResetDelete_store (env : Env) (db : DB) (id : String) :
    ((ResetPasswordRepository.Delete env db id).2 = db ∧ env.fault .resetDelete ≠ none) ∨
    ((ResetPasswordRepository.Delete env db id).2 =
        { db with resets := db.resets.filter fun r => r.ID != id } ∧
      env.fault .resetDelete = none) := by
  unfold ResetPasswordRepository.Delete
  rcases Exec_cases env .resetDelete with ⟨msg, hf, hex⟩ | ⟨hf, hex⟩
  · left
    rw [hex, hf]
    exact ⟨rfl, by simp⟩
  · right
    rw [hex]
    exact ⟨rfl, hf⟩

/-- The store after `SessionRepository.DeleteAllByUserID`. -/
theorem SessionDeleteAll_store (env : Env) (db : DB) (userID : Int) :
    ((SessionRepository.DeleteAllByUserID env db userID).2 = db ∧
      env.fault .sessionDeleteAllByUserID ≠ none) ∨
    ((SessionRepository.DeleteAllByUserID env db userID).2 =
        { db with
          sessions := db.sessions.map fun s =>
            if s.UserID == userID && s.DeletedAt.isNone then
              { s with DeletedAt := some env.dbNow }
            else s } ∧
      env.fault .sessionDeleteAllByUserID = none) := by
  unfold SessionRepository.DeleteAllByUserID
  rcases Exec_cases env .sessionDeleteAllByUserID with ⟨msg, hf, hex⟩ | ⟨hf, hex⟩
  · left
    rw [hex, hf]
    exact ⟨rfl, by simp⟩
  · right
    rw [hex]
    exact ⟨rfl, hf⟩

/-- The steps that a successful `ConfirmPasswordReset` went through, and the store it
returns. -/
theorem ConfirmPasswordReset_ok_inv (env : Env) (db db2 : DB)
    (req : PasswordResetConfirmRequest)
    (h : ConfirmPasswordReset env db req = (.ok (), db2)) :
    ∃ reset user hashed,
      selectResetByID env db req.Token = some reset ∧
      selectUserByEmail db reset.Email = some user ∧
      env.GenerateFromPassword req.NewPassword = .ok hashed ∧
      db2 = (SessionRepository.DeleteAllByUserID env
        (ResetPasswordRepository.Delete env
          { db with
            users := db.users.map fun row =>
              if row.ID == user.ID && row.DeletedAt.isNone then
                updatedUser env { user with Password := hashed } row
              else row } req.Token).2 user.ID).2 := by
  rcases ResetGetByID_cases env db req.Token with ⟨e, he⟩ | ⟨reset, _, hreset, hget⟩
  · unfold ConfirmPasswordReset at h
    rw [he] at h
    cases h
  · rcases GetByEmail_cases env db reset.Email with ⟨e, he⟩ | ⟨user, _, huser, hgetu⟩
    · unfold ConfirmPasswordReset at h
      rw [hget] at h
      simp only [he] at h
      cases h
    · cases hh : env.GenerateFromPassword req.NewPassword with
      | error e =>
        unfold ConfirmPasswordReset at h
        rw [hget] at h
        simp only [hgetu, hh] at h
        cases h
      | ok hashed =>
        refine ⟨reset, user, hashed, hreset, huser, rfl, ?_⟩
        unfold ConfirmPasswordReset at h
        rw [hget] at h
        simp only [hgetu, hh] at h
        rcases Update_cases env db { user with Password := hashed } with ⟨e, he⟩ | ⟨_, hok⟩
        · rw [he] at h
          cases h
        · rw [hok] at h
          simp only [Prod.mk.injEq, true_and] at h
          exact h.symm

/-- C14 (as amended). Whenever `ConfirmPasswordReset` returns success, the token was
live, its email resolved to a user, and every live row of that user now stores the
bcrypt hash of the new password: the stored hash verifies exactly what that hash
verifies, so it verifies the new password and rejects the old one when bcrypt does so
for the new hash. If the store carried out the deletion of the token, no token has the
id any more and a second confirmation with it fails; if the store carried out the
invalidation of the sessions, every session of the user has a deletion time. -/
theorem confirmPasswordReset_success (env : Env) (db db2 : DB)
    (req : PasswordResetConfirmRequest)
    (h : ConfirmPasswordReset env db req = (.ok (), db2)) :
    ∃ reset user hashed,
      selectResetByID env db req.Token = some reset ∧
      selectUserByEmail db reset.Email = some user ∧
      env.GenerateFromPassword req.NewPassword = .ok hashed ∧
      (∃ u2 ∈ db2.users, u2.ID = user.ID ∧ u2.DeletedAt = none) ∧
      (∀ u2 ∈ db2.users, u2.ID = user.ID → u2.DeletedAt = none →
        u2.Password = hashed ∧
        (env.CompareHashAndPassword hashed req.NewPassword = true →
          env.CompareHashAndPassword u2.Password req.NewPassword = true) ∧
        (∀ old, env.CompareHashAndPassword hashed old = false →
          env.CompareHashAndPassword u2.Password old = false)) ∧
      (env.fault .resetDelete = none →
        (∀ r ∈ db2.resets, r.ID ≠ req.Token) ∧
        ∀ (env2 : Env) (newPassword : String),
          ConfirmPasswordReset env2 db2 { Token := req.Token, NewPassword := newPassword } =
            (.error (.errorf "invalid or expired reset token"), db2)) ∧
      (env.fault .sessionDeleteAllByUserID = none →
        ∀ s ∈ db2.sessions, s.UserID = user.ID → s.DeletedAt ≠ none) := by
  obtain ⟨reset, user, hashed, hreset, huser, hhash, hdb⟩ :=
    ConfirmPasswordReset_ok_inv env db db2 req h
  refine ⟨reset, user, hashed, hreset, huser, hhash, ?_⟩
  have husers : db2.users = db.users.map fun row =>
      if row.ID == user.ID && row.DeletedAt.isNone then
        updatedUser env { user with Password := hashed } row
      else row := by
    rw [hdb]
    rcases SessionDeleteAll_store env (ResetPasswordRepository.Delete env
      { db with
        users := db.users.map fun row =>
          if row.ID == user.ID && row.DeletedAt.isNone then
            updatedUser env { user with Password := hashed } row
          else row } req.Token).2 user.ID with ⟨h1, _⟩ | ⟨h1, _⟩ <;>
      rcases ResetDelete_store env
        { db with
          users := db.users.map fun row =>
            if row.ID == user.ID && row.DeletedAt.isNone then
              updatedUser env { user with Password := hashed } row
            else row } req.Token with ⟨h2, _⟩ | ⟨h2, _⟩ <;>
      rw [h1, h2]
  obtain ⟨hmem, _, hlive⟩ := selectUserByEmail_some huser
  refine ⟨?_, ?_, ?_, ?_⟩
  · refine ⟨updatedUser env { user with Password := hashed } user, ?_, rfl, hlive⟩
    rw [husers]
    refine List.mem_map.mpr ⟨user, hmem, ?_⟩
    simp [hlive]
  · intro u2 hu2 hid hd
    rw [husers] at hu2
    obtain ⟨row, _, hrow⟩ := List.mem_map.mp hu2
    have hpw : u2.Password = hashed := by
      by_cases hc : (row.ID == user.ID && row.DeletedAt.isNone) = true
      · rw [if_pos hc] at hrow
        rw [← hrow]
        rfl
      · rw [if_neg hc] at hrow
        subst hrow
        simp [hid, hd] at hc
    refine ⟨hpw, fun hnew => ?_, fun old hold => ?_⟩
    · rw [hpw]
      exact hnew
    · rw [hpw]
      exact hold
  · intro hf
    have hresets : ∀ r ∈ db2.resets, r.ID ≠ req.Token := by
      intro r hr
      rw [hdb] at hr
      rcases ResetDelete_store env
        { db with
          users := db.users.map fun row =>
            if row.ID == user.ID && row.DeletedAt.isNone then
              updatedUser env { user with Password := hashed } row
            else row } req.Token with ⟨_, h2⟩ | ⟨h2, _⟩
      · exact absurd hf h2
      · rcases SessionDeleteAll_store env (ResetPasswordRepository.Delete env
          { db with
            users := db.users.map fun row =>
              if row.ID == user.ID && row.DeletedAt.isNone then
                updatedUser env { user with Password := hashed } row
              else row } req.Token).2 user.ID with ⟨h1, _⟩ | ⟨h1, _⟩ <;>
          · rw [h1, h2] at hr
            simp at hr
            exact hr.2
    refine ⟨hresets, fun env2 newPassword => ?_⟩
    apply ConfirmPasswordReset_of_none
    apply selectResetByID_none.mpr
    intro r hr hid
    exact absurd hid (hresets r hr)
  · intro hf s hs hsid
    rw [hdb] at hs
    rcases SessionDeleteAll_store env (ResetPasswordRepository.Delete env
      { db with
        users := db.users.map fun row =>
          if row.ID == user.ID && row.DeletedAt.isNone then
            updatedUser env { user with Password := hashed } row
          else row } req.Token).2 user.ID with ⟨_, h1⟩ | ⟨h1, _⟩
    · exact absurd hf h1
    · rw [h1] at hs
      obtain ⟨s0, _, hs0⟩ := List.mem_map.mp hs
      by_cases hc : (s0.UserID == user.ID && s0.DeletedAt.isNone) = true
      · rw [if_pos hc] at hs0
        rw [← hs0]
        simp
      · rw [if_neg hc] at hs0
        subst hs0
        intro hd
        simp [hsid, hd] at hc

end Iivineri

namespace Iivineri

/-- Witness of C14 (as amended): alice confirms her reset with a new password. -/
theorem confirmPasswordReset_success_witness :
    ∃ reset user hashed,
      selectResetByID Demo.env Demo.fullDB "0b7e2f1c-5a63-4d8e-9f10-2c3d4e5f6a7b" =
        some reset ∧
      selectUserByEmail Demo.fullDB reset.Email = some user ∧
      Demo.env.GenerateFromPassword "looking-glass" = .ok hashed ∧
      user = Demo.alice ∧ hashed = "$2a$10$looking-glass" :=
  match confirmPasswordReset_success Demo.env Demo.fullDB
      (ConfirmPasswordReset Demo.env Demo.fullDB
        { Token := "0b7e2f1c-5a63-4d8e-9f10-2c3d4e5f6a7b"
          NewPassword := "looking-glass" }).2
      { Token := "0b7e2f1c-5a63-4d8e-9f10-2c3d4e5f6a7b", NewPassword := "looking-glass" }
      (Prod.ext (by decide) rfl) with
  | ⟨reset, user, hashed, h1, h2, h3, _⟩ =>
    ⟨reset, user, hashed, h1, h2, h3, by
      have hr : reset = Demo.aliceReset := by
        have h : selectResetByID Demo.env Demo.fullDB "0b7e2f1c-5a63-4d8e-9f10-2c3d4e5f6a7b" =
            some Demo.aliceReset := by decide
        rw [h] at h1
        exact (Option.some.inj h1).symm
      subst hr
      have hu : selectUserByEmail Demo.fullDB Demo.aliceReset.Email = some Demo.alice := by
        decide
      rw [hu] at h2
      exact (Option.some.inj h2).symm, by
      have h : Demo.env.GenerateFromPassword "looking-glass" = .ok "$2a$10$looking-glass" := by
        decide
      rw [h] at h3
      exact (Except.ok.inj h3).symm⟩

/-- C14 fails as stated. With a driver that refuses the deletion of the token and the
invalidation of the sessions, `ConfirmPasswordReset` still returns success: the token
and the active session of alice remain, and the same token confirms a second reset.
And when the new password is the old one, the stored hash still verifies the old
password after a successful reset. -/
theorem confirmPasswordReset_success_without_cleanup :
    (ConfirmPasswordReset
        (Demo.envFailing [.resetDelete, .sessionDeleteAllByUserID]) Demo.fullDB
        { Token := "0b7e2f1c-5a63-4d8e-9f10-2c3d4e5f6a7b"
          NewPassword := "looking-glass" }).1 = .ok () ∧
    (ConfirmPasswordReset
        (Demo.envFailing [.resetDelete, .sessionDeleteAllByUserID]) Demo.fullDB
        { Token := "0b7e2f1c-5a63-4d8e-9f10-2c3d4e5f6a7b"
          NewPassword := "looking-glass" }).2.resets = Demo.fullDB.resets ∧
    (ConfirmPasswordReset
        (Demo.envFailing [.resetDelete, .sessionDeleteAllByUserID]) Demo.fullDB
        { Token := "0b7e2f1c-5a63-4d8e-9f10-2c3d4e5f6a7b"
          NewPassword := "looking-glass" }).2.sessions = Demo.fullDB.sessions ∧
    Demo.aliceReset ∈ Demo.fullDB.resets ∧
    Demo.aliceSession ∈ Demo.fullDB.sessions ∧ Demo.aliceSession.DeletedAt = none ∧
    (ConfirmPasswordReset
        (Demo.envFailing [.resetDelete, .sessionDeleteAllByUserID])
        (ConfirmPasswordReset
          (Demo.envFailing [.resetDelete, .sessionDeleteAllByUserID]) Demo.fullDB
          { Token := "0b7e2f1c-5a63-4d8e-9f10-2c3d4e5f6a7b"
            NewPassword := "looking-glass" }).2
        { Token := "0b7e2f1c-5a63-4d8e-9f10-2c3d4e5f6a7b"
          NewPassword := "jabberwocky" }).1 = .ok () ∧
    Demo.env.CompareHashAndPassword Demo.alice.Password "wonderland" = true ∧
    (ConfirmPasswordReset Demo.env Demo.fullDB
        { Token := "0b7e2f1c-5a63-4d8e-9f10-2c3d4e5f6a7b"
          NewPassword := "wonderland" }).1 = .ok () ∧
    (selectUserByID
        (ConfirmPasswordReset Demo.env Demo.fullDB
          { Token := "0b7e2f1c-5a63-4d8e-9f10-2c3d4e5f6a7b"
            NewPassword := "wonderland" }).2 1).map
        (fun u => Demo.env.CompareHashAndPassword u.Password "wonderland") = some true := by
  decide

end Iivineri


namespace Iivineri

/-- The emails of the table after `upsertReset`: unchanged when the email had a row,
extended by the email otherwise. -/
theorem upsertReset_emails (rows : List ResetPassword) (reset : ResetPassword) :
    (upsertReset rows reset).map (fun r => r.Email) =
      if rows.any (fun r => r.Email == reset.Email) then rows.map (fun r => r.Email)
      else rows.map (fun r => r.Email) ++ [reset.Email] := by
  unfold upsertReset
  by_cases h : rows.any (fun r => r.Email == reset.Email) = true
  · rw [if_pos h, if_pos h, List.map_map]
    apply List.map_congr_left
    intro r _
    by_cases hr : r.Email = reset.Email
    · simp [hr]
    · simp [hr]
  · rw [if_neg h, if_neg h]
    simp

/-- `upsertReset` keeps the emails of the table pairwise distinct. -/
theorem upsertReset_nodup (rows : List ResetPassword) (reset : ResetPassword)
    (h : (rows.map (fun r => r.Email)).Nodup) :
    ((upsertReset rows reset).map (fun r => r.Email)).Nodup := by
  rw [upsertReset_emails]
  by_cases hany : rows.any (fun r => r.Email == reset.Email) = true
  · rw [if_pos hany]
    exact h
  · rw [if_neg hany]
    apply List.Nodup.append h (List.nodup_singleton _)
    intro e he1 he2
    simp at he2
    subst he2
    apply hany
    obtain ⟨r, hr, hre⟩ := List.mem_map.mp he1
    simp
    exact ⟨r, hr, hre⟩

/-- The rows of the email after `upsertReset` all carry the id and the times of the new
token. -/
theorem upsertReset_row (rows : List ResetPassword) (reset r : ResetPassword)
    (hr : r ∈ upsertReset rows reset) (he : r.Email = reset.Email) :
    r.ID = reset.ID ∧ r.CreatedAt = reset.CreatedAt ∧ r.ExpiredAt = reset.ExpiredAt := by
  unfold upsertReset at hr
  by_cases hany : rows.any (fun r => r.Email == reset.Email) = true
  · rw [if_pos hany] at hr
    obtain ⟨r0, _, hr0⟩ := List.mem_map.mp hr
    by_cases hc : (r0.Email == reset.Email) = true
    · rw [if_pos hc] at hr0
      rw [← hr0]
      exact ⟨rfl, rfl, rfl⟩
    · rw [if_neg hc] at hr0
      subst hr0
      simp [he] at hc
  · rw [if_neg hany] at hr
    rcases List.mem_append.mp hr with hm | hm
    · exfalso
      apply hany
      simp
      exact ⟨r, hm, he⟩
    · simp at hm
      subst hm
      exact ⟨rfl, rfl, rfl⟩

/-- The rows of the other emails are the rows that were there before. -/
theorem upsertReset_other (rows : List ResetPassword) (reset r : ResetPassword)
    (hr : r ∈ upsertReset rows reset) (he : r.Email ≠ reset.Email) : r ∈ rows := by
  unfold upsertReset at hr
  by_cases hany : rows.any (fun r => r.Email == reset.Email) = true
  · rw [if_pos hany] at hr
    obtain ⟨r0, hm0, hr0⟩ := List.mem_map.mp hr
    by_cases hc : (r0.Email == reset.Email) = true
    · rw [if_pos hc] at hr0
      rw [← hr0] at he
      simp at hc
      exact absurd hc he
    · rw [if_neg hc] at hr0
      subst hr0
      exact hm0
  · rw [if_neg hany] at hr
    rcases List.mem_append.mp hr with hm | hm
    · exact hm
    · simp at hm
      subst hm
      exact absurd rfl he

/-- One `RequestPasswordReset` keeps the emails of the reset tokens distinct. -/
theorem RequestPasswordReset_nodup (env : Env) (db : DB) (req : PasswordResetRequest)
    (h : (db.resets.map (fun r => r.Email)).Nodup) :
    ((RequestPasswordReset env db req).2.resets.map (fun r => r.Email)).Nodup := by
  rcases RequestPasswordReset_store env db req with hs | hs
  · rw [hs]
    exact h
  · rw [hs]
    exact upsertReset_nodup db.resets _ h

/-- C15. A store whose reset tokens have pairwise distinct emails keeps that
property through any sequence of `RequestPasswordReset` calls; from a store without
reset tokens, it holds after every sequence. When a token is issued for an email that
has one, the emails of the table are unchanged, the row of the email carries the new
id, creation and expiry time, and, ids being unique and the new id fresh, the earlier
id no longer resolves: `ConfirmPasswordReset` rejects it. -/
theorem reset_tokens_one_per_email :
    (∀ (calls : List (Env × PasswordResetRequest)) (db : DB),
      (db.resets.map (fun r => r.Email)).Nodup →
      ((resetRequests db calls).resets.map (fun r => r.Email)).Nodup) ∧
    (∀ (calls : List (Env × PasswordResetRequest)) (db : DB), db.resets = [] →
      ((resetRequests db calls).resets.map (fun r => r.Email)).Nodup) ∧
    (∀ (env : Env) (db : DB) (req : PasswordResetRequest) (user : User)
      (old : ResetPassword),
      selectUserByEmail db req.Email = some user →
      env.fault .userGetByEmail = none → env.fault .resetCreate = none →
      old ∈ db.resets → old.Email = req.Email →
      (RequestPasswordReset env db req).2.resets.map (fun r => r.Email) =
        db.resets.map (fun r => r.Email) ∧
      (∃ r ∈ (RequestPasswordReset env db req).2.resets, r.Email = req.Email) ∧
      (∀ r ∈ (RequestPasswordReset env db req).2.resets, r.Email = req.Email →
        r.ID = env.newUUID ∧ r.CreatedAt = env.now ∧ r.ExpiredAt = env.now2 + 24 * Hour) ∧
      ((∀ r ∈ db.resets, r.ID = old.ID → r.Email = req.Email) → env.newUUID ≠ old.ID →
        ∀ (env2 : Env) (newPassword : String),
          ConfirmPasswordReset env2 (RequestPasswordReset env db req).2
              { Token := old.ID, NewPassword := newPassword } =
            (.error (.errorf "invalid or expired reset token"),
             (RequestPasswordReset env db req).2))) := by
  have hseq : ∀ (calls : List (Env × PasswordResetRequest)) (db : DB),
      (db.resets.map (fun r => r.Email)).Nodup →
      ((resetRequests db calls).resets.map (fun r => r.Email)).Nodup := by
    intro calls
    induction calls with
    | nil =>
      intro db h
      exact h
    | cons call rest ih =>
      intro db h
      obtain ⟨env, req⟩ := call
      exact ih _ (RequestPasswordReset_nodup env db req h)
  refine ⟨hseq, fun calls db hempty => hseq calls db (by rw [hempty]; exact List.nodup_nil),
    ?_⟩
  intro env db req user old huser hf1 hf2 hold holdEmail
  have hstore := RequestPasswordReset_of_user env db req user (GetByEmail_ok env hf1 huser) hf2
  rw [hstore]
  have hany : db.resets.any (fun r => r.Email ==
      (stampedReset env ⟨"", req.Email, zeroTime, zeroTime⟩).Email) = true := by
    simp [stampedReset]
    exact ⟨old, hold, holdEmail⟩
  refine ⟨?_, ?_, ?_, ?_⟩
  · show (upsertReset db.resets _).map (fun r => r.Email) = _
    rw [upsertReset_emails, if_pos hany]
  · have hmem : req.Email ∈ (upsertReset db.resets
        (stampedReset env ⟨"", req.Email, zeroTime, zeroTime⟩)).map (fun r => r.Email) := by
      rw [upsertReset_emails, if_pos hany]
      exact List.mem_map.mpr ⟨old, hold, holdEmail⟩
    obtain ⟨r, hr, hre⟩ := List.mem_map.mp hmem
    exact ⟨r, hr, hre⟩
  · intro r hr he
    exact upsertReset_row db.resets _ r hr he
  · intro hunique hfresh env2 newPassword
    apply ConfirmPasswordReset_of_none
    apply selectResetByID_none.mpr
    intro r hr hid
    exfalso
    by_cases he : r.Email = req.Email
    · have := (upsertReset_row db.resets _ r hr he).1
      simp only [stampedReset] at this
      exact hfresh (this.symm.trans hid)
    · have hm := upsertReset_other db.resets _ r hr he
      exact he (hunique r hm hid)

/-- Witness of C15: alice asks for a second reset; her row is rewritten in place and
the id of her earlier token is rejected. -/
theorem reset_tokens_one_per_email_witness :
    ((resetRequests Demo.fullDB
        [(Demo.env, { Email := "alice@example.com" }),
         (Demo.env, { Email := "carol@example.com" }),
         (Demo.env, { Email := "alice@example.com" })]).resets.map
      (fun r => r.Email)).Nodup ∧
    (RequestPasswordReset Demo.env Demo.fullDB { Email := "alice@example.com" }).2.resets.map
        (fun r => r.Email) = Demo.fullDB.resets.map (fun r => r.Email) ∧
    ConfirmPasswordReset Demo.env
        (RequestPasswordReset Demo.env Demo.fullDB { Email := "alice@example.com" }).2
        { Token := "0b7e2f1c-5a63-4d8e-9f10-2c3d4e5f6a7b"
          NewPassword := "looking-glass" } =
      (.error (.errorf "invalid or expired reset token"),
       (RequestPasswordReset Demo.env Demo.fullDB { Email := "alice@example.com" }).2) :=
  ⟨reset_tokens_one_per_email.1 _ Demo.fullDB (by decide),
   (reset_tokens_one_per_email.2.2 Demo.env Demo.fullDB { Email := "alice@example.com" }
      Demo.alice Demo.aliceReset (by decide) (by decide) (by decide) (by decide)
      (by decide)).1,
   (reset_tokens_one_per_email.2.2 Demo.env Demo.fullDB { Email := "alice@example.com" }
      Demo.alice Demo.aliceReset (by decide) (by decide) (by decide) (by decide)
      (by decide)).2.2.2 (by decide) (by decide) Demo.env "looking-glass"⟩

/-- The token that `ResetPasswordRepository.Create` returns and stores: its creation
time is the first reading of the clock and its expiry is 24 hours after the second
reading, so the two are 24 hours apart only when the clock did not move in between. -/
theorem ResetCreate_times (env : Env) (db db2 : DB) (reset created : ResetPassword)
    (h : ResetPasswordRepository.Create env db reset = (.ok created, db2)) :
    (∃ r ∈ db2.resets, r.Email = created.Email ∧ r.ID = created.ID ∧
      r.CreatedAt = created.CreatedAt ∧ r.ExpiredAt = created.ExpiredAt) ∧
    created.CreatedAt = env.now ∧
    created.ExpiredAt = created.CreatedAt + 24 * Hour + (env.now2 - env.now) ∧
    (created.ExpiredAt = created.CreatedAt + 24 * Hour ↔ env.now2 = env.now) := by
  unfold ResetPasswordRepository.Create at h
  rcases Exec_cases env .resetCreate with ⟨msg, _, hex⟩ | ⟨_, hex⟩
  · simp only [hex] at h
    cases h
  · simp only [hex, Prod.mk.injEq, Except.ok.injEq] at h
    obtain ⟨hc, hdb⟩ := h
    subst hc
    subst hdb
    refine ⟨?_, rfl, ?_, ?_⟩
    · have hmem : (stampedReset env reset).Email ∈
          (upsertReset db.resets (stampedReset env reset)).map (fun r => r.Email) := by
        rw [upsertReset_emails]
        by_cases hany : db.resets.any
            (fun r => r.Email == (stampedReset env reset).Email) = true
        · rw [if_pos hany]
          simp at hany
          obtain ⟨r, hr, hre⟩ := hany
          exact List.mem_map.mpr ⟨r, hr, hre⟩
        · rw [if_neg hany]
          simp
      obtain ⟨r, hr, hre⟩ := List.mem_map.mp hmem
      obtain ⟨h1, h2, h3⟩ := upsertReset_row db.resets _ r hr hre
      exact ⟨r, hr, hre, h1, h2, h3⟩
    · have key : ∀ a b c : Int, a + c = b + c + (a - b) := by
        intro a b c
        omega
      exact key _ _ _
    · have key : ∀ a b c : Int, a + c = b + c ↔ a = b := by
        intro a b c
        constructor <;> intro h <;> omega
      exact key _ _ _

/-- C16 does not hold of the code. The clock is read once for the creation time and
once more for the expiry: in this run the second reading is 85 nanoseconds after the
first, and the token that the store creates for carol expires 24 hours and 85
nanoseconds after its creation time. -/
theorem reset_token_expiry_not_24h_after_creation :
    Demo.env.now2 = Demo.env.now + 85 ∧
    ∃ created db2,
      ResetPasswordRepository.Create Demo.env Demo.fullDB
          { ID := "", Email := "carol@example.com", CreatedAt := zeroTime
            ExpiredAt := zeroTime } = (.ok created, db2) ∧
      created ∈ db2.resets ∧
      created.CreatedAt = 1700000000 * Second + 250000000 ∧
      created.ExpiredAt = created.CreatedAt + 24 * Hour + 85 ∧
      created.ExpiredAt ≠ created.CreatedAt + 24 * Hour :=
  ⟨by decide, _, _, rfl, by decide, by decide, by decide, by decide⟩

end Iivineri


/-! ## Password change -/

namespace Iivineri

/-- The end of `ChangePassword` either fails and leaves the store, or stores the hash
of the new password in the live rows of the user. -/
theorem changePasswordEnd_cases (env : Env) (db : DB) (user : User)
    (req : ChangePasswordRequest) :
    (∃ e, changePasswordEnd env db user req = (.error e, db)) ∨
    (∃ hashed, env.GenerateFromPassword req.NewPassword = .ok hashed ∧
      env.fault .userUpdate = none ∧
      changePasswordEnd env db user req =
        (.ok (),
         { db with
           users := db.users.map fun row =>
             if row.ID == user.ID && row.DeletedAt.isNone then
               updatedUser env { user with Password := hashed } row
             else row })) := by
  unfold changePasswordEnd
  cases hh : env.GenerateFromPassword req.NewPassword with
  | error e => exact Or.inl ⟨_, rfl⟩
  | ok hashed =>
    rcases Update_cases env db { user with Password := hashed } with ⟨e, he⟩ | ⟨hf, hok⟩
    · left
      simp only [he]
      exact ⟨_, rfl⟩
    · right
      simp only [hok]
      exact ⟨hashed, rfl, hf, rfl⟩

/-- `ChangePassword` once the user has been fetched. -/
theorem ChangePassword_of_user (env : Env) (db : DB) (userID : Int)
    (req : ChangePasswordRequest) (user : User)
    (hget : UserRepository.GetByID env db userID = .ok user) :
    ChangePassword env db userID req =
      if env.CompareHashAndPassword user.Password req.CurrentPassword = false then
        (.error (.errorf "invalid current password"), db)
      else if user.Is2FAEnabled then
        match req.TOTPCode with
        | none => (.error (.errorf "2FA code required"), db)
        | some code =>
          if code = "" then (.error (.errorf "2FA code required"), db)
          else if env.totpValidate code user.Secret2FA = false then
            (.error (.errorf "invalid 2FA code"), db)
          else changePasswordEnd env db user req
      else changePasswordEnd env db user req := by
  unfold ChangePassword
  rw [hget]

/-- What a successful `ChangePassword` has checked, and the store it returns. -/
theorem ChangePassword_ok_inv (env : Env) (db db2 : DB) (userID : Int)
    (req : ChangePasswordRequest) (h : ChangePassword env db userID req = (.ok (), db2)) :
    ∃ user hashed, selectUserByID db userID = some user ∧
      env.CompareHashAndPassword user.Password req.CurrentPassword = true ∧
      (user.Is2FAEnabled = true →
        ∃ code, req.TOTPCode = some code ∧ code ≠ "" ∧
          env.totpValidate code user.Secret2FA = true) ∧
      env.GenerateFromPassword req.NewPassword = .ok hashed ∧
      db2 = { db with
              users := db.users.map fun row =>
                if row.ID == user.ID && row.DeletedAt.isNone then
                  updatedUser env { user with Password := hashed } row
                else row } := by
  rcases GetByID_cases env db userID with ⟨e, he⟩ | ⟨user, _, hsel, hget⟩
  · unfold ChangePassword at h
    rw [he] at h
    cases h
  · rw [ChangePassword_of_user env db userID req user hget] at h
    cases hpw : env.CompareHashAndPassword user.Password req.CurrentPassword with
    | false => simp [hpw] at h
    | true =>
      simp only [hpw, Bool.true_eq_false, if_false] at h
      have hend : changePasswordEnd env db user req = (.ok (), db2) →
          ∃ hashed, env.GenerateFromPassword req.NewPassword = .ok hashed ∧
            db2 = { db with
                    users := db.users.map fun row =>
                      if row.ID == user.ID && row.DeletedAt.isNone then
                        updatedUser env { user with Password := hashed } row
                      else row } := by
        intro hok
        rcases changePasswordEnd_cases env db user req with ⟨e, he⟩ | ⟨hashed, hh, _, heq⟩
        · rw [he] at hok
          cases hok
        · rw [heq] at hok
          exact ⟨hashed, hh, (Prod.mk.inj hok).2.symm⟩
      cases h2 : user.Is2FAEnabled with
      | false =>
        simp only [h2, Bool.false_eq_true, if_false] at h
        obtain ⟨hashed, hh, hdb⟩ := hend h
        refine ⟨user, hashed, hsel, hpw, fun hc => ?_, hh, hdb⟩
        rw [h2] at hc
        cases hc
      | true =>
        simp only [h2, if_true] at h
        cases hc : req.TOTPCode with
        | none => simp [hc] at h
        | some code =>
          simp only [hc] at h
          by_cases hempty : code = ""
          · simp [hempty] at h
          · cases hval : env.totpValidate code user.Secret2FA with
            | false => simp [hempty, hval] at h
            | true =>
              simp only [hempty, hval, if_false, Bool.true_eq_false] at h
              obtain ⟨hashed, hh, hdb⟩ := hend h
              exact ⟨user, hashed, hsel, hpw, fun _ => ⟨code, rfl, hempty, hval⟩, hh, hdb⟩

/-- A failed `ChangePassword` leaves the store as it was. -/
theorem ChangePassword_error_frame (env : Env) (db db2 : DB) (userID : Int)
    (req : ChangePasswordRequest) (e : GoError)
    (h : ChangePassword env db userID req = (.error e, db2)) : db2 = db := by
  rcases GetByID_cases env db userID with ⟨e1, he⟩ | ⟨user, _, _, hget⟩
  · unfold ChangePassword at h
    rw [he] at h
    exact (Prod.mk.inj h).2.symm
  · rw [ChangePassword_of_user env db userID req user hget] at h
    have hend : changePasswordEnd env db user req = (.error e, db2) → db2 = db := by
      intro herr
      rcases changePasswordEnd_cases env db user req with ⟨e2, he2⟩ | ⟨hashed, _, _, heq⟩
      · rw [he2] at herr
        exact (Prod.mk.inj herr).2.symm
      · rw [heq] at herr
        cases (Prod.mk.inj herr).1
    split at h
    · exact (Prod.mk.inj h).2.symm
    · split at h
      · split at h
        · exact (Prod.mk.inj h).2.symm
        · split at h
          · exact (Prod.mk.inj h).2.symm
          · split at h
            · exact (Prod.mk.inj h).2.symm
            · exact hend h
      · exact hend h

/-- C17. `ChangePassword` succeeds, and only then changes the store, only if the
current password matches the stored hash and, when 2FA is enabled, a non-empty TOTP
code is supplied that validates against the stored secret; it then stores the hash of
the new password. For a user that the store returns, it fails with "invalid current
password" on a mismatch; when the password matches and 2FA is enabled, with "2FA code
required" if no code is given and with "invalid 2FA code" if the code does not
validate. Every failure returns the store unchanged. -/
theorem changePassword_gates (env : Env) (db : DB) (userID : Int)
    (req : ChangePasswordRequest) :
    (∀ db2, ChangePassword env db userID req = (.ok (), db2) →
      ∃ user hashed, selectUserByID db userID = some user ∧
        env.CompareHashAndPassword user.Password req.CurrentPassword = true ∧
        (user.Is2FAEnabled = true →
          ∃ code, req.TOTPCode = some code ∧ code ≠ "" ∧
            env.totpValidate code user.Secret2FA = true) ∧
        env.GenerateFromPassword req.NewPassword = .ok hashed ∧
        db2 = { db with
                users := db.users.map fun row =>
                  if row.ID == user.ID && row.DeletedAt.isNone then
                    updatedUser env { user with Password := hashed } row
                  else row }) ∧
    (∀ e db2, ChangePassword env db userID req = (.error e, db2) → db2 = db) ∧
    (∀ user, UserRepository.GetByID env db userID = .ok user →
      (env.CompareHashAndPassword user.Password req.CurrentPassword = false →
        ChangePassword env db userID req =
          (.error (.errorf "invalid current password"), db)) ∧
      (env.CompareHashAndPassword user.Password req.CurrentPassword = true →
        user.Is2FAEnabled = true →
        ((req.TOTPCode = none ∨ req.TOTPCode = some "") →
          ChangePassword env db userID req = (.error (.errorf "2FA code required"), db)) ∧
        (∀ code, req.TOTPCode = some code → code ≠ "" →
          env.totpValidate code user.Secret2FA = false →
          ChangePassword env db userID req = (.error (.errorf "invalid 2FA code"), db)))) := by
  refine ⟨fun db2 h => ChangePassword_ok_inv env db db2 userID req h,
    fun e db2 h => ChangePassword_error_frame env db db2 userID req e h, fun user hget => ?_⟩
  rw [ChangePassword_of_user env db userID req user hget]
  refine ⟨fun hpw => ?_, fun hpw h2 => ⟨fun hcode => ?_, fun code hcode hne hbad => ?_⟩⟩
  · simp [hpw]
  · rcases hcode with hcode | hcode <;> simp [hpw, h2, hcode]
  · simp [hpw, h2, hcode, hne, hbad]

/-- Witness of C17: bob, who has 2FA enabled, changes his password with a valid code,
and fails with a wrong password, without a code and with a wrong code. -/
theorem changePassword_gates_witness :
    (ChangePassword Demo.env Demo.fullDB 2
        { CurrentPassword := "builder", NewPassword := "bricklayer"
          TOTPCode := some "492039" }).1 = .ok () ∧
    ChangePassword Demo.env Demo.fullDB 2
        { CurrentPassword := "scoop", NewPassword := "bricklayer", TOTPCode := none } =
      (.error (.errorf "invalid current password"), Demo.fullDB) ∧
    ChangePassword Demo.env Demo.fullDB 2
        { CurrentPassword := "builder", NewPassword := "bricklayer", TOTPCode := none } =
      (.error (.errorf "2FA code required"), Demo.fullDB) ∧
    ChangePassword Demo.env Demo.fullDB 2
        { CurrentPassword := "builder", NewPassword := "bricklayer"
          TOTPCode := some "000000" } =
      (.error (.errorf "invalid 2FA code"), Demo.fullDB) :=
  ⟨by decide,
   ((changePassword_gates Demo.env Demo.fullDB 2
      { CurrentPassword := "scoop", NewPassword := "bricklayer", TOTPCode := none }).2.2
      Demo.bob (by decide)).1 (by decide),
   (((changePassword_gates Demo.env Demo.fullDB 2
      { CurrentPassword := "builder", NewPassword := "bricklayer", TOTPCode := none }).2.2
      Demo.bob (by decide)).2 (by decide) (by decide)).1 (Or.inl rfl),
   (((changePassword_gates Demo.env Demo.fullDB 2
      { CurrentPassword := "builder", NewPassword := "bricklayer"
        TOTPCode := some "000000" }).2.2
      Demo.bob (by decide)).2 (by decide) (by decide)).2 "000000" rfl (by decide)
      (by decide)⟩

end Iivineri


/-! ## Two-factor enrolment -/

namespace Iivineri

/-- The insertion of a backup code touches only the table of the codes. -/
theorem SecretCreate_frame (env : Env) (db : DB) (secret : User2FASecret) :
    (User2FASecretRepository.Create env db secret).2.users = db.users ∧
    (User2FASecretRepository.Create env db secret).2.bans = db.bans ∧
    (User2FASecretRepository.Create env db secret).2.sessions = db.sessions ∧
    (User2FASecretRepository.Create env db secret).2.resets = db.resets := by
  unfold User2FASecretRepository.Create QueryRow
  cases env.fault .secretCreate <;> exact ⟨rfl, rfl, rfl, rfl⟩

/-- The store after the insertion of a backup code: unchanged when the driver fails,
one row longer otherwise. -/
theorem SecretCreate_store (env : Env) (db : DB) (secret : User2FASecret) :
    (env.fault .secretCreate ≠ none ∧ (User2FASecretRepository.Create env db secret).2 = db) ∨
    (env.fault .secretCreate = none ∧
      (User2FASecretRepository.Create env db secret).2 =
        { db with secrets := db.secrets ++ [insertedSecret env db secret]
                  secretSeq := db.secretSeq + 1 }) := by
  unfold User2FASecretRepository.Create QueryRow
  cases hf : env.fault .secretCreate
  · right
    exact ⟨rfl, rfl⟩
  · left
    exact ⟨by simp, rfl⟩

/-- The loop that stores the backup codes touches only the table of the codes. -/
theorem storeBackupCodes_frame (env : Env) (userID : Int) (codes : List String) (db : DB) :
    (storeBackupCodes env userID db codes).users = db.users ∧
    (storeBackupCodes env userID db codes).bans = db.bans ∧
    (storeBackupCodes env userID db codes).sessions = db.sessions ∧
    (storeBackupCodes env userID db codes).resets = db.resets := by
  induction codes generalizing db with
  | nil => exact ⟨rfl, rfl, rfl, rfl⟩
  | cons code rest ih =>
    unfold storeBackupCodes
    obtain ⟨h1, h2, h3, h4⟩ := ih (User2FASecretRepository.Create env db
      ⟨0, userID, hashedBackupCode env code, zeroTime, none⟩).2
    obtain ⟨g1, g2, g3, g4⟩ := SecretCreate_frame env db
      ⟨0, userID, hashedBackupCode env code, zeroTime, none⟩
    exact ⟨h1.trans g1, h2.trans g2, h3.trans g3, h4.trans g4⟩

/-- With a driver that fails on the insertion, the loop stores nothing. -/
theorem storeBackupCodes_of_fault (env : Env) (userID : Int) (codes : List String) (db : DB)
    (hf : env.fault .secretCreate ≠ none) : storeBackupCodes env userID db codes = db := by
  induction codes generalizing db with
  | nil => rfl
  | cons code rest ih =>
    unfold storeBackupCodes
    rcases SecretCreate_store env db
      ⟨0, userID, hashedBackupCode env code, zeroTime, none⟩ with ⟨_, h⟩ | ⟨h, _⟩
    · simp only [h]
      exact ih db
    · exact absurd h hf

/-- The rows that the loop has stored stay in the table. -/
theorem storeBackupCodes_mono (env : Env) (userID : Int) (codes : List String) (db : DB)
    (row : User2FASecret) (h : row ∈ db.secrets) :
    row ∈ (storeBackupCodes env userID db codes).secrets := by
  induction codes generalizing db with
  | nil => exact h
  | cons code rest ih =>
    unfold storeBackupCodes
    apply ih
    rcases SecretCreate_store env db
      ⟨0, userID, hashedBackupCode env code, zeroTime, none⟩ with ⟨_, hs⟩ | ⟨_, hs⟩
    · rw [hs]
      exact h
    · rw [hs]
      exact List.mem_append_left _ h

/-- When the driver takes the insertions, the loop stores, for every code, a usable row
of the user that holds the bcrypt hash of the code (an empty hash if bcrypt failed). -/
theorem storeBackupCodes_stores (env : Env) (userID : Int) (codes : List String) (db : DB)
    (hf : env.fault .secretCreate = none) (code : String) (hc : code ∈ codes) :
    ∃ row ∈ (storeBackupCodes env userID db codes).secrets,
      row.UserID = userID ∧ row.DeletedAt = none ∧
      row.Hash = hashedBackupCode env code := by
  induction codes generalizing db with
  | nil => cases hc
  | cons first rest ih =>
    unfold storeBackupCodes
    rcases List.mem_cons.mp hc with hfirst | hrest
    · subst hfirst
      rcases SecretCreate_store env db
        ⟨0, userID, hashedBackupCode env code, zeroTime, none⟩ with ⟨hne, _⟩ | ⟨_, hs⟩
      · exact absurd hf hne
      · refine ⟨insertedSecret env db
          ⟨0, userID, hashedBackupCode env code, zeroTime, none⟩, ?_, rfl, rfl, rfl⟩
        apply storeBackupCodes_mono
        rw [hs]
        simp
    · exact ih _ hrest

/-- `Enable2FA` once the user has been fetched. -/
theorem Enable2FA_of_user (env : Env) (db : DB) (userID : Int) (req : Enable2FARequest)
    (user : User) (hget : UserRepository.GetByID env db userID = .ok user) :
    Enable2FA env db userID req =
      if env.CompareHashAndPassword user.Password req.Password = false then
        (.error (.errorf "invalid password"), db)
      else
        match env.totpGenerate "Iivineri" user.Email with
        | .error err => (.error (.wrapf "failed to generate 2FA secret" err), db)
        | .ok (secret, url) =>
          (.ok { Secret := secret, QRCodeURL := url
                 BackupCodes := (List.range 10).map (backupCode env) },
           storeBackupCodes env userID db ((List.range 10).map (backupCode env))) := by
  unfold Enable2FA
  rw [hget]

/-- `Enable2FA` writes to the table of the backup codes only, and nothing when it fails. -/
theorem Enable2FA_frame (env : Env) (db : DB) (userID : Int) (req : Enable2FARequest) :
    (Enable2FA env db userID req).2.users = db.users ∧
    (Enable2FA env db userID req).2.bans = db.bans ∧
    (∀ e db2, Enable2FA env db userID req = (.error e, db2) → db2 = db) := by
  rcases GetByID_cases env db userID with ⟨e, he⟩ | ⟨user, _, _, hget⟩
  · have h : Enable2FA env db userID req = (.error (.errorf "user not found"), db) := by
      unfold Enable2FA
      rw [he]
    rw [h]
    exact ⟨rfl, rfl, fun e db2 h2 => (Prod.mk.inj h2).2.symm⟩
  · rw [Enable2FA_of_user env db userID req user hget]
    cases env.CompareHashAndPassword user.Password req.Password with
    | false => exact ⟨rfl, rfl, fun e db2 h2 => (Prod.mk.inj h2).2.symm⟩
    | true =>
      cases env.totpGenerate "Iivineri" user.Email with
      | error err => exact ⟨rfl, rfl, fun e db2 h2 => (Prod.mk.inj h2).2.symm⟩
      | ok key =>
        obtain ⟨h1, h2, _, _⟩ := storeBackupCodes_frame env userID
          ((List.range 10).map (backupCode env)) db
        refine ⟨h1, h2, fun e db2 h3 => ?_⟩
        simp at h3

/-- What `Enable2FA` does when the store takes every query: a wrong password makes it
fail and store nothing; on success it returns ten codes and has stored, for each, a
usable row of the user with the bcrypt hash of the code. -/
theorem Enable2FA_when_store_answers (env : Env) (db : DB) (userID : Int)
    (req : Enable2FARequest) (user : User)
    (hget : UserRepository.GetByID env db userID = .ok user) :
    (env.CompareHashAndPassword user.Password req.Password = false →
      Enable2FA env db userID req = (.error (.errorf "invalid password"), db)) ∧
    (∀ resp db2, Enable2FA env db userID req = (.ok resp, db2) →
      resp.BackupCodes.length = 10 ∧
      (env.fault .secretCreate = none → ∀ code ∈ resp.BackupCodes,
        ∃ row ∈ db2.secrets, row.UserID = userID ∧ row.DeletedAt = none ∧
          row.Hash = hashedBackupCode env code)) := by
  rw [Enable2FA_of_user env db userID req user hget]
  refine ⟨fun hpw => by simp [hpw], fun resp db2 h => ?_⟩
  cases hpw : env.CompareHashAndPassword user.Password req.Password with
  | false => simp [hpw] at h
  | true =>
    simp only [hpw, Bool.true_eq_false, if_false] at h
    cases hk : env.totpGenerate "Iivineri" user.Email with
    | error err => simp [hk] at h
    | ok key =>
      simp only [hk, Prod.mk.injEq, Except.ok.injEq] at h
      obtain ⟨hresp, hdb⟩ := h
      subst hresp
      subst hdb
      refine ⟨by simp, fun hf code hc => ?_⟩
      exact storeBackupCodes_stores env userID _ db hf code hc

/-- C18 does not hold of the code. The driver refuses the insertion of the backup
codes; `Enable2FA`, which drops that error, still returns success with ten codes for
alice, and the store is exactly as before: no row was persisted for any of them. -/
theorem enable2FA_success_without_stored_codes :
    (Demo.envFailing [.secretCreate]).CompareHashAndPassword Demo.alice.Password
      "wonderland" = true ∧
    Enable2FA (Demo.envFailing [.secretCreate]) Demo.fullDB 1 { Password := "wonderland" } =
      (.ok { Secret := "GEZDGNBVGY3TQOJQ"
             QRCodeURL :=
               "otpauth://totp/Iivineri:alice@example.com?secret=GEZDGNBVGY3TQOJQ&issuer=Iivineri"
             BackupCodes := ["MZXW6YTB", "M5XW6YTB", "NBXW6YTB", "NFXW6YTB", "NJXW6YTB",
               "NNXW6YTB", "NRXW6YTB", "NVXW6YTB", "NZXW6YTB", "N5XW6YTB"] },
       Demo.fullDB) ∧
    ∀ row ∈ Demo.fullDB.secrets, row.UserID ≠ 1 := by
  decide

end Iivineri


/-! ## The 2FA flag -/

namespace Iivineri

/-- The lookup by id reads the users only. -/
theorem selectUserByID_congr {db db2 : DB} (h : db2.users = db.users) (id : Int) :
    selectUserByID db2 id = selectUserByID db id := by
  unfold selectUserByID
  rw [h]

/-- The lookup by email reads the users only. -/
theorem selectUserByEmail_congr {db db2 : DB} (h : db2.users = db.users) (email : String) :
    selectUserByEmail db2 email = selectUserByEmail db email := by
  unfold selectUserByEmail
  rw [h]

/-- `Login` reads the users and the bans only. -/
theorem Login_congr (env : Env) {db db2 : DB} (hu : db2.users = db.users)
    (hb : db2.bans = db.bans) (req : LoginRequest) : Login env db2 req = Login env db req := by
  unfold Login UserRepository.GetByEmail BanRepository.IsUserBanned existsBanByUser
  rw [selectUserByEmail_congr hu, hb]

/-- Two tests that agree on the elements of a list find the same element. -/
theorem find?_congr_mem {α : Type} (p q : α → Bool) (l : List α)
    (h : ∀ x ∈ l, p x = q x) : l.find? p = l.find? q := by
  induction l with
  | nil => rfl
  | cons a t ih =>
    simp only [List.find?_cons]
    rw [h a (List.mem_cons_self _ _), ih (fun x hx => h x (List.mem_cons_of_mem _ hx))]

/-- After an update, the row that the lookup by id selects is the updated form of the
row it selected before. -/
theorem selectUserByID_update (env : Env) (db db2 : DB) (arg : User) (id : Int)
    (h : db2.users = db.users.map fun row =>
      if row.ID == arg.ID && row.DeletedAt.isNone then updatedUser env arg row else row) :
    selectUserByID db2 id = (selectUserByID db id).map fun row =>
      if row.ID == arg.ID && row.DeletedAt.isNone then updatedUser env arg row else row := by
  have hpres : ((fun u : User => u.ID == id && u.DeletedAt.isNone) ∘ fun row =>
      if row.ID == arg.ID && row.DeletedAt.isNone then updatedUser env arg row else row) =
      fun u : User => u.ID == id && u.DeletedAt.isNone := by
    funext row
    simp only [Function.comp_apply]
    by_cases hc : (row.ID == arg.ID && row.DeletedAt.isNone) = true
    · rw [if_pos hc]
      rfl
    · rw [if_neg hc]
  unfold selectUserByID
  rw [h, List.find?_map, hpres]

/-- After an update, the row that the lookup by email selects is the updated form of
the row it selected before, when the update keeps the email. -/
theorem selectUserByEmail_update (env : Env) (db db2 : DB) (arg user : User)
    (email : String) (hsel : selectUserByEmail db email = some user)
    (harg : arg.Email = user.Email) (hid : arg.ID = user.ID)
    (hkey : ∀ a ∈ db.users, ∀ b ∈ db.users, a.ID = b.ID → a = b)
    (h : db2.users = db.users.map fun row =>
      if row.ID == arg.ID && row.DeletedAt.isNone then updatedUser env arg row else row) :
    selectUserByEmail db2 email = some (updatedUser env arg user) := by
  obtain ⟨hmem, hemail, hlive⟩ := selectUserByEmail_some hsel
  have hpres : ∀ row ∈ db.users,
      ((fun u : User => u.Email == email && u.DeletedAt.isNone) ∘ fun row =>
        if row.ID == arg.ID && row.DeletedAt.isNone then updatedUser env arg row else row) row =
      (fun u : User => u.Email == email && u.DeletedAt.isNone) row := by
    intro row hrow
    simp only [Function.comp_apply]
    by_cases hc : (row.ID == arg.ID && row.DeletedAt.isNone) = true
    · have hrid : row.ID = user.ID := by
        simp at hc
        rw [← hid]
        exact hc.1
      have hru : row = user := hkey row hrow user hmem hrid
      rw [if_pos hc, hru]
      simp [updatedUser, harg]
    · rw [if_neg hc]
  have hcond : (user.ID == arg.ID && user.DeletedAt.isNone) = true := by
    simp [hid, hlive]
  unfold selectUserByEmail at hsel ⊢
  rw [h, List.find?_map, find?_congr_mem _ _ _ hpres, hsel]
  simp only [Option.map_some', if_pos hcond]

/-- An update raises the flag of a user only if it writes a raised flag to that user. -/
theorem raised_by_update (env : Env) (db db2 : DB) (arg : User) (id : Int) (u2 : User)
    (h : db2.users = db.users.map fun row =>
      if row.ID == arg.ID && row.DeletedAt.isNone then updatedUser env arg row else row)
    (hbefore : ∀ u, selectUserByID db id = some u → u.Enabled2FA = false)
    (hafter : selectUserByID db2 id = some u2) (hflag : u2.Enabled2FA = true) :
    ∃ u, selectUserByID db id = some u ∧ id = arg.ID ∧ arg.Enabled2FA = true ∧
      u2.Secret2FA = arg.Secret2FA := by
  rw [selectUserByID_update env db db2 arg id h] at hafter
  cases hsel : selectUserByID db id with
  | none =>
    rw [hsel] at hafter
    cases hafter
  | some u =>
    rw [hsel] at hafter
    simp only [Option.map_some', Option.some.injEq] at hafter
    have hid := (selectUserByID_some hsel).2.1
    by_cases hc : (u.ID == arg.ID && u.DeletedAt.isNone) = true
    · rw [if_pos hc] at hafter
      subst hafter
      simp at hc
      exact ⟨u, rfl, hid.symm.trans hc.1, hflag, rfl⟩
    · rw [if_neg hc] at hafter
      subst hafter
      rw [hbefore u hsel] at hflag
      cases hflag

/-- A step that leaves the users as they were raises no flag. -/
theorem not_raised_of_same_users (db db2 : DB) (id : Int) (u2 : User)
    (h : db2.users = db.users)
    (hbefore : ∀ u, selectUserByID db id = some u → u.Enabled2FA = false)
    (hafter : selectUserByID db2 id = some u2) : u2.Enabled2FA = false := by
  rw [selectUserByID_congr h] at hafter
  exact hbefore u2 hafter

/-- `Register` leaves the users as they were or adds one row with the flag off. -/
theorem Register_users (env : Env) (db : DB) (req : RegisterRequest) :
    (Register env db req).2.users = db.users ∨
    ∃ row, row.Enabled2FA = false ∧ (Register env db req).2.users = db.users ++ [row] := by
  unfold Register
  cases UserRepository.EmailExists env db req.Email with
  | error e1 => exact Or.inl rfl
  | ok emailExists =>
    cases emailExists
    · cases UserRepository.NicknameExists env db req.Nickname with
      | error e1 => exact Or.inl rfl
      | ok nicknameExists =>
        cases nicknameExists
        · cases env.GenerateFromPassword req.Password with
          | error e1 => exact Or.inl rfl
          | ok hashed =>
            cases req.GetDateOfBirth env with
            | error e1 => exact Or.inl rfl
            | ok dob =>
              simp only [Bool.false_eq_true, if_false]
              unfold UserRepository.Create QueryRow
              cases env.fault .userCreate with
              | some msg => exact Or.inl rfl
              | none => exact Or.inr ⟨_, rfl, rfl⟩
        · exact Or.inl rfl
    · exact Or.inl rfl

/-- A failed `ConfirmPasswordReset` leaves the store as it was. -/
theorem ConfirmPasswordReset_error_frame (env : Env) (db db2 : DB)
    (req : PasswordResetConfirmRequest) (e : GoError)
    (h : ConfirmPasswordReset env db req = (.error e, db2)) : db2 = db := by
  unfold ConfirmPasswordReset at h
  cases h1 : ResetPasswordRepository.GetByID env db req.Token with
  | error e1 =>
    simp only [h1] at h
    exact (Prod.mk.inj h).2.symm
  | ok reset =>
    simp only [h1] at h
    cases h2 : UserRepository.GetByEmail env db reset.Email with
    | error e2 =>
      simp only [h2] at h
      exact (Prod.mk.inj h).2.symm
    | ok user =>
      simp only [h2] at h
      cases h3 : env.GenerateFromPassword req.NewPassword with
      | error e3 =>
        simp only [h3] at h
        exact (Prod.mk.inj h).2.symm
      | ok hashed =>
        simp only [h3] at h
        rcases Update_cases env db { user with Password := hashed } with ⟨e4, he⟩ | ⟨_, hok⟩
        · rw [he] at h
          exact (Prod.mk.inj h).2.symm
        · rw [hok] at h
          cases (Prod.mk.inj h).1

/-- The users after `ConfirmPasswordReset`: as before, or with the new hash written to
the user that the email of the token resolves to. -/
theorem ConfirmPasswordReset_users (env : Env) (db : DB)
    (req : PasswordResetConfirmRequest) :
    (ConfirmPasswordReset env db req).2.users = db.users ∨
    ∃ user hashed email, selectUserByEmail db email = some user ∧
      (ConfirmPasswordReset env db req).2.users = db.users.map fun row =>
        if row.ID == user.ID && row.DeletedAt.isNone then
          updatedUser env { user with Password := hashed } row
        else row := by
  cases hr : ConfirmPasswordReset env db req with
  | mk res db2 =>
    cases res with
    | error e =>
      left
      rw [ConfirmPasswordReset_error_frame env db db2 req e hr]
    | ok v =>
      right
      obtain ⟨reset, user, hashed, _, huser, _, hdb⟩ :=
        ConfirmPasswordReset_ok_inv env db db2 req hr
      refine ⟨user, hashed, reset.Email, huser, ?_⟩
      show db2.users = _
      rw [hdb]
      rcases SessionDeleteAll_store env (ResetPasswordRepository.Delete env
        { db with
          users := db.users.map fun row =>
            if row.ID == user.ID && row.DeletedAt.isNone then
              updatedUser env { user with Password := hashed } row
            else row } req.Token).2 user.ID with ⟨h1, _⟩ | ⟨h1, _⟩ <;>
        rcases ResetDelete_store env
          { db with
            users := db.users.map fun row =>
              if row.ID == user.ID && row.DeletedAt.isNone then
                updatedUser env { user with Password := hashed } row
              else row } req.Token with ⟨h2, _⟩ | ⟨h2, _⟩ <;>
        rw [h1, h2]

/-- The users after `ChangePassword`: as before, or with the new hash written to the
user of the id. -/
theorem ChangePassword_users (env : Env) (db : DB) (userID : Int)
    (req : ChangePasswordRequest) :
    (ChangePassword env db userID req).2.users = db.users ∨
    ∃ user hashed, selectUserByID db userID = some user ∧
      (ChangePassword env db userID req).2.users = db.users.map fun row =>
        if row.ID == user.ID && row.DeletedAt.isNone then
          updatedUser env { user with Password := hashed } row
        else row := by
  cases hr : ChangePassword env db userID req with
  | mk res db2 =>
    cases res with
    | error e =>
      left
      rw [ChangePassword_error_frame env db db2 userID req e hr]
    | ok v =>
      right
      obtain ⟨user, hashed, hsel, _, _, _, hdb⟩ := ChangePassword_ok_inv env db db2 userID req hr
      exact ⟨user, hashed, hsel, by rw [hdb]⟩

/-- `Confirm2FA` fails and leaves the store, or it has validated the code against the
secret of the request and writes that secret and the raised flag to the user. -/
theorem Confirm2FA_cases (env : Env) (db : DB) (userID : Int) (req : Confirm2FARequest) :
    (∃ e, Confirm2FA env db userID req = (.error e, db)) ∨
    (env.totpValidate req.TOTPCode req.Secret = true ∧
      ∃ user, selectUserByID db userID = some user ∧
        Confirm2FA env db userID req =
          (.ok (),
           { db with
             users := db.users.map fun row =>
               if row.ID == user.ID && row.DeletedAt.isNone then
                 updatedUser env { user with Enabled2FA := true, Secret2FA := req.Secret } row
               else row })) := by
  rcases GetByID_cases env db userID with ⟨e, he⟩ | ⟨user, _, hsel, hget⟩
  · left
    unfold Confirm2FA
    rw [he]
    exact ⟨_, rfl⟩
  · unfold Confirm2FA
    rw [hget]
    cases hval : env.totpValidate req.TOTPCode req.Secret with
    | false => exact Or.inl ⟨_, rfl⟩
    | true =>
      rcases Update_cases env db { user with Enabled2FA := true, Secret2FA := req.Secret }
        with ⟨e, he⟩ | ⟨_, hok⟩
      · left
        simp only [he]
        exact ⟨_, rfl⟩
      · right
        simp only [hok]
        exact ⟨trivial, user, hsel, rfl⟩

end Iivineri


namespace Iivineri

/-- The store after `User2FASecretRepository.DeleteByUserID`. -/
theorem SecretDelete_store (env : Env) (db : DB) (userID : Int) :
    ((User2FASecretRepository.DeleteByUserID env db userID).2 = db ∧
      env.fault .secretDeleteByUserID ≠ none) ∨
    ((User2FASecretRepository.DeleteByUserID env db userID).2 =
        { db with
          secrets := db.secrets.map fun c =>
            if c.UserID == userID && c.DeletedAt.isNone then
              { c with DeletedAt := some env.dbNow }
            else c } ∧
      env.fault .secretDeleteByUserID = none) := by
  unfold User2FASecretRepository.DeleteByUserID
  rcases Exec_cases env .secretDeleteByUserID with ⟨msg, hf, hex⟩ | ⟨hf, hex⟩
  · left
    rw [hex, hf]
    exact ⟨rfl, by simp⟩
  · right
    rw [hex]
    exact ⟨rfl, hf⟩

/-- The end of `Disable2FA` fails and leaves the store, or clears the flag and the
secret of the user and then runs the deletion of the backup codes. -/
theorem disable2FAEnd_cases (env : Env) (db : DB) (userID : Int) (user : User) :
    (∃ e, disable2FAEnd env db userID user = (.error e, db) ∧
      env.fault .userUpdate ≠ none) ∨
    (env.fault .userUpdate = none ∧
      disable2FAEnd env db userID user =
        (.ok (),
         (User2FASecretRepository.DeleteByUserID env
           { db with
             users := db.users.map fun row =>
               if row.ID == user.ID && row.DeletedAt.isNone then
                 updatedUser env { user with Enabled2FA := false, Secret2FA := "" } row
               else row } userID).2)) := by
  unfold disable2FAEnd UserRepository.Update
  rcases Exec_cases env .userUpdate with ⟨msg, hf, hex⟩ | ⟨hf, hex⟩
  · left
    rw [hex]
    exact ⟨_, rfl, by simp [hf]⟩
  · right
    rw [hex]
    exact ⟨hf, rfl⟩

/-- `Disable2FA` once the user has been fetched. -/
theorem Disable2FA_of_user (env : Env) (db : DB) (userID : Int) (req : Disable2FARequest)
    (user : User) (hget : UserRepository.GetByID env db userID = .ok user) :
    Disable2FA env db userID req =
      if env.CompareHashAndPassword user.Password req.Password = false then
        (.error (.errorf "invalid password"), db)
      else
        match req.TOTPCode with
        | none => disable2FAEnd env db userID user
        | some code =>
          if code ≠ "" ∧ env.totpValidate code user.Secret2FA = false then
            (.error (.errorf "invalid 2FA code"), db)
          else disable2FAEnd env db userID user := by
  unfold Disable2FA
  rw [hget]

/-- `Disable2FA` either returns the store as it was or has run its end on the user of
the id. -/
theorem Disable2FA_store (env : Env) (db : DB) (userID : Int) (req : Disable2FARequest) :
    (Disable2FA env db userID req).2 = db ∨
    ∃ user, selectUserByID db userID = some user ∧
      Disable2FA env db userID req = disable2FAEnd env db userID user := by
  rcases GetByID_cases env db userID with ⟨e, he⟩ | ⟨user, _, hsel, hget⟩
  · left
    unfold Disable2FA
    rw [he]
  · rw [Disable2FA_of_user env db userID req user hget]
    split
    · exact Or.inl rfl
    · split
      · exact Or.inr ⟨user, hsel, rfl⟩
      · split
        · exact Or.inl rfl
        · exact Or.inr ⟨user, hsel, rfl⟩

/-- The users after `Disable2FA`: as before, or with the flag and the secret of the
user of the id cleared. -/
theorem Disable2FA_users (env : Env) (db : DB) (userID : Int) (req : Disable2FARequest) :
    (Disable2FA env db userID req).2.users = db.users ∨
    ∃ user, selectUserByID db userID = some user ∧
      (Disable2FA env db userID req).2.users = db.users.map fun row =>
        if row.ID == user.ID && row.DeletedAt.isNone then
          updatedUser env { user with Enabled2FA := false, Secret2FA := "" } row
        else row := by
  rcases Disable2FA_store env db userID req with h | ⟨user, hsel, h⟩
  · left
    rw [h]
  · rw [h]
    rcases disable2FAEnd_cases env db userID user with ⟨e, he, _⟩ | ⟨_, hok⟩
    · left
      rw [he]
    · right
      refine ⟨user, hsel, ?_⟩
      rw [hok]
      rcases SecretDelete_store env
        { db with
          users := db.users.map fun row =>
            if row.ID == user.ID && row.DeletedAt.isNone then
              updatedUser env { user with Enabled2FA := false, Secret2FA := "" } row
            else row } userID with ⟨h1, _⟩ | ⟨h1, _⟩ <;>
        rw [h1]

/-- The sessions table is the only one that `LogoutAll` writes. -/
theorem LogoutAll_users (env : Env) (db : DB) (userID : Int) :
    (LogoutAll env db userID).2.users = db.users := by
  unfold LogoutAll
  rcases SessionDeleteAll_store env db userID with ⟨h, _⟩ | ⟨h, _⟩
  · cases hr : SessionRepository.DeleteAllByUserID env db userID with
    | mk res db1 =>
      rw [hr] at h
      cases res <;> simp only <;> rw [show db1 = db from h]
  · cases hr : SessionRepository.DeleteAllByUserID env db userID with
    | mk res db1 =>
      rw [hr] at h
      cases res <;> simp only <;> rw [show db1 = _ from h]

/-- The reset tokens are the only table that `RequestPasswordReset` writes. -/
theorem RequestPasswordReset_users (env : Env) (db : DB) (req : PasswordResetRequest) :
    (RequestPasswordReset env db req).2.users = db.users := by
  rcases RequestPasswordReset_store env db req with h | h <;> rw [h]

/-- C19. Suppose the 2FA flag of the user of an id is not set before a call of the
service, the ids of the users being unique. If it is set after the call, the call is a
`Confirm2FA` for that id whose TOTP code validates against the secret of the same
request, and the stored secret is then that secret. `Enable2FA`, successful or not,
leaves every user and every ban as they were, and a `Confirm2FA` whose code does not
validate returns the store unchanged; after either, `Login` answers every request as
before, so it still asks for no code. -/
theorem flag_raised_only_by_confirm2FA (env : Env) (db : DB) :
    ((∀ a ∈ db.users, ∀ b ∈ db.users, a.ID = b.ID → a = b) →
      ∀ (call : Call) (id : Int) (u2 : User),
        (∀ u, selectUserByID db id = some u → u.Enabled2FA = false) →
        selectUserByID (call.store env db) id = some u2 → u2.Enabled2FA = true →
        ∃ req, call = .confirm2FA id req ∧
          env.totpValidate req.TOTPCode req.Secret = true ∧ u2.Secret2FA = req.Secret) ∧
    (∀ (userID : Int) (req : Enable2FARequest),
      (Enable2FA env db userID req).2.users = db.users ∧
      (Enable2FA env db userID req).2.bans = db.bans ∧
      ∀ (env2 : Env) (lreq : LoginRequest),
        Login env2 (Enable2FA env db userID req).2 lreq = Login env2 db lreq) ∧
    (∀ (userID : Int) (req : Confirm2FARequest),
      env.totpValidate req.TOTPCode req.Secret = false →
      (∃ e, Confirm2FA env db userID req = (.error e, db)) ∧
      ∀ (env2 : Env) (lreq : LoginRequest),
        Login env2 (Confirm2FA env db userID req).2 lreq = Login env2 db lreq) := by
  refine ⟨fun hkey call id u2 hbefore hafter hflag => ?_, fun userID req => ?_,
    fun userID req hval => ?_⟩
  · have hsame : ∀ db2 : DB, db2.users = db.users → selectUserByID db2 id = some u2 → False := by
      intro db2 h hsel
      rw [not_raised_of_same_users db db2 id u2 h hbefore hsel] at hflag
      cases hflag
    cases call with
    | register req =>
      exfalso
      rcases Register_users env db req with h | ⟨row, hrow, h⟩
      · exact hsame _ h hafter
      · have hfind : selectUserByID (Register env db req).2 id =
            (selectUserByID db id).or
              ([row].find? (fun u => u.ID == id && u.DeletedAt.isNone)) := by
          unfold selectUserByID
          rw [h, List.find?_append]
        simp only [Call.store] at hafter
        rw [hfind] at hafter
        cases hsel : selectUserByID db id with
        | some u =>
          rw [hsel] at hafter
          simp only [Option.or_some, Option.some.injEq] at hafter
          subst hafter
          rw [hbefore u hsel] at hflag
          cases hflag
        | none =>
          rw [hsel] at hafter
          simp only [Option.none_or] at hafter
          have hmem := List.mem_of_find?_eq_some hafter
          simp at hmem
          subst hmem
          rw [hrow] at hflag
          cases hflag
    | login req => exact absurd hafter (fun h => hsame db rfl h)
    | logout userID => exact absurd hafter (fun h => hsame db rfl h)
    | logoutAll userID => exact absurd hafter (fun h => hsame _ (LogoutAll_users env db userID) h)
    | getProfile userID => exact absurd hafter (fun h => hsame db rfl h)
    | changePassword userID req =>
      exfalso
      rcases ChangePassword_users env db userID req with h | ⟨user, hashed, hsel, h⟩
      · exact hsame _ h hafter
      · obtain ⟨u, hu, hid, harg, _⟩ := raised_by_update env db _
          { user with Password := hashed } id u2 h hbefore hafter hflag
        have hsame_id : id = userID := hid.trans (selectUserByID_some hsel).2.1
        rw [hsame_id, hsel] at hu
        cases hu
        have := hbefore user (by rw [hsame_id]; exact hsel)
        rw [this] at harg
        cases harg
    | requestPasswordReset req =>
      exact absurd hafter (fun h => hsame _ (RequestPasswordReset_users env db req) h)
    | confirmPasswordReset req =>
      exfalso
      rcases ConfirmPasswordReset_users env db req with h | ⟨user, hashed, email, hsel, h⟩
      · exact hsame _ h hafter
      · obtain ⟨u, hu, hid, harg, _⟩ := raised_by_update env db _
          { user with Password := hashed } id u2 h hbefore hafter hflag
        have hu_mem := (selectUserByID_some hu).1
        have hu_id := (selectUserByID_some hu).2.1
        have huser_mem := (selectUserByEmail_some hsel).1
        have heq : u = user := hkey u hu_mem user huser_mem (hu_id.trans hid)
        subst heq
        have := hbefore u hu
        rw [this] at harg
        cases harg
    | enable2FA userID req =>
      exact absurd hafter (fun h => hsame _ (Enable2FA_frame env db userID req).1 h)
    | confirm2FA userID req =>
      rcases Confirm2FA_cases env db userID req with ⟨e, he⟩ | ⟨hval, user, hsel, hok⟩
      · exfalso
        apply hsame (Confirm2FA env db userID req).2 _ hafter
        rw [he]
      · have h : (Confirm2FA env db userID req).2.users = db.users.map fun row =>
            if row.ID == user.ID && row.DeletedAt.isNone then
              updatedUser env { user with Enabled2FA := true, Secret2FA := req.Secret } row
            else row := by
          rw [hok]
        obtain ⟨u, _, hid, _, hsecret⟩ := raised_by_update env db _
          { user with Enabled2FA := true, Secret2FA := req.Secret } id u2 h hbefore hafter hflag
        have hsame_id : id = userID := hid.trans (selectUserByID_some hsel).2.1
        subst hsame_id
        exact ⟨req, rfl, hval, hsecret⟩
    | disable2FA userID req =>
      exfalso
      rcases Disable2FA_users env db userID req with h | ⟨user, hsel, h⟩
      · exact hsame _ h hafter
      · obtain ⟨u, _, _, harg, _⟩ := raised_by_update env db _
          { user with Enabled2FA := false, Secret2FA := "" } id u2 h hbefore hafter hflag
        cases harg
    | generateTokens user => exact absurd hafter (fun h => hsame db rfl h)
    | refreshToken req => exact absurd hafter (fun h => hsame db rfl h)
    | validateToken tokenString => exact absurd hafter (fun h => hsame db rfl h)
    | validateUser userID => exact absurd hafter (fun h => hsame db rfl h)
  · obtain ⟨h1, h2, _⟩ := Enable2FA_frame env db userID req
    exact ⟨h1, h2, fun env2 lreq => Login_congr env2 h1 h2 lreq⟩
  · rcases Confirm2FA_cases env db userID req with ⟨e, he⟩ | ⟨hval2, _⟩
    · refine ⟨⟨e, he⟩, fun env2 lreq => ?_⟩
      rw [he]
    · rw [hval] at hval2
      cases hval2

end Iivineri


namespace Iivineri

/-- Witness of C19: the flag of alice is raised by a `Confirm2FA` whose code validates
against the secret of the request; her `Enable2FA` before it changes no answer of
`Login`. -/
theorem flag_raised_only_by_confirm2FA_witness :
    selectUserByID
        (Call.store Demo.env Demo.fullDB
          (.confirm2FA 1 { Secret := "JBSWY3DPEHPK3PXP", TOTPCode := "492039" })) 1 =
      some { Demo.alice with Enabled2FA := true, Secret2FA := "JBSWY3DPEHPK3PXP"
                             UpdatedAt := some Demo.issuedAt } ∧
    (∃ req, Call.confirm2FA 1 { Secret := "JBSWY3DPEHPK3PXP", TOTPCode := "492039" } =
        .confirm2FA 1 req ∧
      Demo.env.totpValidate req.TOTPCode req.Secret = true ∧
      "JBSWY3DPEHPK3PXP" = req.Secret) ∧
    Login Demo.env (Enable2FA Demo.env Demo.fullDB 1 { Password := "wonderland" }).2
        { Email := "alice@example.com", Password := "wonderland", TOTPCode := none } =
      Login Demo.env Demo.fullDB
        { Email := "alice@example.com", Password := "wonderland", TOTPCode := none } :=
  ⟨by decide,
   (flag_raised_only_by_confirm2FA Demo.env Demo.fullDB).1 (by decide)
      (.confirm2FA 1 { Secret := "JBSWY3DPEHPK3PXP", TOTPCode := "492039" }) 1
      { Demo.alice with Enabled2FA := true, Secret2FA := "JBSWY3DPEHPK3PXP"
                        UpdatedAt := some Demo.issuedAt }
      (fun u hu => by
        have h : selectUserByID Demo.fullDB 1 = some Demo.alice := by decide
        rw [h] at hu
        cases hu
        rfl)
      (by decide) rfl,
   ((flag_raised_only_by_confirm2FA Demo.env Demo.fullDB).2.1 1
      { Password := "wonderland" }).2.2 Demo.env _⟩

/-- `Disable2FA` when its checks pass and the store takes both writes. -/
theorem Disable2FA_ok (env : Env) (db : DB) (userID : Int) (req : Disable2FARequest)
    (user : User) (hsel : selectUserByID db userID = some user)
    (hs1 : env.fault .userGetByID = none) (hs2 : env.fault .userUpdate = none)
    (hs3 : env.fault .secretDeleteByUserID = none)
    (hpw : env.CompareHashAndPassword user.Password req.Password = true)
    (hcode : ∀ code, req.TOTPCode = some code → code ≠ "" →
      env.totpValidate code user.Secret2FA = true) :
    Disable2FA env db userID req =
      (.ok (),
       { db with
         users := db.users.map fun row =>
           if row.ID == user.ID && row.DeletedAt.isNone then
             updatedUser env { user with Enabled2FA := false, Secret2FA := "" } row
           else row
         secrets := db.secrets.map fun c =>
           if c.UserID == userID && c.DeletedAt.isNone then
             { c with DeletedAt := some env.dbNow }
           else c }) := by
  have hend : disable2FAEnd env db userID user =
      (.ok (),
       { db with
         users := db.users.map fun row =>
           if row.ID == user.ID && row.DeletedAt.isNone then
             updatedUser env { user with Enabled2FA := false, Secret2FA := "" } row
           else row
         secrets := db.secrets.map fun c =>
           if c.UserID == userID && c.DeletedAt.isNone then
             { c with DeletedAt := some env.dbNow }
           else c }) := by
    rcases disable2FAEnd_cases env db userID user with ⟨e, _, hne⟩ | ⟨_, hok⟩
    · exact absurd hs2 hne
    · rw [hok]
      rcases SecretDelete_store env
        { db with
          users := db.users.map fun row =>
            if row.ID == user.ID && row.DeletedAt.isNone then
              updatedUser env { user with Enabled2FA := false, Secret2FA := "" } row
            else row } userID with ⟨_, hne⟩ | ⟨h1, _⟩
      · exact absurd hs3 hne
      · rw [h1]
  rw [Disable2FA_of_user env db userID req user (GetByID_ok env hs1 hsel)]
  simp only [hpw, Bool.true_eq_false, if_false]
  cases hc : req.TOTPCode with
  | none => exact hend
  | some code =>
    simp only
    by_cases hempty : code = ""
    · rw [if_neg (by simp [hempty])]
      exact hend
    · rw [if_neg (by simp [hcode code hc hempty])]
      exact hend

/-- `Disable2FA` when its checks pass and the store takes the update of the user: it
returns success and the store that the deletion of the backup codes leaves, whether
that deletion is taken or refused. -/
theorem Disable2FA_ok_of_update (env : Env) (db : DB) (userID : Int)
    (req : Disable2FARequest)
    (user : User) (hsel : selectUserByID db userID = some user)
    (hs1 : env.fault .userGetByID = none) (hs2 : env.fault .userUpdate = none)
    (hpw : env.CompareHashAndPassword user.Password req.Password = true)
    (hcode : ∀ code, req.TOTPCode = some code → code ≠ "" →
      env.totpValidate code user.Secret2FA = true) :
    Disable2FA env db userID req =
      (.ok (),
       (User2FASecretRepository.DeleteByUserID env
         { db with
           users := db.users.map fun row =>
             if row.ID == user.ID && row.DeletedAt.isNone then
               updatedUser env { user with Enabled2FA := false, Secret2FA := "" } row
             else row } userID).2) := by
  have hend : disable2FAEnd env db userID user =
      (.ok (),
       (User2FASecretRepository.DeleteByUserID env
         { db with
           users := db.users.map fun row =>
             if row.ID == user.ID && row.DeletedAt.isNone then
               updatedUser env { user with Enabled2FA := false, Secret2FA := "" } row
             else row } userID).2) := by
    rcases disable2FAEnd_cases env db userID user with ⟨e, _, hne⟩ | ⟨_, hok⟩
    · exact absurd hs2 hne
    · exact hok
  rw [Disable2FA_of_user env db userID req user (GetByID_ok env hs1 hsel)]
  simp only [hpw, Bool.true_eq_false, if_false]
  cases hc : req.TOTPCode with
  | none => exact hend
  | some code =>
    simp only
    by_cases hempty : code = ""
    · rw [if_neg (by simp [hempty])]
      exact hend
    · rw [if_neg (by simp [hcode code hc hempty])]
      exact hend

/-- Counterexample to C20. Dave, who is banned, disables 2FA with his password; his
`Login` with the same password does not succeed afterwards: it fails with "user is
banned". And when the driver refuses the deletion of the backup codes, bob disables 2FA
with his password and gets success, while his backup code is still in the store without
a deletion time. -/
theorem disable2FA_banned_login_and_kept_codes :
    Demo.env.CompareHashAndPassword Demo.dave.Password "diver" = true ∧
    (Disable2FA Demo.env Demo.fullDB 4 { Password := "diver", TOTPCode := none }).1 =
      .ok () ∧
    Login Demo.env
        (Disable2FA Demo.env Demo.fullDB 4 { Password := "diver", TOTPCode := none }).2
        { Email := "dave@example.com", Password := "diver", TOTPCode := none } =
      .error (.errorf "user is banned") ∧
    (Disable2FA (Demo.envFailing [.secretDeleteByUserID]) Demo.fullDB 2
      { Password := "builder", TOTPCode := none }).1 = .ok () ∧
    Demo.bobCode ∈ (Disable2FA (Demo.envFailing [.secretDeleteByUserID]) Demo.fullDB 2
      { Password := "builder", TOTPCode := none }).2.secrets ∧
    Demo.bobCode.UserID = 2 ∧ Demo.bobCode.DeletedAt = none := by
  decide

/-- C20 (as amended). For the user of the id, the lookup and the update of the user
answering: with the matching password and no code, an empty code or a code that
validates against the stored secret, `Disable2FA` succeeds and clears the flag and the
secret of the user; when the store takes the deletion of the backup codes, every backup
code of the user has a deletion time afterwards, and when the store refuses it, the
failure is logged, the call still succeeds and the backup codes are left as they were.
In both cases `Login` with the matching password, whatever code it carries, returns the
access token afterwards without asking for a code, provided the user is not banned.
With a password that does not match `Disable2FA` fails with "invalid password", with a
non-empty code that does not validate it fails with "invalid 2FA code", and in both
cases the store is returned unchanged. -/
theorem disable2FA_effect (env : Env) (db : DB) (userID : Int) (req : Disable2FARequest)
    (user : User) (hsel : selectUserByID db userID = some user)
    (hs1 : env.fault .userGetByID = none) :
    (env.fault .userUpdate = none →
      env.CompareHashAndPassword user.Password req.Password = true →
      (∀ code, req.TOTPCode = some code → code ≠ "" →
        env.totpValidate code user.Secret2FA = true) →
      (Disable2FA env db userID req).1 = .ok () ∧
      (∃ u2, selectUserByID (Disable2FA env db userID req).2 userID = some u2 ∧
        u2.Enabled2FA = false ∧ u2.Secret2FA = "" ∧ u2.Is2FAEnabled = false) ∧
      (env.fault .secretDeleteByUserID = none →
        ∀ c ∈ (Disable2FA env db userID req).2.secrets, c.UserID = userID →
          c.DeletedAt ≠ none) ∧
      (env.fault .secretDeleteByUserID ≠ none →
        (Disable2FA env db userID req).2.secrets = db.secrets) ∧
      (∀ (env2 : Env) (lreq : LoginRequest) (access refresh : String),
        (∀ a ∈ db.users, ∀ b ∈ db.users, a.ID = b.ID → a = b) →
        selectUserByEmail db lreq.Email = some user →
        (∀ b ∈ db.bans, b.UserID ≠ user.ID) →
        env2.fault .userGetByEmail = none → env2.fault .banIsUserBanned = none →
        env2.CompareHashAndPassword user.Password lreq.Password = true →
        env2.SignedString env2.jwtSecret (accessClaims env2 user) = .ok access →
        env2.SignedString env2.jwtSecret (refreshClaims env2 user) = .ok refresh →
        ∃ resp, Login env2 (Disable2FA env db userID req).2 lreq = .ok resp ∧
          resp.Token = access ∧ resp.Requires2FA = false)) ∧
    (env.CompareHashAndPassword user.Password req.Password = false →
      Disable2FA env db userID req = (.error (.errorf "invalid password"), db)) ∧
    (env.CompareHashAndPassword user.Password req.Password = true →
      ∀ code, req.TOTPCode = some code → code ≠ "" →
      env.totpValidate code user.Secret2FA = false →
      Disable2FA env db userID req = (.error (.errorf "invalid 2FA code"), db)) := by
  have hget := GetByID_ok env hs1 hsel
  refine ⟨fun hs2 hpw hcode => ?_, fun hpw => ?_, fun hpw code hc hne hbad => ?_⟩
  · have hok := Disable2FA_ok_of_update env db userID req user hsel hs1 hs2 hpw hcode
    obtain ⟨hmem, hid, hlive⟩ := selectUserByID_some hsel
    have hcond : (user.ID == user.ID && user.DeletedAt.isNone) = true := by simp [hlive]
    rw [hok]
    generalize hR : (User2FASecretRepository.DeleteByUserID env
        { db with
          users := db.users.map fun row =>
            if row.ID == user.ID && row.DeletedAt.isNone then
              updatedUser env { user with Enabled2FA := false, Secret2FA := "" } row
            else row } userID).2 = R
    have hfacts : R.users = (db.users.map fun row =>
          if row.ID == user.ID && row.DeletedAt.isNone then
            updatedUser env { user with Enabled2FA := false, Secret2FA := "" } row
          else row) ∧
        R.bans = db.bans ∧
        (env.fault .secretDeleteByUserID = none →
          R.secrets = db.secrets.map fun c =>
            if c.UserID == userID && c.DeletedAt.isNone then
              { c with DeletedAt := some env.dbNow }
            else c) ∧
        (env.fault .secretDeleteByUserID ≠ none → R.secrets = db.secrets) := by
      rcases SecretDelete_store env
        { db with
          users := db.users.map fun row =>
            if row.ID == user.ID && row.DeletedAt.isNone then
              updatedUser env { user with Enabled2FA := false, Secret2FA := "" } row
            else row } userID with ⟨h1, hne⟩ | ⟨h1, hf⟩
      · rw [hR] at h1
        rw [h1]
        exact ⟨rfl, rfl, fun h => absurd h hne, fun _ => rfl⟩
      · rw [hR] at h1
        rw [h1]
        exact ⟨rfl, rfl, fun _ => rfl, fun h => absurd hf h⟩
    obtain ⟨hRu, hRb, hRs1, hRs2⟩ := hfacts
    refine ⟨rfl, ?_, ?_, hRs2, ?_⟩
    · refine ⟨updatedUser env { user with Enabled2FA := false, Secret2FA := "" } user,
        ?_, rfl, rfl, by simp [User.Is2FAEnabled, updatedUser]⟩
      rw [selectUserByID_update env db R { user with Enabled2FA := false, Secret2FA := "" }
        userID hRu, hsel]
      simp only [Option.map_some', if_pos hcond]
    · intro hf c hc hcid
      have hc2 : c ∈ R.secrets := hc
      rw [hRs1 hf] at hc2
      obtain ⟨c0, _, hc0⟩ := List.mem_map.mp hc2
      by_cases hk : (c0.UserID == userID && c0.DeletedAt.isNone) = true
      · rw [if_pos hk] at hc0
        rw [← hc0]
        simp
      · rw [if_neg hk] at hc0
        subst hc0
        intro hd
        simp [hcid, hd] at hk
    · intro env2 lreq access refresh hkey hmail hnoban hf1 hf2 hpw2 ha hr
      show ∃ resp, Login env2 R lreq = .ok resp ∧ resp.Token = access ∧
        resp.Requires2FA = false
      have hsel2 := selectUserByEmail_update env db R
        { user with Enabled2FA := false, Secret2FA := "" } user lreq.Email hmail rfl rfl hkey
        hRu
      have hban : BanRepository.IsUserBanned env2 R
          (updatedUser env { user with Enabled2FA := false, Secret2FA := "" } user).ID =
          .ok false := by
        rw [IsUserBanned_ok env2 _ _ hf2]
        refine congrArg Except.ok (existsBanByUser_false.mpr ?_)
        rw [hRb]
        exact hnoban
      have hS := loginSuccess_ok env2
        (updatedUser env { user with Enabled2FA := false, Secret2FA := "" } user)
        access refresh ha hr
      rw [Login_of_lookup env2 _ lreq _ (GetByEmail_ok env2 hf1 hsel2) hban, hS]
      have h2 : (updatedUser env { user with Enabled2FA := false, Secret2FA := "" }
          user).Is2FAEnabled = false := by
        simp [User.Is2FAEnabled, updatedUser]
      have hp : env2.CompareHashAndPassword
          (updatedUser env { user with Enabled2FA := false, Secret2FA := "" } user).Password
          lreq.Password = true := hpw2
      simp only [hp, h2, Bool.true_eq_false, Bool.false_eq_true, if_false]
      exact ⟨_, rfl, rfl, rfl⟩
  · rw [Disable2FA_of_user env db userID req user hget]
    simp [hpw]
  · rw [Disable2FA_of_user env db userID req user hget]
    simp [hpw, hc, hne, hbad]

/-- Witness of C20 (as amended): bob disables 2FA with his password; his backup code
gets a deletion time and his next login needs no code. -/
theorem disable2FA_effect_witness :
    (Disable2FA Demo.env Demo.fullDB 2 { Password := "builder", TOTPCode := none }).1 =
      .ok () ∧
    (∀ c ∈ (Disable2FA Demo.env Demo.fullDB 2
        { Password := "builder", TOTPCode := none }).2.secrets, c.UserID = 2 →
      c.DeletedAt ≠ none) ∧
    (∃ resp, Login Demo.env
        (Disable2FA Demo.env Demo.fullDB 2 { Password := "builder", TOTPCode := none }).2
        { Email := "bob@example.com", Password := "builder", TOTPCode := none } = .ok resp ∧
      resp.Token = "s3cr3t.iivineri.2" ∧ resp.Requires2FA = false) ∧
    Disable2FA Demo.env Demo.fullDB 2 { Password := "scoop", TOTPCode := none } =
      (.error (.errorf "invalid password"), Demo.fullDB) ∧
    Disable2FA Demo.env Demo.fullDB 2 { Password := "builder", TOTPCode := some "000000" } =
      (.error (.errorf "invalid 2FA code"), Demo.fullDB) :=
  ⟨((disable2FA_effect Demo.env Demo.fullDB 2 { Password := "builder", TOTPCode := none }
      Demo.bob (by decide) (by decide)).1 (by decide) (by decide)
      (fun code hc => by cases hc)).1,
   ((disable2FA_effect Demo.env Demo.fullDB 2 { Password := "builder", TOTPCode := none }
      Demo.bob (by decide) (by decide)).1 (by decide) (by decide)
      (fun code hc => by cases hc)).2.2.1 (by decide),
   ((disable2FA_effect Demo.env Demo.fullDB 2 { Password := "builder", TOTPCode := none }
      Demo.bob (by decide) (by decide)).1 (by decide) (by decide)
      (fun code hc => by cases hc)).2.2.2.2 Demo.env
      { Email := "bob@example.com", Password := "builder", TOTPCode := none }
      "s3cr3t.iivineri.2" "s3cr3t.iivineri-refresh.2"
      (by decide) (by decide) (by decide) (by decide) (by decide) (by decide) (by decide)
      (by decide),
   (disable2FA_effect Demo.env Demo.fullDB 2 { Password := "scoop", TOTPCode := none }
      Demo.bob (by decide) (by decide)).2.1 (by decide),
   (disable2FA_effect Demo.env Demo.fullDB 2
      { Password := "builder", TOTPCode := some "000000" }
      Demo.bob (by decide) (by decide)).2.2 (by decide) "000000" rfl (by decide)
      (by decide)⟩

end Iivineri

/-! ## Token refresh -/

namespace Iivineri

/-- Once the refresh token is parsed, its issuer is the refresh issuer, the user is read
and the ban check answers, `RefreshToken` ends as `Login` does. -/
theorem RefreshToken_of_claims (env : Env) (db : DB) (req : RefreshTokenRequest)
    (claims : JWTClaims) (u : User) (b : Bool)
    (hparse : ParseWithClaims env req.RefreshToken = .ok claims)
    (hiss : claims.Issuer = "iivineri-refresh")
    (hget : UserRepository.GetByID env db claims.UserID = .ok u)
    (hban : BanRepository.IsUserBanned env db u.ID = .ok b) :
    RefreshToken env db req =
      if b then .error (.errorf "user is banned") else loginSuccess env u := by
  unfold RefreshToken loginSuccess
  rw [hparse]
  simp only [hiss, hget, hban]
  cases b <;> simp

/-- An access token whose claims the library reads back is accepted before its expiry
while the store answers and its subject is a live user. -/
theorem ValidateToken_of_access (env env2 : Env) (db : DB) (u v : User) (access : String)
    (hverify : env2.jwtVerify env2.jwtSecret access = some (accessClaims env u))
    (hexp : env2.now < timeUnix (Unix (env.now + 24 * Hour)))
    (hstore : env2.fault .userGetByID = none)
    (hv : selectUserByID db u.ID = some v) :
    ValidateToken env2 db access = .ok v := by
  have hparse : ParseWithClaims env2 access = .ok (accessClaims env u) := by
    apply ParseWithClaims_ok env2 access _ hverify
    · intro exp he
      simp only [accessClaims, NewNumericDate_timeUnix, Option.some.injEq] at he
      rw [← he]
      exact hexp
    · intro nbf hn
      simp [accessClaims] at hn
  unfold ValidateToken
  rw [hparse]
  have hget : UserRepository.GetByID env2 db (accessClaims env u).UserID = .ok v :=
    GetByID_ok env2 hstore hv
  simp only [hget]
  simp [accessClaims]

/-- A refresh token presented at or after its expiry is rejected. -/
theorem RefreshToken_expired (env : Env) (db : DB) (req : RefreshTokenRequest)
    (claims : JWTClaims) (exp : Int)
    (hv : env.jwtVerify env.jwtSecret req.RefreshToken = some claims)
    (he : claims.ExpiresAt = some exp) (hexp : timeUnix exp ≤ env.now) :
    RefreshToken env db req = .error (.errorf "invalid refresh token") := by
  obtain ⟨e, hp⟩ := ParseWithClaims_expired env req.RefreshToken claims exp hv he hexp
  unfold RefreshToken
  rw [hp]

/-- C21. Take a refresh token that the JWT library verifies under the signing key, with
the refresh issuer, not expired and not used too early, whose subject is a live user, and
let the store answer. If the user has a ban row, `RefreshToken` fails with "user is
banned". Otherwise, when the signer works, it returns a new access token, and
`ValidateToken` accepts that token for the same user id before its expiry. The call
leaves the store as it was and returns no refresh token, and a later call with the same
refresh token, still before the expiry of that token, succeeds as well; from the expiry
of the refresh token on the call is rejected. -/
theorem refreshToken_keeps_refresh_token
    (env : Env) (db : DB) (req : RefreshTokenRequest) (claims : JWTClaims) (u : User)
    (hv : env.jwtVerify env.jwtSecret req.RefreshToken = some claims)
    (hiss : claims.Issuer = "iivineri-refresh")
    (hexp : ∀ exp, claims.ExpiresAt = some exp → env.now < timeUnix exp)
    (hnbf : ∀ nbf, claims.NotBefore = some nbf → timeUnix nbf ≤ env.now)
    (hu : selectUserByID db claims.UserID = some u)
    (hstore : env.fault .userGetByID = none ∧ env.fault .banIsUserBanned = none) :
    (existsBanByUser db u.ID = true →
      RefreshToken env db req = .error (.errorf "user is banned")) ∧
    (existsBanByUser db u.ID = false →
      ∀ access refresh,
        env.SignedString env.jwtSecret (accessClaims env u) = .ok access →
        env.SignedString env.jwtSecret (refreshClaims env u) = .ok refresh →
        RefreshToken env db req =
          .ok { Token := access, User := some u.ToPublic
                ExpiresAt := timeUnix (Unix (env.now + 24 * Hour)), Requires2FA := false } ∧
        (∀ env2 : Env,
          env2.jwtVerify env2.jwtSecret access = some (accessClaims env u) →
          env2.now < timeUnix (Unix (env.now + 24 * Hour)) →
          env2.fault .userGetByID = none →
          ∃ v, ValidateToken env2 (Call.store env db (.refreshToken req)) access = .ok v ∧
            v.ID = claims.UserID) ∧
        (∀ env3 : Env,
          env3.jwtVerify env3.jwtSecret req.RefreshToken = some claims →
          (∀ exp, claims.ExpiresAt = some exp → env3.now < timeUnix exp) →
          (∀ nbf, claims.NotBefore = some nbf → timeUnix nbf ≤ env3.now) →
          env3.fault .userGetByID = none → env3.fault .banIsUserBanned = none →
          ∀ access3 refresh3,
            env3.SignedString env3.jwtSecret (accessClaims env3 u) = .ok access3 →
            env3.SignedString env3.jwtSecret (refreshClaims env3 u) = .ok refresh3 →
            RefreshToken env3 (Call.store env db (.refreshToken req)) req =
              .ok { Token := access3, User := some u.ToPublic
                    ExpiresAt := timeUnix (Unix (env3.now + 24 * Hour))
                    Requires2FA := false })) ∧
    Call.store env db (.refreshToken req) = db ∧
    (∀ env3 : Env, ∀ exp,
      env3.jwtVerify env3.jwtSecret req.RefreshToken = some claims →
      claims.ExpiresAt = some exp → timeUnix exp ≤ env3.now →
      RefreshToken env3 (Call.store env db (.refreshToken req)) req =
        .error (.errorf "invalid refresh token")) := by
  have hstep : ∀ e : Env, e.jwtVerify e.jwtSecret req.RefreshToken = some claims →
      (∀ exp, claims.ExpiresAt = some exp → e.now < timeUnix exp) →
      (∀ nbf, claims.NotBefore = some nbf → timeUnix nbf ≤ e.now) →
      e.fault .userGetByID = none → e.fault .banIsUserBanned = none →
      RefreshToken e db req =
        if existsBanByUser db u.ID then .error (.errorf "user is banned")
        else loginSuccess e u := by
    intro e h1 h2 h3 h4 h5
    exact RefreshToken_of_claims e db req claims u _
      (ParseWithClaims_ok e _ claims h1 h2 h3) hiss (GetByID_ok e h4 hu)
      (IsUserBanned_ok e db u.ID h5)
  have hid : u.ID = claims.UserID := (selectUserByID_some hu).2.1
  have hstore0 : Call.store env db (.refreshToken req) = db := rfl
  refine ⟨?_, ?_, hstore0, ?_⟩
  · intro hb
    rw [hstep env hv hexp hnbf hstore.1 hstore.2, hb]
    rfl
  · intro hb access refresh ha hr
    refine ⟨?_, ?_, ?_⟩
    · rw [hstep env hv hexp hnbf hstore.1 hstore.2, hb]
      simpa using loginSuccess_ok env u access refresh ha hr
    · intro env2 hverify hbefore hs2
      rw [hstore0]
      refine ⟨u, ?_, hid⟩
      apply ValidateToken_of_access env env2 db u u access hverify hbefore hs2
      rw [hid]
      exact hu
    · intro env3 h1 h2 h3 h4 h5 access3 refresh3 ha3 hr3
      rw [hstore0, hstep env3 h1 h2 h3 h4 h5, hb]
      simpa using loginSuccess_ok env3 u access3 refresh3 ha3 hr3
  · intro env3 exp h1 h2 h3
    rw [hstore0]
    exact RefreshToken_expired env3 db req claims exp h1 h2 h3

end Iivineri
namespace Iivineri

/-- Witness of C21: alice refreshes at the issue instant; the access token is validated
23 hours later, the same refresh token is accepted again six days later and rejected
seven days after its issue. -/
theorem refreshToken_keeps_refresh_token_witness :
    RefreshToken Demo.env Demo.db ⟨"s3cr3t.iivineri-refresh.1"⟩ =
      .ok { Token := "s3cr3t.iivineri.1", User := some Demo.alice.ToPublic
            ExpiresAt := timeUnix (Unix (Demo.env.now + 24 * Hour)), Requires2FA := false } ∧
    (∃ v, ValidateToken (Demo.envAt (Demo.issuedAt + 23 * Hour)) Demo.db
        "s3cr3t.iivineri.1" = .ok v ∧ v.ID = 1) ∧
    RefreshToken (Demo.envAt (Demo.issuedAt + 6 * 24 * Hour)) Demo.db
        ⟨"s3cr3t.iivineri-refresh.1"⟩ =
      .ok { Token := "s3cr3t.iivineri.1", User := some Demo.alice.ToPublic
            ExpiresAt := timeUnix (Unix (Demo.issuedAt + 6 * 24 * Hour + 24 * Hour))
            Requires2FA := false } ∧
    RefreshToken (Demo.envAt (Demo.issuedAt + 7 * 24 * Hour)) Demo.db
        ⟨"s3cr3t.iivineri-refresh.1"⟩ = .error (.errorf "invalid refresh token") := by
  have h := refreshToken_keeps_refresh_token Demo.env Demo.db ⟨"s3cr3t.iivineri-refresh.1"⟩
    { UserID := 1, ExpiresAt := some 1700604800, IssuedAt := some 1700000000
      NotBefore := none, Issuer := "iivineri-refresh" } Demo.alice
    (by decide) (by decide)
    (fun exp he => by
      have h : exp = 1700604800 := (Option.some.inj he).symm
      subst h
      decide)
    (fun nbf hn => by cases hn)
    (by decide) (by decide)
  obtain ⟨_, hok, _, hlate⟩ := h
  obtain ⟨h1, h2, h3⟩ := hok (by decide) "s3cr3t.iivineri.1" "s3cr3t.iivineri-refresh.1"
    (by decide) (by decide)
  refine ⟨h1, ?_, ?_, ?_⟩
  · exact h2 (Demo.envAt (Demo.issuedAt + 23 * Hour)) (by decide) (by decide) (by decide)
  · exact h3 (Demo.envAt (Demo.issuedAt + 6 * 24 * Hour)) (by decide)
      (fun exp he => by
        have h : exp = 1700604800 := (Option.some.inj he).symm
        subst h
        decide)
      (fun nbf hn => by cases hn) (by decide) (by decide)
      "s3cr3t.iivineri.1" "s3cr3t.iivineri-refresh.1" (by decide) (by decide)
  · exact hlate (Demo.envAt (Demo.issuedAt + 7 * 24 * Hour)) 1700604800 (by decide)
      (by decide) (by decide)

end Iivineri

/-! ## Lifetimes of the tokens -/

namespace Iivineri

/-- Adding whole seconds to an instant adds them to its Unix time. -/
theorem Unix_add_seconds (t : Time) (k : Int) : Unix (t + k * Second) = Unix t + k := by
  unfold Unix Second
  have key : ∀ a b : Int, (a + b * 1000000000) / 1000000000 = a / 1000000000 + b := by
    intro a b
    omega
  exact key _ _

theorem Unix_add_day (t : Time) : Unix (t + 24 * Hour) = Unix t + 24 * 3600 := by
  have h : t + 24 * Hour = t + (24 * 3600) * Second := by
    unfold Hour
    have key : ∀ a s : Int, a + 24 * (3600 * s) = a + (24 * 3600) * s := by
      intro a s
      ring
    exact key _ _
  rw [h, Unix_add_seconds]

theorem Unix_add_week (t : Time) : Unix (t + 7 * 24 * Hour) = Unix t + 7 * 24 * 3600 := by
  have h : t + 7 * 24 * Hour = t + (7 * 24 * 3600) * Second := by
    unfold Hour
    have key : ∀ a s : Int, a + 7 * 24 * (3600 * s) = a + (7 * 24 * 3600) * s := by
      intro a s
      ring
    exact key _ _
  rw [h, Unix_add_seconds]

/-- The instant seven days after `t`, cut to whole seconds. -/
theorem Unix_week_bounds (t : Time) :
    timeUnix (Unix t + 7 * 24 * 3600) ≤ t + 7 * 24 * Hour ∧
    t + 7 * 24 * Hour < timeUnix (Unix t + 7 * 24 * 3600) + Second := by
  unfold timeUnix Unix Hour Second
  have key : ∀ a : Int,
      (a / 1000000000 + 7 * 24 * 3600) * 1000000000 ≤ a + 7 * 24 * (3600 * 1000000000) ∧
      a + 7 * 24 * (3600 * 1000000000) <
        (a / 1000000000 + 7 * 24 * 3600) * 1000000000 + 1000000000 := by
    intro a
    omega
  exact key _

/-- The dates the two tokens carry, in seconds. -/
theorem claims_dates (env : Env) (user : User) :
    (accessClaims env user).IssuedAt = some (Unix env.now) ∧
    (accessClaims env user).ExpiresAt = some (Unix env.now + 24 * 3600) ∧
    (accessClaims env user).ExpiresAt = some (Unix (env.now + 24 * Hour)) ∧
    (refreshClaims env user).IssuedAt = some (Unix env.now) ∧
    (refreshClaims env user).ExpiresAt = some (Unix env.now + 7 * 24 * 3600) := by
  refine ⟨rfl, ?_, ?_, rfl, ?_⟩
  · simp only [accessClaims, NewNumericDate_timeUnix, Unix_add_day]
  · simp only [accessClaims, NewNumericDate_timeUnix]
  · have h : NewNumericDate (env.now + 7 * 24 * Hour) = Unix (env.now + 7 * 24 * Hour) := rfl
    simp only [refreshClaims, h, Unix_add_week]

/-- The refresh expiry is seven days after `t` exactly when `t` is a whole number of
seconds. -/
theorem Unix_week_exact (t : Time) :
    timeUnix (Unix t + 7 * 24 * 3600) = t + 7 * 24 * Hour ↔ t % Second = 0 := by
  unfold timeUnix Unix Hour Second
  have key : ∀ a : Int,
      (a / 1000000000 + 7 * 24 * 3600) * 1000000000 = a + 7 * 24 * (3600 * 1000000000) ↔
        a % 1000000000 = 0 := by
    intro a
    omega
  exact key _

/-- Counterexample to C22: at the issue instant 1700000000.25 s `GenerateTokens` signs
a refresh token whose expires-at claim is 1700604800, a quarter of a second before the
instant seven days after the issue instant. -/
theorem refresh_expiry_before_seven_days :
    Demo.env.now = 1700000000 * Second + 250000000 ∧
    GenerateTokens Demo.env Demo.alice =
      .ok ("s3cr3t.iivineri.1", "s3cr3t.iivineri-refresh.1", 1700086400) ∧
    Demo.env.SignedString Demo.env.jwtSecret (refreshClaims Demo.env Demo.alice) =
      .ok "s3cr3t.iivineri-refresh.1" ∧
    (refreshClaims Demo.env Demo.alice).ExpiresAt = some 1700604800 ∧
    timeUnix 1700604800 ≠ Demo.env.now + 7 * 24 * Hour ∧
    Demo.env.now + 7 * 24 * Hour - timeUnix 1700604800 = 250000000 := by
  decide

/-- C22 (as amended). For every instant `now` of the process clock at which
`GenerateTokens` runs: when the signer works the function returns; the access token it
returns is the signing of claims whose expires-at is 24 hours (86400 seconds) after
their issued-at and equals the expiry value the function returns, which a `Login` that
returns a token reports as `ExpiresAt`; the refresh token is the signing of claims whose
expires-at is 7 days (604800 seconds) after the same issued-at, which is the issue
instant cut to whole seconds. As an instant that expiry is 7 days after `now` exactly
when `now` is a whole number of seconds; otherwise it is earlier, by less than one
second. -/
theorem generateTokens_lifetimes (env : Env) (user : User) :
    (∀ access refresh,
      env.SignedString env.jwtSecret (accessClaims env user) = .ok access →
      env.SignedString env.jwtSecret (refreshClaims env user) = .ok refresh →
      GenerateTokens env user = .ok (access, refresh, Unix env.now + 24 * 3600)) ∧
    (∀ access refresh expiresAt,
      GenerateTokens env user = .ok (access, refresh, expiresAt) →
      env.SignedString env.jwtSecret (accessClaims env user) = .ok access ∧
      env.SignedString env.jwtSecret (refreshClaims env user) = .ok refresh ∧
      (accessClaims env user).IssuedAt = some (Unix env.now) ∧
      (accessClaims env user).ExpiresAt = some (Unix env.now + 24 * 3600) ∧
      (accessClaims env user).ExpiresAt = some expiresAt ∧
      (refreshClaims env user).IssuedAt = some (Unix env.now) ∧
      (refreshClaims env user).ExpiresAt = some (Unix env.now + 7 * 24 * 3600)) ∧
    (∀ db req resp, Login env db req = .ok resp → resp.Requires2FA = false →
      ∃ u access refresh expiresAt,
        GenerateTokens env u = .ok (access, refresh, expiresAt) ∧
        resp.Token = access ∧ resp.ExpiresAt = timeUnix expiresAt ∧
        (accessClaims env u).ExpiresAt = some expiresAt) ∧
    (timeUnix (Unix env.now + 7 * 24 * 3600) ≤ env.now + 7 * 24 * Hour ∧
      env.now + 7 * 24 * Hour < timeUnix (Unix env.now + 7 * 24 * 3600) + Second) ∧
    (timeUnix (Unix env.now + 7 * 24 * 3600) = env.now + 7 * 24 * Hour ↔
      env.now % Second = 0) := by
  obtain ⟨h1, h2, h3, h4, h5⟩ := claims_dates env user
  refine ⟨?_, ?_, ?_, Unix_week_bounds env.now, Unix_week_exact env.now⟩
  · intro access refresh ha hr
    unfold GenerateTokens
    simp only [ha, hr, Unix_add_day]
  · intro access refresh expiresAt h
    obtain ⟨ha, hr, he⟩ := GenerateTokens_ok_inv env user access refresh expiresAt h
    refine ⟨ha, hr, h1, h2, ?_, h4, h5⟩
    rw [he]
    exact h3
  · intro db req resp h hreq
    obtain ⟨u, _, _, _, hcase⟩ := Login_ok_inv env db req resp h
    have hsucc : loginSuccess env u = .ok resp := by
      rcases hcase with ⟨_, hc⟩ | hc
      · rw [hc] at hreq
        cases hreq
      · exact hc
    obtain ⟨access, refresh, _, _, hg, hresp⟩ := loginSuccess_ok_inv env u resp hsucc
    refine ⟨u, access, refresh, _, hg, ?_, ?_, (claims_dates env u).2.2.1⟩
    · rw [hresp]
    · rw [hresp]

/-- Witness of C22 (as amended): the tokens of alice issued at 1700000000.25 s. -/
theorem generateTokens_lifetimes_witness :
    GenerateTokens Demo.env Demo.alice =
      .ok ("s3cr3t.iivineri.1", "s3cr3t.iivineri-refresh.1", 1700086400) ∧
    (accessClaims Demo.env Demo.alice).ExpiresAt = some 1700086400 ∧
    (refreshClaims Demo.env Demo.alice).ExpiresAt = some 1700604800 ∧
    (accessClaims Demo.env Demo.alice).IssuedAt = some 1700000000 :=
  ⟨(generateTokens_lifetimes Demo.env Demo.alice).1 "s3cr3t.iivineri.1"
      "s3cr3t.iivineri-refresh.1" (by decide) (by decide),
   by decide, by decide, by decide⟩

end Iivineri

/-! ## Logout -/

namespace Iivineri

/-- What a successful parse tells about the token. -/
theorem ParseWithClaims_ok_inv (env : Env) (tokenString : String) (claims : JWTClaims)
    (h : ParseWithClaims env tokenString = .ok claims) :
    env.jwtVerify env.jwtSecret tokenString = some claims ∧
    (∀ exp, claims.ExpiresAt = some exp → env.now < timeUnix exp) ∧
    (∀ nbf, claims.NotBefore = some nbf → timeUnix nbf ≤ env.now) := by
  unfold ParseWithClaims at h
  cases hv : env.jwtVerify env.jwtSecret tokenString with
  | none =>
    rw [hv] at h
    cases h
  | some c =>
    rw [hv] at h
    simp only at h
    split at h
    · cases h
    · split at h
      · cases h
      · rename_i h1 h2
        cases h
        refine ⟨rfl, ?_, ?_⟩
        · intro exp he
          simp only [he] at h1
          simpa using h1
        · intro nbf hn
          simp only [hn] at h2
          simpa using h2

/-- A token accepted at one instant is accepted at every later instant before the
expiry it carries, while the library reads the same claims and the lookup by id is
answered as before. -/
theorem ValidateToken_later (env env2 : Env) (db : DB) (tokenString : String) (u : User)
    (claims : JWTClaims)
    (hv : env.jwtVerify env.jwtSecret tokenString = some claims)
    (h : ValidateToken env db tokenString = .ok u)
    (hv2 : env2.jwtVerify env2.jwtSecret tokenString = some claims)
    (hfault : env2.fault .userGetByID = env.fault .userGetByID)
    (hclock : env.now ≤ env2.now)
    (hexp : ∀ exp, claims.ExpiresAt = some exp → env2.now < timeUnix exp) :
    ValidateToken env2 db tokenString = .ok u := by
  have hparse : ParseWithClaims env tokenString = .ok claims := by
    cases hp : ParseWithClaims env tokenString with
    | error e =>
      unfold ValidateToken at h
      simp [hp] at h
    | ok c =>
      have hc := (ParseWithClaims_ok_inv env tokenString c hp).1
      rw [hv] at hc
      rw [Option.some.inj hc]
  have hnbf : ∀ nbf, claims.NotBefore = some nbf → timeUnix nbf ≤ env2.now := fun nbf hn =>
    le_trans ((ParseWithClaims_ok_inv env tokenString claims hparse).2.2 nbf hn) hclock
  have hparse2 : ParseWithClaims env2 tokenString = .ok claims :=
    ParseWithClaims_ok env2 tokenString claims hv2 hexp hnbf
  unfold ValidateToken at h ⊢
  rw [hparse] at h
  rw [hparse2]
  have hget : UserRepository.GetByID env2 db claims.UserID =
      UserRepository.GetByID env db claims.UserID := by
    unfold UserRepository.GetByID QueryRow
    rw [hfault]
  simp only [hget]
  exact h

/-- C23. `Logout` returns success for every user id and returns the store as it was:
users, sessions, reset tokens, recovery codes and bans are unchanged. So `ValidateToken`
gives after the call what it gave before it, and a token it accepted before the call is
accepted after it at every later instant before the expiry the token carries (the JWT
library still reading the same claims and the store answering as before). -/
theorem logout_changes_nothing (env : Env) (db : DB) (userID : Int) :
    Logout env db userID = (.ok (), db) ∧
    (Logout env db userID).2.users = db.users ∧
    (Logout env db userID).2.sessions = db.sessions ∧
    (Logout env db userID).2.resets = db.resets ∧
    (Logout env db userID).2.secrets = db.secrets ∧
    (Logout env db userID).2.bans = db.bans ∧
    (∀ (env2 : Env) (tokenString : String),
      ValidateToken env2 (Logout env db userID).2 tokenString =
        ValidateToken env2 db tokenString) ∧
    (∀ (env1 env2 : Env) (tokenString : String) (u : User) (claims : JWTClaims),
      env1.jwtVerify env1.jwtSecret tokenString = some claims →
      ValidateToken env1 db tokenString = .ok u →
      env2.jwtVerify env2.jwtSecret tokenString = some claims →
      env2.fault .userGetByID = env1.fault .userGetByID →
      env1.now ≤ env2.now →
      (∀ exp, claims.ExpiresAt = some exp → env2.now < timeUnix exp) →
      ValidateToken env2 (Logout env db userID).2 tokenString = .ok u) :=
  ⟨rfl, rfl, rfl, rfl, rfl, rfl, fun _ _ => rfl,
   fun env1 env2 tokenString u claims hv h hv2 hfault hclock hexp =>
    ValidateToken_later env1 env2 db tokenString u claims hv h hv2 hfault hclock hexp⟩

/-- Witness of C23: alice logs out one hour after her token was issued; the token,
accepted at the issue instant, is accepted 23 hours after it. -/
theorem logout_changes_nothing_witness :
    Logout (Demo.envAt (Demo.issuedAt + Hour)) Demo.fullDB 1 = (.ok (), Demo.fullDB) ∧
    ValidateToken Demo.env Demo.fullDB "s3cr3t.iivineri.1" = .ok Demo.alice ∧
    ValidateToken (Demo.envAt (Demo.issuedAt + 23 * Hour))
      (Logout (Demo.envAt (Demo.issuedAt + Hour)) Demo.fullDB 1).2 "s3cr3t.iivineri.1" =
        .ok Demo.alice :=
  ⟨(logout_changes_nothing (Demo.envAt (Demo.issuedAt + Hour)) Demo.fullDB 1).1,
   by decide,
   (logout_changes_nothing (Demo.envAt (Demo.issuedAt + Hour)) Demo.fullDB 1).2.2.2.2.2.2.2
    Demo.env (Demo.envAt (Demo.issuedAt + 23 * Hour)) "s3cr3t.iivineri.1" Demo.alice
    { UserID := 1, ExpiresAt := some 1700086400, IssuedAt := some 1700000000
      NotBefore := none, Issuer := "iivineri" }
    (by decide) (by decide) (by decide) (by decide) (by decide)
    (fun exp he => by
      have h : exp = 1700086400 := (Option.some.inj he).symm
      subst h
      decide)⟩

end Iivineri

/-! ## Sessions -/

namespace Iivineri

/-- The session table after the invalidation of the sessions of a user: the rows are
the rows before it, and the rows that are active after it are unchanged rows. -/
theorem SessionDeleteAll_sessions (env : Env) (db : DB) (userID : Int) :
    ((SessionRepository.DeleteAllByUserID env db userID).2.sessions.map fun s => s.ID) =
        (db.sessions.map fun s => s.ID) ∧
    (∀ s ∈ (SessionRepository.DeleteAllByUserID env db userID).2.sessions,
      s.DeletedAt = none → s ∈ db.sessions) ∧
    (SessionRepository.DeleteAllByUserID env db userID).2.users = db.users ∧
    (SessionRepository.DeleteAllByUserID env db userID).2.resets = db.resets := by
  rcases SessionDeleteAll_store env db userID with ⟨h, _⟩ | ⟨h, _⟩
  · rw [h]
    exact ⟨rfl, fun s hs _ => hs, rfl, rfl⟩
  · rw [h]
    refine ⟨?_, ?_, rfl, rfl⟩
    · simp only [List.map_map]
      apply List.map_congr_left
      intro s _
      simp only [Function.comp]
      split <;> rfl
    · intro s hs hd
      simp only [List.mem_map] at hs
      obtain ⟨s0, hs0, he⟩ := hs
      split at he
      · rw [← he] at hd
        cases hd
      · rw [← he]
        exact hs0

theorem Create_sessions (env : Env) (db : DB) (user : User) :
    (UserRepository.Create env db user).2.sessions = db.sessions := by
  unfold UserRepository.Create
  split <;> rfl

theorem Register_sessions (env : Env) (db : DB) (req : RegisterRequest) :
    (Register env db req).2.sessions = db.sessions := by
  unfold Register
  repeat' split
  all_goals try rfl
  dsimp only
  split
  all_goals
    rename_i h
    have hc := congrArg (fun p => p.2.sessions) h
    simp only [Create_sessions] at hc
    exact hc.symm

theorem ChangePassword_sessions (env : Env) (db : DB) (userID : Int)
    (req : ChangePasswordRequest) :
    (ChangePassword env db userID req).2.sessions = db.sessions := by
  rcases h : ChangePassword env db userID req with ⟨r, db2⟩
  cases r with
  | error e => rw [ChangePassword_error_frame env db db2 userID req e h]
  | ok _ =>
    obtain ⟨_, _, _, _, _, _, hdb⟩ := ChangePassword_ok_inv env db db2 userID req h
    rw [hdb]

theorem RequestPasswordReset_sessions (env : Env) (db : DB) (req : PasswordResetRequest) :
    (RequestPasswordReset env db req).2.sessions = db.sessions := by
  rcases RequestPasswordReset_store env db req with h | h <;> rw [h]

theorem ConfirmPasswordReset_sessions (env : Env) (db : DB)
    (req : PasswordResetConfirmRequest) :
    ((ConfirmPasswordReset env db req).2.sessions.map fun s => s.ID) =
        (db.sessions.map fun s => s.ID) ∧
    (∀ s ∈ (ConfirmPasswordReset env db req).2.sessions,
      s.DeletedAt = none → s ∈ db.sessions) := by
  rcases h : ConfirmPasswordReset env db req with ⟨r, db2⟩
  cases r with
  | error e =>
    rw [ConfirmPasswordReset_error_frame env db db2 req e h]
    exact ⟨rfl, fun s hs _ => hs⟩
  | ok _ =>
    obtain ⟨_, user, _, _, _, _, hdb⟩ := ConfirmPasswordReset_ok_inv env db db2 req h
    rw [hdb]
    have hdel : ∀ d : DB, (ResetPasswordRepository.Delete env d req.Token).2.sessions =
        d.sessions := by
      intro d
      rcases ResetDelete_store env d req.Token with ⟨hd, _⟩ | ⟨hd, _⟩ <;> rw [hd]
    obtain ⟨h1, h2, _, _⟩ := SessionDeleteAll_sessions env
      (ResetPasswordRepository.Delete env
        { db with
          users := db.users.map fun row =>
            if row.ID == user.ID && row.DeletedAt.isNone then
              updatedUser env { user with Password := ‹String› } row
            else row } req.Token).2 user.ID
    rw [hdel] at h1 h2
    exact ⟨h1, h2⟩

theorem Enable2FA_sessions (env : Env) (db : DB) (userID : Int) (req : Enable2FARequest) :
    (Enable2FA env db userID req).2.sessions = db.sessions := by
  unfold Enable2FA
  repeat' split
  all_goals try rfl
  exact (storeBackupCodes_frame env userID _ db).2.2.1

theorem Confirm2FA_sessions (env : Env) (db : DB) (userID : Int) (req : Confirm2FARequest) :
    (Confirm2FA env db userID req).2.sessions = db.sessions := by
  rcases Confirm2FA_cases env db userID req with ⟨e, h⟩ | ⟨_, user, _, h⟩ <;> rw [h]

theorem Disable2FA_sessions (env : Env) (db : DB) (userID : Int) (req : Disable2FARequest) :
    (Disable2FA env db userID req).2.sessions = db.sessions := by
  rcases Disable2FA_store env db userID req with h | ⟨user, _, h⟩
  · rw [h]
  · rw [h]
    rcases disable2FAEnd_cases env db userID user with ⟨e, he, _⟩ | ⟨_, he⟩
    · rw [he]
    · rw [he]
      rcases SecretDelete_store env
        { db with
          users := db.users.map fun row =>
            if row.ID == user.ID && row.DeletedAt.isNone then
              updatedUser env { user with Enabled2FA := false, Secret2FA := "" } row
            else row } userID with ⟨hd, _⟩ | ⟨hd, _⟩ <;> rw [hd]

theorem LogoutAll_store (env : Env) (db : DB) (userID : Int) :
    (LogoutAll env db userID).2 = (SessionRepository.DeleteAllByUserID env db userID).2 := by
  unfold LogoutAll
  split <;> (rename_i h; rw [h])

/-- No operation of the service adds a row to the session table, and a session that is
active after an operation was in the table, unchanged, before it. -/
theorem Call_sessions (env : Env) (db : DB) (call : Call) :
    ((call.store env db).sessions.map fun s => s.ID) = (db.sessions.map fun s => s.ID) ∧
    (∀ s ∈ (call.store env db).sessions, s.DeletedAt = none → s ∈ db.sessions) := by
  have hsame : ∀ d : DB, d.sessions = db.sessions →
      (d.sessions.map fun s => s.ID) = (db.sessions.map fun s => s.ID) ∧
      (∀ s ∈ d.sessions, s.DeletedAt = none → s ∈ db.sessions) := by
    intro d hd
    rw [hd]
    exact ⟨rfl, fun s hs _ => hs⟩
  cases call with
  | register req => exact hsame _ (Register_sessions env db req)
  | login req => exact hsame _ rfl
  | logout userID => exact hsame _ rfl
  | logoutAll userID =>
    simp only [Call.store, LogoutAll_store]
    exact ⟨(SessionDeleteAll_sessions env db userID).1, (SessionDeleteAll_sessions env db userID).2.1⟩
  | getProfile userID => exact hsame _ rfl
  | changePassword userID req => exact hsame _ (ChangePassword_sessions env db userID req)
  | requestPasswordReset req => exact hsame _ (RequestPasswordReset_sessions env db req)
  | confirmPasswordReset req => exact ConfirmPasswordReset_sessions env db req
  | enable2FA userID req => exact hsame _ (Enable2FA_sessions env db userID req)
  | confirm2FA userID req => exact hsame _ (Confirm2FA_sessions env db userID req)
  | disable2FA userID req => exact hsame _ (Disable2FA_sessions env db userID req)
  | generateTokens user => exact hsame _ rfl
  | refreshToken req => exact hsame _ rfl
  | validateToken tokenString => exact hsame _ rfl
  | validateUser userID => exact hsame _ rfl

/-- Counterexample to C24: alice logs in and gets a token; the store after the call is
the store before it, which holds no session row, so a `LogoutAll` for alice that follows
finds no session to invalidate. -/
theorem login_success_without_session :
    Login Demo.env Demo.db
        { Email := "alice@example.com", Password := "wonderland", TOTPCode := none } =
      .ok { Token := "s3cr3t.iivineri.1", User := some Demo.alice.ToPublic
            ExpiresAt := 1700086400 * Second, Requires2FA := false } ∧
    (Call.store Demo.env Demo.db
      (.login { Email := "alice@example.com", Password := "wonderland"
                TOTPCode := none })).sessions = [] ∧
    (LogoutAll Demo.env
      (Call.store Demo.env Demo.db
        (.login { Email := "alice@example.com", Password := "wonderland"
                  TOTPCode := none })) 1).2.sessions = [] := by
  decide

/-- C24 (as amended). `Login` creates no session row: it returns the store as it was,
whatever it answers, and no operation of the service creates one. The rows of the
session table after any operation are the rows before it, and a session that is active
after an operation was in the table before it. So `LogoutAll` and
`ConfirmPasswordReset`, run after a `Login`, invalidate what they would have invalidated
without it. -/
theorem login_creates_no_session (env : Env) (db : DB) :
    (∀ req : LoginRequest, Call.store env db (.login req) = db) ∧
    (∀ call : Call,
      ((call.store env db).sessions.map fun s => s.ID) = (db.sessions.map fun s => s.ID) ∧
      (∀ s ∈ (call.store env db).sessions, s.DeletedAt = none → s ∈ db.sessions)) ∧
    (∀ (req : LoginRequest) (env2 : Env) (userID : Int),
      LogoutAll env2 (Call.store env db (.login req)) userID = LogoutAll env2 db userID) ∧
    (∀ (req : LoginRequest) (env2 : Env) (confirm : PasswordResetConfirmRequest),
      ConfirmPasswordReset env2 (Call.store env db (.login req)) confirm =
        ConfirmPasswordReset env2 db confirm) :=
  ⟨fun _ => rfl, fun call => Call_sessions env db call, fun _ _ _ => rfl, fun _ _ _ => rfl⟩

/-- Witness of C24 (as amended): in the deployment with sessions, the session of alice
that is active after her login is the one that was there before it. -/
theorem login_creates_no_session_witness :
    Demo.aliceSession ∈ (Call.store Demo.env Demo.fullDB
      (.login { Email := "alice@example.com", Password := "wonderland"
                TOTPCode := none })).sessions ∧
    Demo.aliceSession ∈ Demo.fullDB.sessions :=
  ⟨by decide,
   (login_creates_no_session Demo.env Demo.fullDB).2.1
    (.login { Email := "alice@example.com", Password := "wonderland", TOTPCode := none })
    |>.2 Demo.aliceSession (by decide) (by decide)⟩

end Iivineri

/-! ## Recovery codes at login -/

namespace Iivineri

/-- Counterexample to C25: bob, who has 2FA enabled, calls `Enable2FA`; the first code
it returns is MZXW6YTB and a usable row with its hash is stored for him. A `Login` with
his password and that code in place of the TOTP code is rejected with "invalid 2FA
code", and the store, the row of the code included, is as it was. -/
theorem login_rejects_recovery_code :
    (Enable2FA Demo.env Demo.db 2 ⟨"builder"⟩).1 =
      .ok { Secret := "GEZDGNBVGY3TQOJQ"
            QRCodeURL := "otpauth://totp/Iivineri:bob@example.com" ++
              "?secret=GEZDGNBVGY3TQOJQ&issuer=Iivineri"
            BackupCodes := (List.range 10).map (backupCode Demo.env) } ∧
    backupCode Demo.env 0 = "MZXW6YTB" ∧
    ((Enable2FA Demo.env Demo.db 2 ⟨"builder"⟩).2.secrets.any fun c =>
      c.UserID == 2 && c.DeletedAt.isNone &&
        Demo.env.CompareHashAndPassword c.Hash "MZXW6YTB") = true ∧
    Demo.bob.Is2FAEnabled = true ∧
    Login Demo.env (Enable2FA Demo.env Demo.db 2 ⟨"builder"⟩).2
        { Email := "bob@example.com", Password := "builder", TOTPCode := some "MZXW6YTB" } =
      .error (.errorf "invalid 2FA code") ∧
    Call.store Demo.env (Enable2FA Demo.env Demo.db 2 ⟨"builder"⟩).2
        (.login { Email := "bob@example.com", Password := "builder"
                  TOTPCode := some "MZXW6YTB" }) =
      (Enable2FA Demo.env Demo.db 2 ⟨"builder"⟩).2 := by
  decide

/-- C25 (as amended). For a user with 2FA enabled, `Login` takes the supplied code as a
TOTP code only: with the store answering, the user not banned and the password right, a
non-empty code is accepted exactly when it validates as TOTP code against the stored
secret, and is rejected with "invalid 2FA code" otherwise. The answer of `Login` does
not depend on the recovery codes in the store, those written by `Enable2FA` included,
and `Login` marks no recovery code as consumed: it leaves the table as it was. -/
theorem login_ignores_recovery_codes (env : Env) (db : DB) (req : LoginRequest) :
    (∀ db2 : DB, db2.users = db.users → db2.bans = db.bans →
      Login env db2 req = Login env db req) ∧
    (∀ (env1 : Env) (userID : Int) (r : Enable2FARequest),
      Login env (Enable2FA env1 db userID r).2 req = Login env db req) ∧
    (Call.store env db (.login req)).secrets = db.secrets ∧
    (∀ (u : User) (code : String),
      env.fault .userGetByEmail = none → env.fault .banIsUserBanned = none →
      selectUserByEmail db req.Email = some u → existsBanByUser db u.ID = false →
      env.CompareHashAndPassword u.Password req.Password = true →
      u.Is2FAEnabled = true → req.TOTPCode = some code → code ≠ "" →
      (env.totpValidate code u.Secret2FA = false →
        Login env db req = .error (.errorf "invalid 2FA code")) ∧
      (env.totpValidate code u.Secret2FA = true →
        Login env db req = loginSuccess env u)) := by
  refine ⟨fun db2 hu hb => Login_congr env hu hb req, ?_, rfl, ?_⟩
  · intro env1 userID r
    exact Login_congr env (Enable2FA_frame env1 db userID r).1
      (Enable2FA_frame env1 db userID r).2.1 req
  · intro u code hf1 hf2 hu hban hpw h2fa hcode hne
    have hget := GetByEmail_ok env hf1 hu
    have hb := IsUserBanned_ok env db u.ID hf2
    rw [hban] at hb
    have hlogin := Login_of_lookup env db req u hget hb
    rw [hpw, h2fa, hcode] at hlogin
    constructor
    · intro hv
      rw [hlogin]
      simp [hne, hv]
    · intro hv
      rw [hlogin]
      simp [hne, hv]

/-- Witness of C25 (as amended): after bob has stored recovery codes, his login with
the recovery code MZXW6YTB is rejected and his login with the TOTP code is accepted. -/
theorem login_ignores_recovery_codes_witness :
    Login Demo.env (Enable2FA Demo.env Demo.db 2 ⟨"builder"⟩).2
        { Email := "bob@example.com", Password := "builder", TOTPCode := some "MZXW6YTB" } =
      .error (.errorf "invalid 2FA code") ∧
    Login Demo.env (Enable2FA Demo.env Demo.db 2 ⟨"builder"⟩).2
        { Email := "bob@example.com", Password := "builder", TOTPCode := some "492039" } =
      loginSuccess Demo.env Demo.bob :=
  ⟨((login_ignores_recovery_codes Demo.env (Enable2FA Demo.env Demo.db 2 ⟨"builder"⟩).2
      { Email := "bob@example.com", Password := "builder", TOTPCode := some "MZXW6YTB" }
      ).2.2.2 Demo.bob "MZXW6YTB" (by decide) (by decide) (by decide) (by decide)
      (by decide) (by decide) (by decide) (by decide)).1 (by decide),
   ((login_ignores_recovery_codes Demo.env (Enable2FA Demo.env Demo.db 2 ⟨"builder"⟩).2
      { Email := "bob@example.com", Password := "builder", TOTPCode := some "492039" }
      ).2.2.2 Demo.bob "492039" (by decide) (by decide) (by decide) (by decide)
      (by decide) (by decide) (by decide) (by decide)).2 (by decide)⟩

end Iivineri

/-! ## The message of a rejection -/

namespace Iivineri

/-- The errors of `ValidateUser`. -/
theorem ValidateUser_error_cases (env : Env) (db : DB) (userID : Int) (e : GoError)
    (h : ValidateUser env db userID = .error e) :
    e = .errorf "user not found" ∨ e = .errorf "user is banned" ∨
    ∃ inner, e = .wrapf "failed to check ban status" inner := by
  unfold ValidateUser at h
  split at h
  · exact Or.inl (Except.error.inj h).symm
  · split at h
    · exact Or.inr (Or.inr ⟨_, (Except.error.inj h).symm⟩)
    · split at h
      · exact Or.inr (Or.inl (Except.error.inj h).symm)
      · cases h

/-- The text of an error of `ValidateUser` is not empty. -/
theorem ValidateUser_error_text (env : Env) (db : DB) (userID : Int) (e : GoError)
    (h : ValidateUser env db userID = .error e) : e.Error ≠ "" := by
  rcases ValidateUser_error_cases env db userID e h with h1 | h1 | ⟨inner, h1⟩
  · rw [h1]
    decide
  · rw [h1]
    decide
  · rw [h1]
    show "failed to check ban status" ++ ": " ++ inner.Error ≠ ""
    intro h2
    have h3 := congrArg String.length h2
    rw [String.length_append, String.length_append] at h3
    have h4 : "failed to check ban status".length = 26 := by decide
    have h5 : "".length = 0 := rfl
    omega

/-- Counterexample to C27: a request that carries the refresh token of alice as bearer
token. `ValidateToken` fails with "invalid token type", and the message of the
Unauthorized response is "Invalid or expired token". -/
theorem requireAuth_hides_token_failure :
    ValidateToken Demo.env Demo.db "s3cr3t.iivineri-refresh.1" =
      .error (.errorf "invalid token type") ∧
    RequireAuth Demo.env Demo.db (Demo.request "Bearer s3cr3t.iivineri-refresh.1") =
      .respond { Demo.request "Bearer s3cr3t.iivineri-refresh.1" with
                 status := 401
                 body := some { Success := false, Message := "Invalid or expired token" } } := by
  decide

/-- C27 (as amended). On a request with a bearer token: when `ValidateToken` fails,
whatever the reason, `RequireAuth` answers Unauthorized with the fixed message "Invalid
or expired token"; when `ValidateToken` accepts and `ValidateUser` fails, it answers
Unauthorized with the text of the error `ValidateUser` returned, which is "user not
found", "user is banned", or the wrapped failure of the ban check. -/
theorem requireAuth_rejection_message (env : Env) (db : DB) (c : Ctx) (token : String)
    (hh : c.Get "Authorization" = "Bearer " ++ token) (ht : token ≠ "") :
    (∀ e, ValidateToken env db token = .error e →
      RequireAuth env db c =
        .respond { c with status := StatusUnauthorized
                          body := some { Success := false
                                         Message := "Invalid or expired token" } }) ∧
    (∀ user e, ValidateToken env db token = .ok user →
      ValidateUser env db user.ID = .error e →
      RequireAuth env db c =
        .respond { c with status := StatusUnauthorized
                          body := some { Success := false, Message := e.Error } } ∧
      (e = .errorf "user not found" ∨ e = .errorf "user is banned" ∨
        ∃ inner, e = .wrapf "failed to check ban status" inner)) := by
  have hR := RequireAuth_bearer env db c token hh ht
  constructor
  · intro e he
    rw [hR, he]
    rfl
  · intro user e hu he
    refine ⟨?_, ValidateUser_error_cases env db user.ID e he⟩
    rw [hR, hu]
    simp only [he]
    unfold UnauthorizedResponse
    simp only [if_neg (ValidateUser_error_text env db user.ID e he)]

/-- Witness of C27 (as amended): the banned user dave presents his access token and is
told "user is banned". -/
theorem requireAuth_rejection_message_witness :
    RequireAuth Demo.env Demo.db (Demo.request "Bearer s3cr3t.iivineri.4") =
      .respond { Demo.request "Bearer s3cr3t.iivineri.4" with
                 status := StatusUnauthorized
                 body := some { Success := false
                                Message := (GoError.errorf "user is banned").Error } } :=
  ((requireAuth_rejection_message Demo.env Demo.db (Demo.request "Bearer s3cr3t.iivineri.4")
    "s3cr3t.iivineri.4" (by decide) (by decide)).2 Demo.dave (.errorf "user is banned")
    (by decide) (by decide)).1

end Iivineri

/-! ## The filter of the database log -/

namespace Iivineri

/-- What `shouldLogLevel` computes for each recognised level name. -/
theorem shouldLogLevel_lowercase (level : tracelog.LogLevel) :
    pgxLogger.shouldLogLevel ⟨"trace"⟩ level = true ∧
    pgxLogger.shouldLogLevel ⟨"debug"⟩ level = decide (5 ≤ level) ∧
    pgxLogger.shouldLogLevel ⟨"info"⟩ level = decide (4 ≤ level) ∧
    pgxLogger.shouldLogLevel ⟨"warn"⟩ level = decide (3 ≤ level) ∧
    pgxLogger.shouldLogLevel ⟨"error"⟩ level = decide (2 ≤ level) ∧
    pgxLogger.shouldLogLevel ⟨"none"⟩ level = false ∧
    pgxLogger.shouldLogLevel ⟨"off"⟩ level = false ∧
    pgxLogger.shouldLogLevel ⟨"verbose"⟩ level = decide (4 ≤ level) := by
  have h1 : strings.ToLower "trace" = "trace" := by decide
  have h2 : strings.ToLower "debug" = "debug" := by decide
  have h3 : strings.ToLower "info" = "info" := by decide
  have h4 : strings.ToLower "warn" = "warn" := by decide
  have h5 : strings.ToLower "error" = "error" := by decide
  have h6 : strings.ToLower "none" = "none" := by decide
  have h7 : strings.ToLower "off" = "off" := by decide
  have h8 : strings.ToLower "verbose" = "verbose" := by decide
  unfold pgxLogger.shouldLogLevel
  simp only [h1, h2, h3, h4, h5, h6, h7, h8]
  refine ⟨?_, ?_, ?_, ?_, ?_, ?_, ?_, ?_⟩ <;> simp [tracelog.LogLevelDebug,
    tracelog.LogLevelInfo, tracelog.LogLevelWarn, tracelog.LogLevelError]

/-- C29 fails on the code: with the DB log level "info", `shouldLogLevel` returns false
for a message of level warn and for one of level error, and true for one of level debug
and for one of level trace, under the level values of pgx (trace 6, debug 5, info 4,
warn 3, error 2, none 1). The same holds for an unrecognised level name; with "warn" an
error message is dropped and debug passes; with "error" every level passes. -/
theorem shouldLogLevel_inverts_severity :
    pgxLogger.shouldLogLevel ⟨"info"⟩ tracelog.LogLevelWarn = false ∧
    pgxLogger.shouldLogLevel ⟨"info"⟩ tracelog.LogLevelError = false ∧
    pgxLogger.shouldLogLevel ⟨"info"⟩ tracelog.LogLevelInfo = true ∧
    pgxLogger.shouldLogLevel ⟨"info"⟩ tracelog.LogLevelDebug = true ∧
    pgxLogger.shouldLogLevel ⟨"info"⟩ tracelog.LogLevelTrace = true ∧
    pgxLogger.shouldLogLevel ⟨"verbose"⟩ tracelog.LogLevelError = false ∧
    pgxLogger.shouldLogLevel ⟨"verbose"⟩ tracelog.LogLevelDebug = true ∧
    pgxLogger.shouldLogLevel ⟨"warn"⟩ tracelog.LogLevelError = false ∧
    pgxLogger.shouldLogLevel ⟨"warn"⟩ tracelog.LogLevelDebug = true ∧
    pgxLogger.shouldLogLevel ⟨"error"⟩ tracelog.LogLevelTrace = true ∧
    pgxLogger.shouldLogLevel ⟨"INFO"⟩ tracelog.LogLevelWarn = false := by
  decide

end Iivineri

/-! ## The shape of the backup codes -/

namespace Iivineri

/-- Every character of a quantum is a character of the alphabet. -/
theorem base32_char_mem (v : Nat) : base32.char v ∈ base32.encodeStd.data := by
  have h : ∀ n, n < 32 → base32.encodeStd.data.getD n 'A' ∈ base32.encodeStd.data := by
    decide
  exact h (v % 32) (Nat.mod_lt v (by decide))

/-- The characters of the alphabet are the letters A to Z and the digits 2 to 7; the
padding character is not among them. -/
theorem base32_alphabet :
    ∀ c ∈ base32.encodeStd.data,
      (('A' ≤ c ∧ c ≤ 'Z') ∨ ('2' ≤ c ∧ c ≤ '7')) ∧ c ≠ '=' := by
  decide

theorem randomCode_length (env : Env) (i : Nat) : (randomCode env i).length = 10 := by
  unfold randomCode
  simp [List.length_take]

/-- The encoding of at least five bytes starts with the encoding of the first five. -/
theorem base32_encode_take (l : List Nat) (h : 5 ≤ l.length) :
    (base32.encode l).take 8 = base32.encode (l.take 5) ∧
    (base32.encode l).take 8 =
      base32.quantum (l.getD 0 0) (l.getD 1 0) (l.getD 2 0) (l.getD 3 0) (l.getD 4 0) := by
  rcases l with _ | ⟨b0, _ | ⟨b1, _ | ⟨b2, _ | ⟨b3, _ | ⟨b4, rest⟩⟩⟩⟩⟩
  all_goals try (simp at h; done)
  simp [base32.encode, base32.quantum]

/-- Ten bytes are encoded in sixteen characters. -/
theorem base32_encode_length (l : List Nat) (h : l.length = 10) :
    (base32.encode l).length = 16 := by
  rcases l with _ | ⟨b0, _ | ⟨b1, _ | ⟨b2, _ | ⟨b3, _ | ⟨b4, _ | ⟨b5, _ | ⟨b6, _ | ⟨b7,
    _ | ⟨b8, _ | ⟨b9, _ | ⟨b10, rest⟩⟩⟩⟩⟩⟩⟩⟩⟩⟩⟩
  all_goals try (simp at h; done)
  · simp [base32.encode, base32.quantum]

/-- The codes a successful `Enable2FA` returns. -/
theorem Enable2FA_codes (env : Env) (db db2 : DB) (userID : Int) (req : Enable2FARequest)
    (resp : Enable2FAResponse) (h : Enable2FA env db userID req = (.ok resp, db2)) :
    resp.BackupCodes = (List.range 10).map (backupCode env) := by
  unfold Enable2FA at h
  split at h
  · cases h
  · split at h
    · cases h
    · split at h
      · cases h
      · simp only [Prod.mk.injEq, Except.ok.injEq] at h
        rw [← h.1]

/-- C30. Each backup code of `Enable2FA` is cut out of the sixteen characters that
encode its ten random bytes, so the slice `[:8]` is within range; it is 8 characters
long, its characters are letters A to Z or digits 2 to 7 of the base32 alphabet, none is
the padding character, and it is the base32 encoding of the first 5 of the 10 bytes. A
successful `Enable2FA` returns 10 such codes. -/
theorem backup_codes_shape (env : Env) :
    (∀ i : Nat,
      (randomCode env i).length = 10 ∧
      (base32.StdEncoding.EncodeToString (randomCode env i)).length = 16 ∧
      8 ≤ (base32.StdEncoding.EncodeToString (randomCode env i)).length ∧
      (backupCode env i).length = 8 ∧
      (∀ c ∈ (backupCode env i).data,
        c ∈ base32.encodeStd.data ∧
        (('A' ≤ c ∧ c ≤ 'Z') ∨ ('2' ≤ c ∧ c ≤ '7')) ∧ c ≠ '=') ∧
      backupCode env i = base32.StdEncoding.EncodeToString ((randomCode env i).take 5)) ∧
    (∀ (db db2 : DB) (userID : Int) (req : Enable2FARequest) (resp : Enable2FAResponse),
      Enable2FA env db userID req = (.ok resp, db2) →
      resp.BackupCodes.length = 10 ∧
      ∀ code ∈ resp.BackupCodes,
        code.length = 8 ∧
        (∀ c ∈ code.data,
          c ∈ base32.encodeStd.data ∧
          (('A' ≤ c ∧ c ≤ 'Z') ∨ ('2' ≤ c ∧ c ≤ '7')) ∧ c ≠ '=') ∧
        ∃ i, i < 10 ∧
          code = base32.StdEncoding.EncodeToString ((randomCode env i).take 5)) := by
  have hcode : ∀ i : Nat,
      (randomCode env i).length = 10 ∧
      (base32.StdEncoding.EncodeToString (randomCode env i)).length = 16 ∧
      8 ≤ (base32.StdEncoding.EncodeToString (randomCode env i)).length ∧
      (backupCode env i).length = 8 ∧
      (∀ c ∈ (backupCode env i).data,
        c ∈ base32.encodeStd.data ∧
        (('A' ≤ c ∧ c ≤ 'Z') ∨ ('2' ≤ c ∧ c ≤ '7')) ∧ c ≠ '=') ∧
      backupCode env i = base32.StdEncoding.EncodeToString ((randomCode env i).take 5) := by
    intro i
    have hlen := randomCode_length env i
    have h16 : (base32.StdEncoding.EncodeToString (randomCode env i)).length = 16 := by
      unfold base32.StdEncoding.EncodeToString
      rw [String.length_mk]
      exact base32_encode_length _ hlen
    obtain ⟨htake, hq⟩ := base32_encode_take (randomCode env i) (by omega)
    have hdata : (backupCode env i).data = (base32.encode (randomCode env i)).take 8 := rfl
    refine ⟨hlen, h16, by omega, ?_, ?_, ?_⟩
    · have h : (backupCode env i).length = ((base32.encode (randomCode env i)).take 8).length :=
        rfl
      rw [h, List.length_take]
      have h2 : (base32.encode (randomCode env i)).length = 16 :=
        base32_encode_length _ hlen
      omega
    · intro c hc
      rw [hdata, hq] at hc
      have hmem : c ∈ base32.encodeStd.data := by
        simp only [base32.quantum, List.mem_cons, List.mem_singleton, List.not_mem_nil,
          or_false] at hc
        rcases hc with h | h | h | h | h | h | h | h <;> (rw [h]; exact base32_char_mem _)
      exact ⟨hmem, base32_alphabet c hmem⟩
    · unfold backupCode base32.StdEncoding.EncodeToString
      rw [htake]
  refine ⟨hcode, ?_⟩
  intro db db2 userID req resp h
  have hc := Enable2FA_codes env db db2 userID req resp h
  rw [hc]
  refine ⟨by simp, ?_⟩
  intro code hmem
  simp only [List.mem_map, List.mem_range] at hmem
  obtain ⟨i, hi, he⟩ := hmem
  obtain ⟨_, _, _, h8, halpha, henc⟩ := hcode i
  rw [← he]
  exact ⟨h8, halpha, i, hi, henc⟩

/-- Witness of C30: the codes alice gets; the first is the encoding of the five bytes
of "fooba". -/
theorem backup_codes_shape_witness :
    backupCode Demo.env 0 = "MZXW6YTB" ∧
    (∃ i, i < 10 ∧ "MZXW6YTB" =
      base32.StdEncoding.EncodeToString ((randomCode Demo.env i).take 5)) :=
  ⟨by decide,
   (((backup_codes_shape Demo.env).2 Demo.db
      (Enable2FA Demo.env Demo.db 1 ⟨"wonderland"⟩).2 1 ⟨"wonderland"⟩
      { Secret := "GEZDGNBVGY3TQOJQ"
        QRCodeURL := "otpauth://totp/Iivineri:alice@example.com" ++
          "?secret=GEZDGNBVGY3TQOJQ&issuer=Iivineri"
        BackupCodes := (List.range 10).map (backupCode Demo.env) }
      (by decide)).2 "MZXW6YTB" (by decide)).2.2⟩

end Iivineri

/-! ## Failures of the store -/

namespace Iivineri

theorem Is_refl (e : GoError) : e.Is e = true := by
  cases e <;> simp [GoError.Is]

/-- An error wraps what the error inside it wraps. -/
theorem Is_wrapf (msg : String) (inner target : GoError) (h : inner.Is target = true) :
    (GoError.wrapf msg inner).Is target = true := by
  simp [GoError.Is, h]

/-- An error built without `%w` wraps no driver failure. -/
theorem Is_errorf (text msg : String) : (GoError.errorf text).Is (.driver msg) = false := by
  simp [GoError.Is]

theorem QueryRow_fault {α : Type} (env : Env) (op : StoreOp) (row : Option α) (msg : String)
    (h : env.fault op = some msg) : QueryRow env op row = .error (.driver msg) := by
  unfold QueryRow
  rw [h]

theorem Exec_fault (env : Env) (op : StoreOp) (msg : String)
    (h : env.fault op = some msg) : Exec env op = .error (.driver msg) := by
  unfold Exec
  rw [h]

theorem GetByID_fault (env : Env) (db : DB) (id : Int) (msg : String)
    (h : env.fault .userGetByID = some msg) :
    UserRepository.GetByID env db id = .error (.wrapf "failed to get user" (.driver msg)) := by
  unfold UserRepository.GetByID
  rw [QueryRow_fault env _ _ msg h]
  simp

theorem GetByEmail_fault (env : Env) (db : DB) (email : String) (msg : String)
    (h : env.fault .userGetByEmail = some msg) :
    UserRepository.GetByEmail env db email =
      .error (.wrapf "failed to get user" (.driver msg)) := by
  unfold UserRepository.GetByEmail
  rw [QueryRow_fault env _ _ msg h]
  simp

theorem ResetGetByID_fault (env : Env) (db : DB) (id : String) (msg : String)
    (h : env.fault .resetGetByID = some msg) :
    ResetPasswordRepository.GetByID env db id =
      .error (.wrapf "failed to get reset token" (.driver msg)) := by
  unfold ResetPasswordRepository.GetByID
  rw [QueryRow_fault env _ _ msg h]
  simp

theorem IsUserBanned_fault (env : Env) (db : DB) (id : Int) (msg : String)
    (h : env.fault .banIsUserBanned = some msg) :
    BanRepository.IsUserBanned env db id =
      .error (.wrapf "failed to check ban status" (.driver msg)) := by
  unfold BanRepository.IsUserBanned
  rw [QueryRow_fault env _ _ msg h]

theorem Update_fault (env : Env) (db : DB) (user : User) (msg : String)
    (h : env.fault .userUpdate = some msg) :
    UserRepository.Update env db user =
      (.error (.wrapf "failed to update user" (.driver msg)), db) := by
  unfold UserRepository.Update
  rw [Exec_fault env _ msg h]

/-- The failures `Register` returns wrapped: of the two existence checks and of the
insertion. -/
theorem Register_fault (env : Env) (db : DB) (req : RegisterRequest) (msg : String) :
    (env.fault .userEmailExists = some msg →
      ∃ e, Register env db req = (.error e, db) ∧ e.Is (.driver msg) = true) ∧
    (UserRepository.EmailExists env db req.Email = .ok false →
      env.fault .userNicknameExists = some msg →
      ∃ e, Register env db req = (.error e, db) ∧ e.Is (.driver msg) = true) ∧
    (∀ hashed dateOfBirth, UserRepository.EmailExists env db req.Email = .ok false →
      UserRepository.NicknameExists env db req.Nickname = .ok false →
      env.GenerateFromPassword req.Password = .ok hashed →
      req.GetDateOfBirth env = .ok dateOfBirth →
      env.fault .userCreate = some msg →
      ∃ e, Register env db req = (.error e, db) ∧ e.Is (.driver msg) = true) := by
  refine ⟨?_, ?_, ?_⟩
  · intro h
    refine ⟨.wrapf "failed to check email existence"
      (.wrapf "failed to check email existence" (.driver msg)), ?_, by simp [GoError.Is]⟩
    unfold Register UserRepository.EmailExists
    rw [QueryRow_fault env _ _ msg h]
  · intro he h
    refine ⟨.wrapf "failed to check nickname existence"
      (.wrapf "failed to check nickname existence" (.driver msg)), ?_, by simp [GoError.Is]⟩
    unfold Register
    rw [he]
    unfold UserRepository.NicknameExists
    rw [QueryRow_fault env _ _ msg h]
    simp
  · intro hashed dateOfBirth he hn hh hd h
    refine ⟨.wrapf "failed to create user"
      (.wrapf "failed to create user" (.driver msg)), ?_, by simp [GoError.Is]⟩
    unfold Register
    rw [he]
    simp only [hn, hh, hd]
    unfold UserRepository.Create
    rw [QueryRow_fault env _ _ msg h]
    simp

/-- The failure of the ban check is returned wrapped by `Login`, `RefreshToken` and
`ValidateUser`. -/
theorem banCheck_fault (env : Env) (db : DB) (msg : String)
    (h : env.fault .banIsUserBanned = some msg) :
    (∀ (req : LoginRequest) (u : User),
      UserRepository.GetByEmail env db req.Email = .ok u →
      ∃ e, Login env db req = .error e ∧ e.Is (.driver msg) = true) ∧
    (∀ (req : RefreshTokenRequest) (claims : JWTClaims) (u : User),
      ParseWithClaims env req.RefreshToken = .ok claims →
      claims.Issuer = "iivineri-refresh" →
      UserRepository.GetByID env db claims.UserID = .ok u →
      ∃ e, RefreshToken env db req = .error e ∧ e.Is (.driver msg) = true) ∧
    (∀ (userID : Int) (u : User), UserRepository.GetByID env db userID = .ok u →
      ∃ e, ValidateUser env db userID = .error e ∧ e.Is (.driver msg) = true) := by
  have hw : (GoError.wrapf "failed to check ban status"
      (.wrapf "failed to check ban status" (.driver msg))).Is (.driver msg) = true := by
    simp [GoError.Is]
  refine ⟨?_, ?_, ?_⟩
  · intro req u hget
    refine ⟨_, ?_, hw⟩
    unfold Login
    rw [hget]
    simp only [IsUserBanned_fault env db u.ID msg h]
  · intro req claims u hp hiss hget
    refine ⟨_, ?_, hw⟩
    unfold RefreshToken
    rw [hp]
    simp only [hiss, hget, IsUserBanned_fault env db u.ID msg h]
    simp
  · intro userID u hget
    refine ⟨_, ?_, hw⟩
    unfold ValidateUser
    rw [hget]
    simp only [IsUserBanned_fault env db u.ID msg h]

/-- The failure of the update of the user row is returned wrapped by `ChangePassword`,
`ConfirmPasswordReset`, `Confirm2FA` and `Disable2FA`, with the store unchanged. -/
theorem update_fault (env : Env) (db : DB) (msg : String)
    (h : env.fault .userUpdate = some msg) :
    (∀ (userID : Int) (req : ChangePasswordRequest) (user : User) (hashed : String),
      UserRepository.GetByID env db userID = .ok user →
      env.CompareHashAndPassword user.Password req.CurrentPassword = true →
      (user.Is2FAEnabled = true →
        ∃ code, req.TOTPCode = some code ∧ code ≠ "" ∧
          env.totpValidate code user.Secret2FA = true) →
      env.GenerateFromPassword req.NewPassword = .ok hashed →
      ∃ e, ChangePassword env db userID req = (.error e, db) ∧ e.Is (.driver msg) = true) ∧
    (∀ (req : PasswordResetConfirmRequest) (reset : ResetPassword) (user : User)
      (hashed : String),
      ResetPasswordRepository.GetByID env db req.Token = .ok reset →
      UserRepository.GetByEmail env db reset.Email = .ok user →
      env.GenerateFromPassword req.NewPassword = .ok hashed →
      ∃ e, ConfirmPasswordReset env db req = (.error e, db) ∧ e.Is (.driver msg) = true) ∧
    (∀ (userID : Int) (req : Confirm2FARequest) (user : User),
      UserRepository.GetByID env db userID = .ok user →
      env.totpValidate req.TOTPCode req.Secret = true →
      ∃ e, Confirm2FA env db userID req = (.error e, db) ∧ e.Is (.driver msg) = true) ∧
    (∀ (userID : Int) (req : Disable2FARequest) (user : User),
      UserRepository.GetByID env db userID = .ok user →
      env.CompareHashAndPassword user.Password req.Password = true →
      (∀ code, req.TOTPCode = some code → code ≠ "" →
        env.totpValidate code user.Secret2FA = true) →
      ∃ e, Disable2FA env db userID req = (.error e, db) ∧ e.Is (.driver msg) = true) := by
  refine ⟨?_, ?_, ?_, ?_⟩
  · intro userID req user hashed hget hpw h2fa hh
    have hend : changePasswordEnd env db user req =
        (.error (.wrapf "failed to update password"
          (.wrapf "failed to update user" (.driver msg))), db) := by
      unfold changePasswordEnd
      rw [hh]
      simp only [Update_fault env db _ msg h]
    refine ⟨.wrapf "failed to update password"
      (.wrapf "failed to update user" (.driver msg)), ?_, by simp [GoError.Is]⟩
    unfold ChangePassword
    rw [hget]
    simp only [hpw]
    cases h2 : user.Is2FAEnabled with
    | false => simpa using hend
    | true =>
      obtain ⟨code, hc, hne, hv⟩ := h2fa h2
      simp only [hc]
      simpa [hne, hv] using hend
  · intro req reset user hashed hr hu hh
    refine ⟨.wrapf "failed to update password"
      (.wrapf "failed to update user" (.driver msg)), ?_, by simp [GoError.Is]⟩
    unfold ConfirmPasswordReset
    rw [hr]
    simp only [hu, hh, Update_fault env db _ msg h]
  · intro userID req user hget hv
    refine ⟨.wrapf "failed to enable 2FA"
      (.wrapf "failed to update user" (.driver msg)), ?_, by simp [GoError.Is]⟩
    unfold Confirm2FA
    rw [hget]
    simp only [hv, Update_fault env db _ msg h]
    simp
  · intro userID req user hget hpw hcode
    have hend : disable2FAEnd env db userID user =
        (.error (.wrapf "failed to disable 2FA"
          (.wrapf "failed to update user" (.driver msg))), db) := by
      unfold disable2FAEnd
      simp only [Update_fault env db _ msg h]
    refine ⟨.wrapf "failed to disable 2FA"
      (.wrapf "failed to update user" (.driver msg)), ?_, by simp [GoError.Is]⟩
    unfold Disable2FA
    rw [hget]
    simp only [hpw]
    cases hc : req.TOTPCode with
    | none => simpa using hend
    | some code =>
      by_cases hne : code = ""
      · simpa [hne] using hend
      · simpa [hne, hcode code hc hne] using hend

/-- The failures returned wrapped by `LogoutAll`, `GetProfile` and
`RequestPasswordReset` (of the insertion of the token). -/
theorem other_faults_wrapped (env : Env) (db : DB) (msg : String) :
    (∀ userID : Int, env.fault .sessionDeleteAllByUserID = some msg →
      ∃ e, LogoutAll env db userID = (.error e, db) ∧ e.Is (.driver msg) = true) ∧
    (∀ userID : Int, env.fault .userGetByID = some msg →
      ∃ e, GetProfile env db userID = .error e ∧ e.Is (.driver msg) = true) ∧
    (∀ (req : PasswordResetRequest) (u : User),
      UserRepository.GetByEmail env db req.Email = .ok u →
      env.fault .resetCreate = some msg →
      ∃ e, RequestPasswordReset env db req = (.error e, db) ∧
        e.Is (.driver msg) = true) := by
  refine ⟨?_, ?_, ?_⟩
  · intro userID h
    refine ⟨.wrapf "failed to logout all sessions"
      (.wrapf "failed to delete sessions" (.driver msg)), ?_, by simp [GoError.Is]⟩
    unfold LogoutAll SessionRepository.DeleteAllByUserID
    rw [Exec_fault env _ msg h]
  · intro userID h
    refine ⟨.wrapf "failed to get user profile"
      (.wrapf "failed to get user" (.driver msg)), ?_, by simp [GoError.Is]⟩
    unfold GetProfile
    rw [GetByID_fault env db userID msg h]
  · intro req u hget h
    refine ⟨.wrapf "failed to create reset token"
      (.wrapf "failed to create reset token" (.driver msg)), ?_, by simp [GoError.Is]⟩
    unfold RequestPasswordReset ResetPasswordRepository.Create
    rw [hget]
    simp only [Exec_fault env _ msg h]

/-- A failed lookup of the user or of the reset token is not returned: it becomes
"user not found" or "invalid or expired reset token", and success in
`RequestPasswordReset`. -/
theorem lookup_fault_replaced (env : Env) (db : DB) (msg : String) :
    (env.fault .userGetByID = some msg →
      (∀ userID req, ChangePassword env db userID req =
        (.error (.errorf "user not found"), db)) ∧
      (∀ userID req, Enable2FA env db userID req =
        (.error (.errorf "user not found"), db)) ∧
      (∀ userID req, Confirm2FA env db userID req =
        (.error (.errorf "user not found"), db)) ∧
      (∀ userID req, Disable2FA env db userID req =
        (.error (.errorf "user not found"), db)) ∧
      (∀ userID, ValidateUser env db userID = .error (.errorf "user not found")) ∧
      (∀ tokenString claims, ParseWithClaims env tokenString = .ok claims →
        claims.Issuer = "iivineri" →
        ValidateToken env db tokenString = .error (.errorf "user not found")) ∧
      (∀ (req : RefreshTokenRequest) claims,
        ParseWithClaims env req.RefreshToken = .ok claims →
        claims.Issuer = "iivineri-refresh" →
        RefreshToken env db req = .error (.errorf "user not found"))) ∧
    (env.fault .userGetByEmail = some msg →
      (∀ req, RequestPasswordReset env db req = (.ok (), db)) ∧
      (∀ req, Login env db req = .error (.errorf "invalid credentials")) ∧
      (∀ (req : PasswordResetConfirmRequest) reset,
        ResetPasswordRepository.GetByID env db req.Token = .ok reset →
        ConfirmPasswordReset env db req = (.error (.errorf "user not found"), db))) ∧
    (env.fault .resetGetByID = some msg →
      ∀ req, ConfirmPasswordReset env db req =
        (.error (.errorf "invalid or expired reset token"), db)) := by
  refine ⟨?_, ?_, ?_⟩
  · intro h
    refine ⟨?_, ?_, ?_, ?_, ?_, ?_, ?_⟩
    · intro userID req
      unfold ChangePassword
      rw [GetByID_fault env db userID msg h]
    · intro userID req
      unfold Enable2FA
      rw [GetByID_fault env db userID msg h]
    · intro userID req
      unfold Confirm2FA
      rw [GetByID_fault env db userID msg h]
    · intro userID req
      unfold Disable2FA
      rw [GetByID_fault env db userID msg h]
    · intro userID
      unfold ValidateUser
      rw [GetByID_fault env db userID msg h]
    · intro tokenString claims hp hiss
      unfold ValidateToken
      rw [hp]
      simp only [hiss, GetByID_fault env db claims.UserID msg h]
      simp
    · intro req claims hp hiss
      unfold RefreshToken
      rw [hp]
      simp only [hiss, GetByID_fault env db claims.UserID msg h]
      simp
  · intro h
    refine ⟨?_, ?_, ?_⟩
    · intro req
      unfold RequestPasswordReset
      rw [GetByEmail_fault env db req.Email msg h]
    · intro req
      unfold Login
      rw [GetByEmail_fault env db req.Email msg h]
    · intro req reset hr
      unfold ConfirmPasswordReset
      rw [hr]
      simp only [GetByEmail_fault env db reset.Email msg h]
  · intro h req
    unfold ConfirmPasswordReset
    rw [ResetGetByID_fault env db req.Token msg h]

/-- A failed cleanup is logged and not returned: `ConfirmPasswordReset` succeeds
whatever the deletion of the token and the invalidation of the sessions answer, and
`Disable2FA` succeeds whatever the deletion of the backup codes answers. -/
theorem cleanup_fault_logged (env : Env) (db : DB) :
    (∀ (req : PasswordResetConfirmRequest) (reset : ResetPassword) (user : User)
      (hashed : String),
      ResetPasswordRepository.GetByID env db req.Token = .ok reset →
      UserRepository.GetByEmail env db reset.Email = .ok user →
      env.GenerateFromPassword req.NewPassword = .ok hashed →
      env.fault .userUpdate = none →
      (ConfirmPasswordReset env db req).1 = .ok ()) ∧
    (∀ (userID : Int) (req : Disable2FARequest) (user : User),
      UserRepository.GetByID env db userID = .ok user →
      env.CompareHashAndPassword user.Password req.Password = true →
      (∀ code, req.TOTPCode = some code → code ≠ "" →
        env.totpValidate code user.Secret2FA = true) →
      env.fault .userUpdate = none →
      (Disable2FA env db userID req).1 = .ok ()) := by
  refine ⟨?_, ?_⟩
  · intro req reset user hashed hr hu hh hf
    unfold ConfirmPasswordReset UserRepository.Update
    rw [hr]
    simp only [hu, hh, Exec_ok env .userUpdate hf]
  · intro userID req user hget hpw hcode hf
    have hend : (disable2FAEnd env db userID user).1 = .ok () := by
      unfold disable2FAEnd UserRepository.Update
      simp only [Exec_ok env .userUpdate hf]
    unfold Disable2FA
    rw [hget]
    simp only [hpw]
    cases hc : req.TOTPCode with
    | none => simpa using hend
    | some code =>
      by_cases hne : code = ""
      · simpa [hne] using hend
      · simpa [hne, hcode code hc hne] using hend

/-- Counterexample to C26: with a driver that refuses the lookup by id, `ValidateUser`
answers "user not found", an error that wraps nothing; with one that refuses the lookup
by email, `RequestPasswordReset` returns success; with one that refuses the lookup of
the reset token, `ConfirmPasswordReset` answers "invalid or expired reset token" for a
live token. -/
theorem store_failure_replaced :
    ValidateUser (Demo.envFailing [.userGetByID]) Demo.db 1 =
      .error (.errorf "user not found") ∧
    (GoError.errorf "user not found").Is (.driver "connection refused") = false ∧
    RequestPasswordReset (Demo.envFailing [.userGetByEmail]) Demo.db ⟨"alice@example.com"⟩ =
      (.ok (), Demo.db) ∧
    ConfirmPasswordReset (Demo.envFailing [.resetGetByID]) Demo.fullDB
        ⟨"0b7e2f1c-5a63-4d8e-9f10-2c3d4e5f6a7b", "looking-glass"⟩ =
      (.error (.errorf "invalid or expired reset token"), Demo.fullDB) ∧
    ConfirmPasswordReset Demo.env Demo.fullDB
        ⟨"0b7e2f1c-5a63-4d8e-9f10-2c3d4e5f6a7b", "looking-glass"⟩ ≠
      (.error (.errorf "invalid or expired reset token"), Demo.fullDB) := by
  decide

/-- C26 (as amended). When the driver fails a store operation with the failure `msg`:
`Register` returns it wrapped for the two existence checks and the insertion; `Login`,
`RefreshToken` and `ValidateUser` return it wrapped for the ban check; `ChangePassword`,
`ConfirmPasswordReset`, `Confirm2FA` and `Disable2FA` return it wrapped for the update
of the user row; `LogoutAll`, `GetProfile` and the insertion of `RequestPasswordReset`
return it wrapped. A failed lookup of the user by id is answered with "user not found"
by `ChangePassword`, `Enable2FA`, `Confirm2FA`, `Disable2FA`, `ValidateUser`,
`ValidateToken` and `RefreshToken`; a failed lookup by email with success by
`RequestPasswordReset`, with "invalid credentials" by `Login` and with "user not found"
by `ConfirmPasswordReset`; a failed lookup of the reset token with "invalid or expired
reset token". A failed cleanup after the update (deletion of the reset token,
invalidation of the sessions, deletion of the backup codes) is logged and the operation
returns success. -/
theorem store_failures (env : Env) (db : DB) (msg : String) :
    (∀ req : RegisterRequest,
      (env.fault .userEmailExists = some msg →
        ∃ e, Register env db req = (.error e, db) ∧ e.Is (.driver msg) = true) ∧
      (UserRepository.EmailExists env db req.Email = .ok false →
        env.fault .userNicknameExists = some msg →
        ∃ e, Register env db req = (.error e, db) ∧ e.Is (.driver msg) = true) ∧
      (∀ hashed dateOfBirth, UserRepository.EmailExists env db req.Email = .ok false →
        UserRepository.NicknameExists env db req.Nickname = .ok false →
        env.GenerateFromPassword req.Password = .ok hashed →
        req.GetDateOfBirth env = .ok dateOfBirth →
        env.fault .userCreate = some msg →
        ∃ e, Register env db req = (.error e, db) ∧ e.Is (.driver msg) = true)) ∧
    (env.fault .banIsUserBanned = some msg →
      (∀ (req : LoginRequest) (u : User),
        UserRepository.GetByEmail env db req.Email = .ok u →
        ∃ e, Login env db req = .error e ∧ e.Is (.driver msg) = true) ∧
      (∀ (req : RefreshTokenRequest) (claims : JWTClaims) (u : User),
        ParseWithClaims env req.RefreshToken = .ok claims →
        claims.Issuer = "iivineri-refresh" →
        UserRepository.GetByID env db claims.UserID = .ok u →
        ∃ e, RefreshToken env db req = .error e ∧ e.Is (.driver msg) = true) ∧
      (∀ (userID : Int) (u : User), UserRepository.GetByID env db userID = .ok u →
        ∃ e, ValidateUser env db userID = .error e ∧ e.Is (.driver msg) = true)) ∧
    (env.fault .userUpdate = some msg →
      (∀ (userID : Int) (req : ChangePasswordRequest) (user : User) (hashed : String),
        UserRepository.GetByID env db userID = .ok user →
        env.CompareHashAndPassword user.Password req.CurrentPassword = true →
        (user.Is2FAEnabled = true →
          ∃ code, req.TOTPCode = some code ∧ code ≠ "" ∧
            env.totpValidate code user.Secret2FA = true) →
        env.GenerateFromPassword req.NewPassword = .ok hashed →
        ∃ e, ChangePassword env db userID req = (.error e, db) ∧ e.Is (.driver msg) = true) ∧
      (∀ (req : PasswordResetConfirmRequest) (reset : ResetPassword) (user : User)
        (hashed : String),
        ResetPasswordRepository.GetByID env db req.Token = .ok reset →
        UserRepository.GetByEmail env db reset.Email = .ok user →
        env.GenerateFromPassword req.NewPassword = .ok hashed →
        ∃ e, ConfirmPasswordReset env db req = (.error e, db) ∧ e.Is (.driver msg) = true) ∧
      (∀ (userID : Int) (req : Confirm2FARequest) (user : User),
        UserRepository.GetByID env db userID = .ok user →
        env.totpValidate req.TOTPCode req.Secret = true →
        ∃ e, Confirm2FA env db userID req = (.error e, db) ∧ e.Is (.driver msg) = true) ∧
      (∀ (userID : Int) (req : Disable2FARequest) (user : User),
        UserRepository.GetByID env db userID = .ok user →
        env.CompareHashAndPassword user.Password req.Password = true →
        (∀ code, req.TOTPCode = some code → code ≠ "" →
          env.totpValidate code user.Secret2FA = true) →
        ∃ e, Disable2FA env db userID req = (.error e, db) ∧ e.Is (.driver msg) = true)) ∧
    ((∀ userID : Int, env.fault .sessionDeleteAllByUserID = some msg →
      ∃ e, LogoutAll env db userID = (.error e, db) ∧ e.Is (.driver msg) = true) ∧
    (∀ userID : Int, env.fault .userGetByID = some msg →
      ∃ e, GetProfile env db userID = .error e ∧ e.Is (.driver msg) = true) ∧
    (∀ (req : PasswordResetRequest) (u : User),
      UserRepository.GetByEmail env db req.Email = .ok u →
      env.fault .resetCreate = some msg →
      ∃ e, RequestPasswordReset env db req = (.error e, db) ∧
        e.Is (.driver msg) = true)) ∧
    ((env.fault .userGetByID = some msg →
      (∀ userID req, ChangePassword env db userID req =
        (.error (.errorf "user not found"), db)) ∧
      (∀ userID req, Enable2FA env db userID req =
        (.error (.errorf "user not found"), db)) ∧
      (∀ userID req, Confirm2FA env db userID req =
        (.error (.errorf "user not found"), db)) ∧
      (∀ userID req, Disable2FA env db userID req =
        (.error (.errorf "user not found"), db)) ∧
      (∀ userID, ValidateUser env db userID = .error (.errorf "user not found")) ∧
      (∀ tokenString claims, ParseWithClaims env tokenString = .ok claims →
        claims.Issuer = "iivineri" →
        ValidateToken env db tokenString = .error (.errorf "user not found")) ∧
      (∀ (req : RefreshTokenRequest) claims,
        ParseWithClaims env req.RefreshToken = .ok claims →
        claims.Issuer = "iivineri-refresh" →
        RefreshToken env db req = .error (.errorf "user not found"))) ∧
    (env.fault .userGetByEmail = some msg →
      (∀ req, RequestPasswordReset env db req = (.ok (), db)) ∧
      (∀ req, Login env db req = .error (.errorf "invalid credentials")) ∧
      (∀ (req : PasswordResetConfirmRequest) reset,
        ResetPasswordRepository.GetByID env db req.Token = .ok reset →
        ConfirmPasswordReset env db req = (.error (.errorf "user not found"), db))) ∧
    (env.fault .resetGetByID = some msg →
      ∀ req, ConfirmPasswordReset env db req =
        (.error (.errorf "invalid or expired reset token"), db))) ∧
    ((∀ (req : PasswordResetConfirmRequest) (reset : ResetPassword) (user : User)
      (hashed : String),
      ResetPasswordRepository.GetByID env db req.Token = .ok reset →
      UserRepository.GetByEmail env db reset.Email = .ok user →
      env.GenerateFromPassword req.NewPassword = .ok hashed →
      env.fault .userUpdate = none →
      (ConfirmPasswordReset env db req).1 = .ok ()) ∧
    (∀ (userID : Int) (req : Disable2FARequest) (user : User),
      UserRepository.GetByID env db userID = .ok user →
      env.CompareHashAndPassword user.Password req.Password = true →
      (∀ code, req.TOTPCode = some code → code ≠ "" →
        env.totpValidate code user.Secret2FA = true) →
      env.fault .userUpdate = none →
      (Disable2FA env db userID req).1 = .ok ())) :=
  ⟨fun req => Register_fault env db req msg,
   fun h => banCheck_fault env db msg h,
   fun h => update_fault env db msg h,
   other_faults_wrapped env db msg,
   lookup_fault_replaced env db msg,
   cleanup_fault_logged env db⟩

/-- Witness of C26 (as amended): the ban check is refused while alice logs in, and the
error of `Login` wraps the failure of the driver. -/
theorem store_failures_witness :
    ∃ e, Login (Demo.envFailing [.banIsUserBanned]) Demo.db
        { Email := "alice@example.com", Password := "wonderland", TOTPCode := none } =
      .error e ∧ e.Is (.driver "connection refused") = true :=
  ((store_failures (Demo.envFailing [.banIsUserBanned]) Demo.db "connection refused").2.1
    (by decide)).1
    { Email := "alice@example.com", Password := "wonderland", TOTPCode := none }
    Demo.alice (by decide)

end Iivineri
